import Mathlib

/-!
# DotGame: a shallow embedding of the motion, session and high-score code

The definitions below follow `dot.cpp`, `dotwidget.cpp` and `mainwindow.cpp`
of `dotgame/trunk/src`.

Numeric model.
* `uint` values are natural numbers; where the code can wrap, the operation is
  written with an explicit `% 4294967296`.
* `int` values are integers; conversions between `int` and `uint` go through
  `toUInt` and `toInt32`.
* `float`, `qreal` and `double` values are modelled by exact rationals: the
  rounding error of the machine operations is not part of the model.  The
  square root of the C library is a parameter `fsqrt : ℚ → ℚ` of the functions
  that call it, except where its argument is a small integer and the result
  is truncated to `uint` (`Dot::setm_dotSize`), where it is `Nat.sqrt`.
* `QString` values are lists of characters.
-/

namespace DotGame

/-! ## Machine integers -/

/-- Conversion of an `int` to `uint` (reduction modulo 2^32). -/
def toUInt (z : Int) : Nat := (z % 4294967296).toNat

/-- Conversion of a `uint` to `int` (two's complement). -/
def toInt32 (n : Nat) : Int :=
  if n % 4294967296 < 2147483648 then ((n % 4294967296 : Nat) : Int)
  else ((n % 4294967296 : Nat) : Int) - 4294967296

/-- Result of an `int` operation whose exact value is `z`. -/
def wrapInt (z : Int) : Int := toInt32 (toUInt z)

/-- Conversion `int(q)` of a floating value: truncation toward zero. -/
def truncToInt (q : ℚ) : Int := wrapInt (if 0 ≤ q then ⌊q⌋ else ⌈q⌉)

/-- Qt `qRound(qreal d)`:
`d >= 0.0 ? int(d + 0.5) : int(d - int(d-1) + 0.5) + int(d-1)`. -/
def qRound (d : ℚ) : Int :=
  if 0 ≤ d then truncToInt (d + 1/2)
  else wrapInt (truncToInt (d - (truncToInt (d - 1) : ℚ) + 1/2) + truncToInt (d - 1))

/-! ## Qt value types

`QPoint`, `QSize`, `QVector2D` and `qRound` belong to Qt; the definitions
follow the Qt 4 sources the game is built against. -/

/-- `QPoint`: a point with `int` coordinates. -/
structure QPoint where
  x : Int
  y : Int
deriving DecidableEq, Repr

/-- `QSize`: a size with `int` width and height. -/
structure QSize where
  width : Int
  height : Int
deriving DecidableEq, Repr

/-- `QVector2D`: a vector with floating coordinates. -/
structure QVector2D where
  x : ℚ
  y : ℚ
deriving DecidableEq, Repr

/-- `QVector2D::operator*` by a scalar factor. -/
def QVector2D.scale (v : QVector2D) (k : ℚ) : QVector2D := ⟨v.x * k, v.y * k⟩

/-- `QVector2D::operator+`. -/
def QVector2D.add (v w : QVector2D) : QVector2D := ⟨v.x + w.x, v.y + w.y⟩

/-- `qFuzzyIsNull(double d)`: `qAbs(d) <= 0.000000000001`. -/
def qFuzzyIsNull (d : ℚ) : Bool := decide (|d| ≤ 1 / 1000000000000)

/-- `QVector2D::normalized()`: the vector itself when its squared length is
(fuzzily) 1, the vector divided by its length when the squared length is not
(fuzzily) null, the null vector otherwise. -/
def QVector2D.normalized (fsqrt : ℚ → ℚ) (v : QVector2D) : QVector2D :=
  let len := v.x * v.x + v.y * v.y
  if qFuzzyIsNull (len - 1) then v
  else if !qFuzzyIsNull len then ⟨v.x / fsqrt len, v.y / fsqrt len⟩
  else ⟨0, 0⟩

/-- `QVector2D::toPoint()`: both coordinates rounded with `qRound`. -/
def QVector2D.toPoint (v : QVector2D) : QPoint := ⟨qRound v.x, qRound v.y⟩

/-! ## `Dot` (dot.h, dot.cpp) -/

/-- Incremental distance the dot will move. -/
def MOVE_DISTANCE_DEFAULT : Nat := 3
/-- Minimum programmable dot speed. -/
def DOT_SPEED_MIN : Nat := 2
/-- Default speed of the dot, in milliseconds. -/
def DOT_SPEED_DEFAULT : Nat := 40
/-- Maximum programmable dot speed. -/
def DOT_SPEED_MAX : Nat := 50
/-- Minimum diameter of the drawn dot. -/
def DOT_DIAM_MIN : Nat := 8
/-- Diameter of the drawn dot, in pixels. -/
def DOT_DIAM_DEFAULT : Nat := 20
/-- Maximum diameter of the drawn dot. -/
def DOT_DIAM_MAX : Nat := 50
/-- Minimum dot acceleration. -/
def DOT_ACCEL_MIN : Nat := 0
/-- Number of milliseconds to speed up the dot movement by. -/
def DOT_ACCEL_DEFAULT : Nat := 1
/-- Maximum dot acceleration. -/
def DOT_ACCEL_MAX : Nat := 5
/-- Weight of the current vector component in the motion average (0.7). -/
def MOTION_WEIGHT_DEFAULT : ℚ := 7 / 10

/-- Data members of `Dot` that take part in motion and sizing.  The parent
widget size read through `m_parentLocPtr->size()` is an argument of the
functions that read it; `m_motionWeight` is the constant
`MOTION_WEIGHT_DEFAULT`. -/
structure Dot where
  m_curLoc : QPoint
  m_curMoveVect : QVector2D
  m_moveDist : Nat
  m_dotSize : QSize
deriving DecidableEq, Repr

/-- `Dot::applyBoundaryCheck`: the location moved into the parent rectangle. -/
def Dot.applyBoundaryCheck (parentSize : QSize) (tmpLoc : QPoint) : QPoint :=
  let x := if tmpLoc.x < 0 then 0
    else if tmpLoc.x > parentSize.width then parentSize.width else tmpLoc.x
  let y := if tmpLoc.y < 0 then 0
    else if tmpLoc.y > parentSize.height then parentSize.height else tmpLoc.y
  ⟨x, y⟩

/-- `Dot::setPos`. -/
def Dot.setPos (parentSize : QSize) (newPos : QPoint) (d : Dot) : Dot :=
  { d with m_curLoc := Dot.applyBoundaryCheck parentSize newPos }

/-- `Dot::setm_dotSize(uint newSize)`: the returned flag and the new state. -/
def Dot.setm_dotSize (newSize : Nat) (d : Dot) : Bool × Dot :=
  if DOT_DIAM_MIN ≤ newSize ∧ newSize ≤ DOT_DIAM_MAX then
    (true, { d with m_dotSize := ⟨(newSize : Int), (newSize : Int)⟩,
                    m_moveDist := Nat.sqrt (newSize / 2) })
  else
    (false, d)

/-- The x offset drawn in `Dot::updateLoc`:
`(tempRand % (2*m_moveDist + 1)) - m_moveDist`, evaluated in `uint` and stored
in an `int`. -/
def Dot.randIntX (tempRand : Int) (m_moveDist : Nat) : Int :=
  toInt32 ((toUInt tempRand % ((2 * m_moveDist + 1) % 4294967296)
            + 4294967296 - m_moveDist % 4294967296) % 4294967296)

/-- The y orientation in `Dot::updateLoc`: `tempRand % 2`, with 0 replaced
by -1. -/
def Dot.ySign (tempRand : Int) : Int :=
  if Int.tmod tempRand 2 = 0 then -1 else Int.tmod tempRand 2

/-- The random vector of `Dot::updateLoc`, a point of the circle of radius
`m_moveDist`. -/
def Dot.randMoveVect (fsqrt : ℚ → ℚ) (tempRand : Int) (m_moveDist : Nat) : QVector2D :=
  let randIntX := Dot.randIntX tempRand m_moveDist
  ⟨(randIntX : ℚ),
   (Dot.ySign tempRand : ℚ) * fsqrt ((m_moveDist : ℚ) ^ 2 - (randIntX : ℚ) ^ 2)⟩

/-- `Dot::updateLoc()`; `tempRand` is the value returned by `rand()`. -/
def Dot.updateLoc (fsqrt : ℚ → ℚ) (parentSize : QSize) (tempRand : Int) (d : Dot) : Dot :=
  let randMoveVect := Dot.randMoveVect fsqrt tempRand d.m_moveDist
  let v1 := (d.m_curMoveVect.scale MOTION_WEIGHT_DEFAULT).add
              (randMoveVect.scale (1 - MOTION_WEIGHT_DEFAULT))
  let v2 := (v1.normalized fsqrt).scale (d.m_moveDist : ℚ)
  let offset := v2.toPoint
  let loc : QPoint := ⟨wrapInt (d.m_curLoc.x + offset.x), wrapInt (d.m_curLoc.y + offset.y)⟩
  let invertWeight : ℚ := -1
  let (locx, vx) :=
    if loc.x < 0 then ((0 : Int), v2.x * invertWeight)
    else if loc.x > parentSize.width then (parentSize.width, v2.x * invertWeight)
    else (loc.x, v2.x)
  let (locy, vy) :=
    if loc.y < 0 then ((0 : Int), v2.y * invertWeight)
    else if loc.y > parentSize.height then (parentSize.height, v2.y * invertWeight)
    else (loc.y, v2.y)
  { d with m_curLoc := ⟨locx, locy⟩, m_curMoveVect := ⟨vx, vy⟩ }

/-- `Dot::calcPosErrorRatio`: the distance from the pointer to the dot divided
by `m_moveDist`. -/
def Dot.calcPosErrorRatio (fsqrt : ℚ → ℚ) (mousePos : QPoint) (d : Dot) : ℚ :=
  let ex := wrapInt (mousePos.x - d.m_curLoc.x)
  let ey := wrapInt (mousePos.y - d.m_curLoc.y)
  let errorDist := fsqrt ((ex : ℚ) ^ 2 + (ey : ℚ) ^ 2)
  errorDist / (d.m_moveDist : ℚ)

/-- A square root on rationals exact to three decimals, for evaluating the
functions above at concrete inputs. -/
def sqrtMilli (q : ℚ) : ℚ := (Nat.sqrt (⌊q * 1000000⌋.toNat) : ℚ) / 1000

/-! ## `DotWidget` (dotwidget.h, dotwidget.cpp) -/

/-- Possible game states for the Dot Game. -/
inductive dotGameState where
  | PAUSED
  | RUNNING
  | GAMEOVER
deriving DecidableEq, Repr

/-- Possible reason for the Dot Game ending. -/
inductive gameOverReason where
  | NO_GAME_OVER
  | TIME_LIMIT
  | DISTANCE
deriving DecidableEq, Repr

/-- Game time mode `INFINITE`; all values > 0 are treated as actual times. -/
def INFINITE : Nat := 0

/-- Maximum allowed distance between mouse cursor and the dot. -/
def CURSOR_DISTANCE_GAMEOVER : ℚ := 30
/-- Amount of time (seconds) for a timed game to last. -/
def GAME_LENGTH_DEFAULT_S : Nat := 10
/-- Length of time (in ms) between game stat updates. -/
def GAME_UPDATE_INTERVAL_MS : Nat := 80
/-- Number of samples to average in the position error ratio. -/
def ERROR_AVERAGING_RATIO : Nat := 16
/-- Initial value of the running average of the error ratio. -/
def RUNNING_AVERAGE_ERROR_DEFAULT : ℚ := 3
/-- Length of time (in ms) between speed increases. -/
def DOT_ACCELERATION_UPDATE_INTERVAL_MS : Nat := 2000

/-- The part of a `QTimer` the game code reads and writes. -/
structure QTimer where
  active : Bool
  interval : Nat
deriving DecidableEq, Repr

/-- `QTimer::start()`. -/
def QTimer.start (t : QTimer) : QTimer := { t with active := true }
/-- `QTimer::stop()`. -/
def QTimer.stop (t : QTimer) : QTimer := { t with active := false }
/-- `QTimer::setInterval(msec)`. -/
def QTimer.setInterval (msec : Nat) (t : QTimer) : QTimer := { t with interval := msec }

/-- Data members of `DotWidget`; `gameOverSignals` records the emitted
`gameOver(reason)` signals, the latest first. -/
structure DotWidget where
  m_gameDot : Dot
  m_dotSpeed : Nat
  m_dotSpeedUserSetting : Nat
  m_dotAcceleration : Nat
  m_dotTimer : QTimer
  m_accelerationTimer : QTimer
  m_gameStatsTimer : QTimer
  m_secondTimerPtr : QTimer
  m_elapsedGameTime : Nat
  m_gameLength : Nat
  m_gameState : dotGameState
  m_lastGameOverReason : gameOverReason
  m_runningAvgErrorRatio : ℚ
  m_score : ℚ
  gameOverSignals : List gameOverReason
deriving DecidableEq, Repr

/-- The `Dot` constructor: default members, then `setm_dotSize(DOT_DIAM_DEFAULT)`
and the boundary check of the location. -/
def Dot.ctor (parentSize : QSize) (location : QPoint) : Dot :=
  let d0 : Dot := ⟨location, ⟨0, 0⟩, MOVE_DISTANCE_DEFAULT,
    ⟨(DOT_DIAM_DEFAULT : Int), (DOT_DIAM_DEFAULT : Int)⟩⟩
  let d1 := (Dot.setm_dotSize DOT_DIAM_DEFAULT d0).2
  { d1 with m_curLoc := Dot.applyBoundaryCheck parentSize d1.m_curLoc }

/-- The `DotWidget` constructor. -/
def DotWidget.ctor (winSize : QSize) : DotWidget :=
  { m_gameDot := Dot.ctor winSize ⟨Int.tdiv winSize.width 2, Int.tdiv winSize.height 2⟩
    m_dotSpeed := DOT_SPEED_DEFAULT
    m_dotSpeedUserSetting := DOT_SPEED_DEFAULT
    m_dotAcceleration := DOT_ACCEL_DEFAULT
    m_dotTimer := ⟨false, DOT_SPEED_DEFAULT⟩
    m_accelerationTimer := ⟨false, DOT_ACCELERATION_UPDATE_INTERVAL_MS⟩
    m_gameStatsTimer := ⟨false, GAME_UPDATE_INTERVAL_MS⟩
    m_secondTimerPtr := ⟨false, 1000⟩
    m_elapsedGameTime := 0
    m_gameLength := GAME_LENGTH_DEFAULT_S
    m_gameState := dotGameState.PAUSED
    m_lastGameOverReason := gameOverReason.NO_GAME_OVER
    m_runningAvgErrorRatio := RUNNING_AVERAGE_ERROR_DEFAULT
    m_score := 0
    gameOverSignals := [] }

/-- `DotWidget::getElapsedTime`. -/
def DotWidget.getElapsedTime (w : DotWidget) : Nat := w.m_elapsedGameTime
/-- `DotWidget::getDotSpeed`. -/
def DotWidget.getDotSpeed (w : DotWidget) : Nat := w.m_dotSpeed
/-- `DotWidget::getErrorRatio`. -/
def DotWidget.getErrorRatio (w : DotWidget) : ℚ := w.m_runningAvgErrorRatio
/-- `DotWidget::getDotSize`: `m_dotSize.width()` returned as `uint`. -/
def DotWidget.getDotSize (w : DotWidget) : Nat := toUInt w.m_gameDot.m_dotSize.width
/-- `DotWidget::getScore`: `static_cast<uint>(m_score)`. -/
def DotWidget.getScore (w : DotWidget) : Nat := toUInt (truncToInt w.m_score)

/-- `DotWidget::setDotSize(const int newSize)`: the `int` is converted to the
`uint` parameter of `Dot::setm_dotSize`. -/
def DotWidget.setDotSize (newSize : Int) (w : DotWidget) : Bool × DotWidget :=
  let r := Dot.setm_dotSize (toUInt newSize) w.m_gameDot
  (r.1, { w with m_gameDot := r.2 })

/-- `DotWidget::setDotSpeedNeg(const int newSpeedMs)`. -/
def DotWidget.setDotSpeedNeg (newSpeedMs : Int) (w : DotWidget) : Bool × DotWidget :=
  let newSpeedMsAbs := toUInt |newSpeedMs|
  if DOT_SPEED_MIN ≤ newSpeedMsAbs ∧ newSpeedMsAbs ≤ DOT_SPEED_MAX then
    let w1 := { w with m_dotTimer := w.m_dotTimer.setInterval newSpeedMsAbs,
                       m_dotSpeed := newSpeedMsAbs }
    if w1.m_gameState ≠ dotGameState.RUNNING then
      (true, { w1 with m_dotSpeedUserSetting := newSpeedMsAbs })
    else (true, w1)
  else (false, w)

/-- `DotWidget::setDotAcceleration(const int newAcceleration)`. -/
def DotWidget.setDotAcceleration (newAcceleration : Int) (w : DotWidget) : DotWidget :=
  let w1 := if newAcceleration ≥ 0 then { w with m_dotAcceleration := toUInt newAcceleration }
            else w
  if newAcceleration > 0 ∧ w1.m_gameState = dotGameState.RUNNING then
    { w1 with m_accelerationTimer := w1.m_accelerationTimer.start }
  else
    { w1 with m_accelerationTimer := w1.m_accelerationTimer.stop }

/-- `DotWidget::increaseDotSpeed()`; the subtraction is a `uint` subtraction. -/
def DotWidget.increaseDotSpeed (w : DotWidget) : DotWidget :=
  let speed := (w.m_dotSpeed + 4294967296 - w.m_dotAcceleration % 4294967296) % 4294967296
  if speed < DOT_SPEED_MIN then
    { w with m_dotSpeed := DOT_SPEED_MIN, m_accelerationTimer := w.m_accelerationTimer.stop }
  else
    { w with m_dotSpeed := speed }

/-- `DotWidget::setTimeLimit(const int timeLimit)`. -/
def DotWidget.setTimeLimit (timeLimit : Int) (w : DotWidget) : Bool × DotWidget :=
  if timeLimit ≥ 0 then (true, { w with m_gameLength := toUInt timeLimit })
  else (false, w)

/-- `DotWidget::pauseGame()`. -/
def DotWidget.pauseGame (w : DotWidget) : DotWidget :=
  { w with m_dotTimer := w.m_dotTimer.stop,
           m_gameStatsTimer := w.m_gameStatsTimer.stop,
           m_accelerationTimer := w.m_accelerationTimer.stop,
           m_secondTimerPtr := w.m_secondTimerPtr.stop,
           m_gameState := dotGameState.PAUSED }

/-- `DotWidget::unpauseGame()`. -/
def DotWidget.unpauseGame (w : DotWidget) : DotWidget :=
  { w with m_dotTimer := w.m_dotTimer.start,
           m_gameStatsTimer := w.m_gameStatsTimer.start,
           m_accelerationTimer :=
             if w.m_dotAcceleration > 0 then w.m_accelerationTimer.start
             else w.m_accelerationTimer,
           m_secondTimerPtr := w.m_secondTimerPtr.start,
           m_gameState := dotGameState.RUNNING }

/-- `DotWidget::resetGameStats()`. -/
def DotWidget.resetGameStats (w : DotWidget) : DotWidget :=
  { w with m_score := 0,
           m_elapsedGameTime := 0,
           m_dotSpeed := if w.m_dotAcceleration > 0 then w.m_dotSpeedUserSetting
                         else w.m_dotSpeed,
           m_runningAvgErrorRatio := RUNNING_AVERAGE_ERROR_DEFAULT }

/-- `DotWidget::startGame()`. -/
def DotWidget.startGame (w : DotWidget) : DotWidget := w.resetGameStats.unpauseGame

/-- `DotWidget::setGameOver(reason)`. -/
def DotWidget.setGameOver (reason : gameOverReason) (w : DotWidget) : DotWidget :=
  let w1 := { w with m_lastGameOverReason := reason }
  let w2 := w1.pauseGame
  { w2 with m_gameState := dotGameState.GAMEOVER,
            gameOverSignals := reason :: w2.gameOverSignals }

/-- `DotWidget::updateElapsedGameTime()`. -/
def DotWidget.updateElapsedGameTime (w : DotWidget) : DotWidget :=
  if w.m_gameState = dotGameState.RUNNING then
    let w1 := { w with m_elapsedGameTime := (w.m_elapsedGameTime + 1) % 4294967296 }
    if w1.m_elapsedGameTime ≥ w1.m_gameLength ∧ w1.m_gameLength ≠ INFINITE then
      w1.setGameOver gameOverReason.TIME_LIMIT
    else w1
  else w

/-- The running average computed in `DotWidget::calcGameStats`. -/
def DotWidget.newRunningAvg (posErrorRatio : ℚ) (w : DotWidget) : ℚ :=
  (w.m_runningAvgErrorRatio * (( ERROR_AVERAGING_RATIO - 1 : Nat) : ℚ) + posErrorRatio)
    / (( ERROR_AVERAGING_RATIO : Nat) : ℚ)

/-- The score increment `compositem_scoreInc` computed in
`DotWidget::calcGameStats` from the new running average and the dot speed;
`DOT_SPEED_MAX - m_dotSpeed` is a `uint` subtraction. -/
def DotWidget.compositeScoreInc (newAvg : ℚ) (m_dotSpeed : Nat) : ℚ :=
  let distm_scoreComp := 10 * (CURSOR_DISTANCE_GAMEOVER - newAvg) / CURSOR_DISTANCE_GAMEOVER
  let speedm_scoreComp :=
    (((DOT_SPEED_MAX + 4294967296 - m_dotSpeed % 4294967296) % 4294967296 : Nat) : ℚ)
      / ((DOT_SPEED_MAX - DOT_SPEED_MIN : Nat) : ℚ)
  distm_scoreComp ^ 3 * speedm_scoreComp / 40

/-- `DotWidget::calcGameStats()` from the point where `posErrorRatio`, the
value of `m_gameDotPtr->calcPosErrorRatio(mousePosition)`, is known. -/
def DotWidget.calcGameStatsWith (posErrorRatio : ℚ) (w : DotWidget) : DotWidget :=
  let w1 := { w with m_runningAvgErrorRatio := w.newRunningAvg posErrorRatio }
  let w2 := { w1 with m_score := w1.m_score
                + DotWidget.compositeScoreInc w1.m_runningAvgErrorRatio w1.m_dotSpeed }
  if w2.m_runningAvgErrorRatio ≥ CURSOR_DISTANCE_GAMEOVER then
    w2.setGameOver gameOverReason.DISTANCE
  else w2

/-- `DotWidget::calcGameStats()`; `mousePosition` is the pointer position
`mapFromGlobal(QCursor::pos())`. -/
def DotWidget.calcGameStats (fsqrt : ℚ → ℚ) (mousePosition : QPoint) (w : DotWidget) :
    DotWidget :=
  w.calcGameStatsWith (w.m_gameDot.calcPosErrorRatio fsqrt mousePosition)

/-- `DotWidget::screenClicked()`. -/
def DotWidget.screenClicked (w : DotWidget) : DotWidget :=
  match w.m_gameState with
  | dotGameState.RUNNING => w.pauseGame
  | dotGameState.PAUSED => w.unpauseGame
  | dotGameState.GAMEOVER => w.startGame

/-- The state after `k` calls of `updateElapsedGameTime`. -/
def DotWidget.ticks : Nat → DotWidget → DotWidget
  | 0, w => w
  | k + 1, w => (DotWidget.ticks k w).updateElapsedGameTime

/-! ## `QTextStream` on a text, as used for the score file

`QTextStream` belongs to Qt; the definitions follow its documented behaviour.
The stream is the list of characters not yet read.  Whitespace is what
`QChar::isSpace()` accepts.  Numbers are read and written in base 10, the
stream default for the texts written by `writeScoreFile`; a sign or a base
prefix (`0x`, `0b`, a leading `0` before an octal digit) in a text read is
outside the model. -/

/-- `QChar::isSpace()`: the characters 9 to 13 and the Unicode separators. -/
def isSpace (c : Char) : Bool :=
  (9 ≤ c.toNat && c.toNat ≤ 13) || c.toNat == 0x20 || c.toNat == 0xA0 ||
  c.toNat == 0x1680 || c.toNat == 0x180E || (0x2000 ≤ c.toNat && c.toNat ≤ 0x200A) ||
  c.toNat == 0x2028 || c.toNat == 0x2029 || c.toNat == 0x202F || c.toNat == 0x205F ||
  c.toNat == 0x3000

/-- The decimal digits `0` to `9`. -/
def isDigit (c : Char) : Bool := 48 ≤ c.toNat && c.toNat ≤ 57

/-- Value of a decimal digit. -/
def digitValue (c : Char) : Nat := c.toNat - 48

/-- The character of a decimal digit `d < 10`. -/
def digitChar (d : Nat) : Char := Char.ofNat (48 + d % 10)

/-- `QTextStream::skipWhiteSpace()`. -/
def skipWhiteSpace (s : List Char) : List Char := s.dropWhile isSpace

/-- `QTextStream::atEnd()`. -/
def atEnd (s : List Char) : Bool := s.isEmpty

/-- `QTextStream::operator>>(QString &)`: leading whitespace is skipped and one
word is read; the word and the rest of the stream. -/
def readWord (s : List Char) : List Char × List Char :=
  let s1 := skipWhiteSpace s
  (s1.takeWhile (fun c => !isSpace c), s1.dropWhile (fun c => !isSpace c))

/-- `QTextStream::operator>>(uint &)`: leading whitespace is skipped and the
longest run of digits is read; without a digit the value is 0 and nothing
more is consumed. -/
def readUInt (s : List Char) : Nat × List Char :=
  let s1 := skipWhiteSpace s
  let ds := s1.takeWhile isDigit
  if ds.isEmpty then (0, s1)
  else ((ds.foldl (fun v c => v * 10 + digitValue c) 0) % 4294967296, s1.dropWhile isDigit)

/-- Decimal digits of `n` in front of `acc`, most significant first. -/
def writeUIntAux : Nat → Nat → List Char → List Char
  | 0, _, acc => acc
  | fuel + 1, n, acc =>
    if n / 10 = 0 then digitChar n :: acc
    else writeUIntAux fuel (n / 10) (digitChar n :: acc)

/-- `QTextStream::operator<<(uint)`: the decimal text of `n`. -/
def writeUInt (n : Nat) : List Char := writeUIntAux (n + 1) n []

/-! ## `MainWindow` (mainwindow.h, mainwindow.cpp, scorescreen.h) -/

/-- Max number of high score entries to store and display. -/
def NUM_HIGH_SCORES_MAX : Int := 10

/-- High score names are limited to 16 characters. -/
def MAX_NAME_STRING_LEN : Nat := 16

/-- `HighScoreData`: the info about a single game in the high score table. -/
structure HighScoreData where
  name : List Char
  score : Nat
  gameTimeLength : Nat
  dotDiam : Nat
  maxSpeed : Nat
deriving DecidableEq, Repr

/-- What `QInputDialog::getText` hands back: the `ok` flag and the text. -/
structure DialogResult where
  ok : Bool
  nameText : List Char
deriving DecidableEq, Repr

/-- `QList::insert(int i, value)`: prepends for `i <= 0`, appends for
`i >= size()`. -/
def qlistInsert (i : Int) (value : HighScoreData) (l : List HighScoreData) :
    List HighScoreData :=
  l.take i.toNat ++ value :: l.drop i.toNat

/-- The loop `while (size() > NUM_HIGH_SCORES_MAX) removeLast()`. -/
def removeLastWhileOver : Nat → List HighScoreData → List HighScoreData
  | 0, l => l
  | fuel + 1, l =>
    if (l.length : Int) > NUM_HIGH_SCORES_MAX then removeLastWhileOver fuel l.dropLast else l

/-- `nameText.replace(QRegExp("[ \t\n\r]"), "_")`. -/
def replaceSpaces (nameText : List Char) : List Char :=
  nameText.map (fun c => if c = ' ' ∨ c = '\t' ∨ c = '\n' ∨ c = '\r' then '_' else c)

/-- The name stored by `addHighScore`: whitespace replaced, then
`resize(MAX_NAME_STRING_LEN)` when the text is longer. -/
def storedName (nameText : List Char) : List Char :=
  let nameText := replaceSpaces nameText
  if nameText.length > MAX_NAME_STRING_LEN then nameText.take MAX_NAME_STRING_LEN
  else nameText

/-- The entry `scoreData` built by `addHighScore`. -/
def scoreData (w : DotWidget) (dlg : DialogResult) (newScore : Nat) : HighScoreData :=
  ⟨storedName dlg.nameText, newScore, w.getElapsedTime, w.getDotSize, w.getDotSpeed⟩

/-- `MainWindow::addHighScore(int index, uint newScore)`; `dlg` is the
outcome of the name dialog and `w` the game widget queried for the entry. -/
def addHighScore (w : DotWidget) (dlg : DialogResult) (index : Int) (newScore : Nat)
    (l : List HighScoreData) : List HighScoreData :=
  if dlg.ok ∧ !dlg.nameText.isEmpty then
    let l1 := qlistInsert index (scoreData w dlg newScore) l
    removeLastWhileOver l1.length l1
  else l

/-- The `for` loop of `MainWindow::gameOver` from index `i` on; `fuel` bounds
the number of iterations. -/
def scanLoop (w : DotWidget) (dlg : DialogResult) (newScore : Nat) (l : List HighScoreData) :
    Nat → Nat → List HighScoreData
  | 0, _ => l
  | fuel + 1, i =>
    match l[i]? with
    | none => l
    | some e =>
      if newScore > e.score then addHighScore w dlg (i : Int) newScore l
      else if (i : Int) ≥ (l.length : Int) - 1 ∧ (l.length : Int) < NUM_HIGH_SCORES_MAX then
        addHighScore w dlg ((i : Int) + 1) newScore l
      else scanLoop w dlg newScore l fuel (i + 1)

/-- The part of `MainWindow::gameOver` that decides whether the new score
qualifies for the list and inserts it. -/
def gameOverInsert (w : DotWidget) (dlg : DialogResult) (newScore : Nat)
    (l : List HighScoreData) : List HighScoreData :=
  if l.length = 0 then addHighScore w dlg 0 newScore l
  else scanLoop w dlg newScore l l.length 0

/-- One pass of the `while` loop of `updateHighScoreListFromFile`: the five
fields read with `>>` and the rest of the stream. -/
def readRow (s : List Char) : HighScoreData × List Char :=
  let r0 := readWord s
  let r1 := readUInt r0.2
  let r2 := readUInt r1.2
  let r3 := readUInt r2.2
  let r4 := readUInt r3.2
  (⟨r0.1, r1.1, r2.1, r3.1, r4.1⟩, r4.2)

/-- The `while (!scoreStream.atEnd())` loop; every pass consumes a character,
so `fuel` = length of the stream is enough. -/
def readLoop : Nat → List Char → List HighScoreData → List HighScoreData
  | 0, _, l => l
  | fuel + 1, s, l =>
    if atEnd s then l
    else
      let r := readRow s
      readLoop fuel (skipWhiteSpace r.2) (l ++ [r.1])

/-- `MainWindow::updateHighScoreListFromFile`: the list after reading the
stream `scoreStream`. -/
def updateHighScoreListFromFile (scoreStream : List Char) (l : List HighScoreData) :
    List HighScoreData :=
  readLoop scoreStream.length (skipWhiteSpace scoreStream) l

/-- The text written by `writeScoreFile` for one entry. -/
def writeRow (dataRow : HighScoreData) : List Char :=
  dataRow.name ++ ' ' :: (writeUInt dataRow.score ++ ' ' :: (writeUInt dataRow.gameTimeLength
    ++ ' ' :: (writeUInt dataRow.dotDiam ++ ' ' :: (writeUInt dataRow.maxSpeed ++ ['\n']))))

/-- `MainWindow::writeScoreFile`: the text written to the (empty) stream. -/
def writeScoreFile : List HighScoreData → List Char
  | [] => []
  | dataRow :: rest =>
    if dataRow.name ≠ [] ∧ dataRow.name ≠ ['\n'] then writeRow dataRow ++ writeScoreFile rest
    else writeScoreFile rest

/-- `MainWindow::gameOver`: the list is read from the file text when it is
empty, the new score is inserted, and the file is rewritten; the new list and
the new file text.  `openRead` and `openWrite` tell whether the two
`file.open` calls succeed: when the first fails the function returns with
nothing changed, when the second fails it returns with the list changed and
the file as it was. -/
def gameOver (w : DotWidget) (dlg : DialogResult) (openRead openWrite : Bool)
    (fileText : List Char) (l : List HighScoreData) : List HighScoreData × List Char :=
  let newScore := w.getScore
  if l.length = 0 ∧ openRead = false then (l, fileText)
  else
    let l1 := if l.length = 0 then updateHighScoreListFromFile fileText l else l
    let l2 := gameOverInsert w dlg newScore l1
    if openWrite = false then (l2, fileText) else (l2, writeScoreFile l2)

/-- The list after a sequence of game-over insertions, each given by the
widget state, the dialog outcome and the new score. -/
def insertAll : List (DotWidget × DialogResult × Nat) → List HighScoreData →
    List HighScoreData
  | [], l => l
  | (w, dlg, newScore) :: rest, l => insertAll rest (gameOverInsert w dlg newScore l)

/-- The insertion as the specification words it: the entry goes to the first
index whose score is below the new score and the list is cut to its first 10
entries; without such an index it is appended when the list has fewer than 10
entries, and the list is unchanged otherwise. -/
def insertReference (entry : HighScoreData) (l : List HighScoreData) : List HighScoreData :=
  match l.findIdx? (fun x => decide (entry.score > x.score)) with
  | some i => (l.take i ++ entry :: l.drop i).take 10
  | none => if l.length < 10 then l ++ [entry] else l

/-- The dot after a sequence of `setm_dotSize` calls, accepted or rejected,
with the sizes of the list in order. -/
def Dot.setSizes : List Nat → Dot → Dot
  | [], d => d
  | newSize :: rest, d => Dot.setSizes rest (Dot.setm_dotSize newSize d).2

/-- `QVector2D::lengthSquared()`. -/
def QVector2D.lengthSquared (v : QVector2D) : ℚ := v.x * v.x + v.y * v.y

/-- The weighted average of the prior velocity and the random vector that
`Dot::updateLoc` normalizes. -/
def Dot.blendVect (fsqrt : ℚ → ℚ) (tempRand : Int) (d : Dot) : QVector2D :=
  (d.m_curMoveVect.scale MOTION_WEIGHT_DEFAULT).add
    ((Dot.randMoveVect fsqrt tempRand d.m_moveDist).scale (1 - MOTION_WEIGHT_DEFAULT))

/-- A call of one of the operations of `Dot` that change its state:
`updateLoc()` (with the parent size read and the value returned by `rand()`),
`setPos(newPos)` and `setm_dotSize(newSize)`. -/
inductive DotCall where
  | updateLoc (parentSize : QSize) (tempRand : Int)
  | setPos (parentSize : QSize) (newPos : QPoint)
  | setm_dotSize (newSize : Nat)

/-- The dot after one call. -/
def Dot.call (fsqrt : ℚ → ℚ) (d : Dot) : DotCall → Dot
  | DotCall.updateLoc parentSize tempRand => Dot.updateLoc fsqrt parentSize tempRand d
  | DotCall.setPos parentSize newPos => Dot.setPos parentSize newPos d
  | DotCall.setm_dotSize newSize => (Dot.setm_dotSize newSize d).2

/-- The dot after a sequence of calls, the first call first. -/
def Dot.calls (fsqrt : ℚ → ℚ) : List DotCall → Dot → Dot
  | [], d => d
  | c :: rest, d => Dot.calls fsqrt rest (d.call fsqrt c)

/-- The step magnitude is one of 2..5 and the squared length of the velocity
is 0 or within 1/400 of the square of a step magnitude 2..5. -/
def Dot.velocityNearStep (d : Dot) : Prop :=
  (2 ≤ d.m_moveDist ∧ d.m_moveDist ≤ 5) ∧
  (d.m_curMoveVect.lengthSquared = 0 ∨
    ∃ k : Nat, 2 ≤ k ∧ k ≤ 5 ∧
      (k : ℚ) ^ 2 * (399 / 400) ≤ d.m_curMoveVect.lengthSquared ∧
      d.m_curMoveVect.lengthSquared ≤ (k : ℚ) ^ 2 * (401 / 400))

/-- A square root on rationals with relative error below 1/5000 on the square
at every argument >= 0, for evaluating the functions above at concrete
inputs. -/
def sqrtScaled (q : ℚ) : ℚ :=
  (Nat.sqrt (q.num.toNat * q.den * 100000000) : ℚ) / ((q.den : ℚ) * 10000)

/-- What can happen to a game session: a click on the playing field, a timeout
of one of the four timers, or a call of one of the setters. -/
inductive SessionEvent where
  | click
  | secondTick
  | sample (mousePosition : QPoint)
  | dotMove (parentSize : QSize) (tempRand : Int)
  | accelTick
  | setSpeed (newSpeedMs : Int)
  | setAccel (newAcceleration : Int)
  | setLimit (timeLimit : Int)
  | setSize (newSize : Int)

/-- The slot run for an event: `screenClicked`, `updateElapsedGameTime`,
`calcGameStats`, `Dot::updateLoc`, `increaseDotSpeed` or a setter. -/
def DotWidget.step (fsqrt : ℚ → ℚ) (w : DotWidget) : SessionEvent → DotWidget
  | SessionEvent.click => w.screenClicked
  | SessionEvent.secondTick => w.updateElapsedGameTime
  | SessionEvent.sample mousePosition => w.calcGameStats fsqrt mousePosition
  | SessionEvent.dotMove parentSize tempRand =>
    { w with m_gameDot := w.m_gameDot.updateLoc fsqrt parentSize tempRand }
  | SessionEvent.accelTick => w.increaseDotSpeed
  | SessionEvent.setSpeed newSpeedMs => (w.setDotSpeedNeg newSpeedMs).2
  | SessionEvent.setAccel newAcceleration => w.setDotAcceleration newAcceleration
  | SessionEvent.setLimit timeLimit => (w.setTimeLimit timeLimit).2
  | SessionEvent.setSize newSize => (w.setDotSize newSize).2

/-- The session state after a sequence of events, the first event first. -/
def DotWidget.run (fsqrt : ℚ → ℚ) : List SessionEvent → DotWidget → DotWidget
  | [], w => w
  | ev :: rest, w => DotWidget.run fsqrt rest (w.step fsqrt ev)

/-- In a GAMEOVER state a game-over reason is recorded and the four periodic
timers are stopped. -/
def DotWidget.gameOverConsistent (w : DotWidget) : Prop :=
  w.m_gameState = dotGameState.GAMEOVER →
    (w.m_lastGameOverReason = gameOverReason.TIME_LIMIT ∨
      w.m_lastGameOverReason = gameOverReason.DISTANCE) ∧
    w.m_dotTimer.active = false ∧ w.m_gameStatsTimer.active = false ∧
    w.m_accelerationTimer.active = false ∧ w.m_secondTimerPtr.active = false

/-- A score file of eleven rows `a 1 1 1 1`. -/
def elevenRows : List Char :=
  (List.replicate 11 ['a', ' ', '1', ' ', '1', ' ', '1', ' ', '1', '\n']).flatten

/-- The numeric fields of an entry are `uint` values. -/
def HighScoreData.fieldsAreUInt (e : HighScoreData) : Prop :=
  e.score < 4294967296 ∧ e.gameTimeLength < 4294967296 ∧ e.dotDiam < 4294967296 ∧
  e.maxSpeed < 4294967296

/-- The name of an entry has no whitespace character. -/
def HighScoreData.nameHasNoSpace (e : HighScoreData) : Prop :=
  ∀ c ∈ e.name, isSpace c = false

/-! ## Theorems -/

/-- C1: for every arena with width >= 0 and height >= 0, every step magnitude
>= 1, every prior position and velocity and every value of `rand()`, the
position left by `Dot::updateLoc` lies in the arena rectangle. -/
theorem updateLoc_within_arena (fsqrt : ℚ → ℚ) (parentSize : QSize) (tempRand : Int)
    (d : Dot) (hw : 0 ≤ parentSize.width) (hh : 0 ≤ parentSize.height)
    (_hm : 1 ≤ d.m_moveDist) :
    0 ≤ (Dot.updateLoc fsqrt parentSize tempRand d).m_curLoc.x ∧
    (Dot.updateLoc fsqrt parentSize tempRand d).m_curLoc.x ≤ parentSize.width ∧
    0 ≤ (Dot.updateLoc fsqrt parentSize tempRand d).m_curLoc.y ∧
    (Dot.updateLoc fsqrt parentSize tempRand d).m_curLoc.y ≤ parentSize.height := by
  simp only [Dot.updateLoc]
  refine ⟨?_, ?_, ?_, ?_⟩
  all_goals (split_ifs <;> simp_all)

/-- Witness of C1: a dot at (5, 5) with step 3 in a 10 x 10 arena. -/
theorem updateLoc_within_arena_witness :
    0 ≤ (Dot.updateLoc sqrtMilli ⟨10, 10⟩ 7 ⟨⟨5, 5⟩, ⟨0, 0⟩, 3, ⟨20, 20⟩⟩).m_curLoc.x ∧
    (Dot.updateLoc sqrtMilli ⟨10, 10⟩ 7 ⟨⟨5, 5⟩, ⟨0, 0⟩, 3, ⟨20, 20⟩⟩).m_curLoc.x ≤ 10 ∧
    0 ≤ (Dot.updateLoc sqrtMilli ⟨10, 10⟩ 7 ⟨⟨5, 5⟩, ⟨0, 0⟩, 3, ⟨20, 20⟩⟩).m_curLoc.y ∧
    (Dot.updateLoc sqrtMilli ⟨10, 10⟩ 7 ⟨⟨5, 5⟩, ⟨0, 0⟩, 3, ⟨20, 20⟩⟩).m_curLoc.y ≤ 10 :=
  updateLoc_within_arena sqrtMilli ⟨10, 10⟩ 7 ⟨⟨5, 5⟩, ⟨0, 0⟩, 3, ⟨20, 20⟩⟩
    (by decide) (by decide) (by decide)

/-- C5: `Dot::setm_dotSize` returns false and changes nothing for a size
outside [8, 50] (7 for one, and every negative `int` passed through
`DotWidget::setDotSize`); for a size inside the range it returns true and the
dot size becomes the new size. -/
theorem setm_dotSize_accepts_exactly_range (d : Dot) (w : DotWidget) :
    (∀ newSize : Nat, ¬ (8 ≤ newSize ∧ newSize ≤ 50) →
      Dot.setm_dotSize newSize d = (false, d)) ∧
    Dot.setm_dotSize 7 d = (false, d) ∧
    (∀ z : Int, -2147483648 ≤ z → z < 0 → DotWidget.setDotSize z w = (false, w)) ∧
    (∀ newSize : Nat, 8 ≤ newSize → newSize ≤ 50 →
      (Dot.setm_dotSize newSize d).1 = true ∧
      (Dot.setm_dotSize newSize d).2.m_dotSize = ⟨(newSize : Int), (newSize : Int)⟩) := by
  refine ⟨?_, ?_, ?_, ?_⟩
  · intro newSize h
    simp only [Dot.setm_dotSize, DOT_DIAM_MIN, DOT_DIAM_MAX]
    rw [if_neg h]
  · simp [Dot.setm_dotSize, DOT_DIAM_MIN, DOT_DIAM_MAX]
  · intro z hlo hneg
    have h : ¬ (8 ≤ toUInt z ∧ toUInt z ≤ 50) := by
      unfold toUInt
      omega
    simp only [DotWidget.setDotSize, Dot.setm_dotSize, DOT_DIAM_MIN, DOT_DIAM_MAX]
    rw [if_neg h]
  · intro newSize h8 h50
    have h : 8 ≤ newSize ∧ newSize ≤ 50 := ⟨h8, h50⟩
    simp only [Dot.setm_dotSize, DOT_DIAM_MIN, DOT_DIAM_MAX]
    rw [if_pos h]
    exact ⟨rfl, rfl⟩

/-- Witness of C5: sizes 7, 51, -1 and 20 on the dot a new widget holds. -/
theorem setm_dotSize_accepts_exactly_range_witness :
    Dot.setm_dotSize 51 (Dot.ctor ⟨100, 100⟩ ⟨50, 50⟩) = (false, Dot.ctor ⟨100, 100⟩ ⟨50, 50⟩) ∧
    DotWidget.setDotSize (-1) (DotWidget.ctor ⟨100, 100⟩) = (false, DotWidget.ctor ⟨100, 100⟩) ∧
    ((Dot.setm_dotSize 20 (Dot.ctor ⟨100, 100⟩ ⟨50, 50⟩)).1 = true ∧
      (Dot.setm_dotSize 20 (Dot.ctor ⟨100, 100⟩ ⟨50, 50⟩)).2.m_dotSize = ⟨20, 20⟩) :=
  ⟨(setm_dotSize_accepts_exactly_range (Dot.ctor ⟨100, 100⟩ ⟨50, 50⟩)
      (DotWidget.ctor ⟨100, 100⟩)).1 51 (by decide),
   (setm_dotSize_accepts_exactly_range (Dot.ctor ⟨100, 100⟩ ⟨50, 50⟩)
      (DotWidget.ctor ⟨100, 100⟩)).2.2.1 (-1) (by decide) (by decide),
   (setm_dotSize_accepts_exactly_range (Dot.ctor ⟨100, 100⟩ ⟨50, 50⟩)
      (DotWidget.ctor ⟨100, 100⟩)).2.2.2 20 (by decide) (by decide)⟩

/-- C6: for every size in [8, 50] the step magnitude left by
`Dot::setm_dotSize` is the floor of the real square root of the exact half
of the size. -/
theorem setm_dotSize_moveDist_floor_sqrt (d : Dot) (newSize : Nat)
    (h8 : 8 ≤ newSize) (h50 : newSize ≤ 50) :
    (Dot.setm_dotSize newSize d).2.m_moveDist = ⌊Real.sqrt ((newSize : ℝ) / 2)⌋₊ := by
  have h : DOT_DIAM_MIN ≤ newSize ∧ newSize ≤ DOT_DIAM_MAX := ⟨h8, h50⟩
  simp only [Dot.setm_dotSize]
  rw [if_pos h]
  show Nat.sqrt (newSize / 2) = ⌊Real.sqrt ((newSize : ℝ) / 2)⌋₊
  symm
  rw [Nat.floor_eq_iff (Real.sqrt_nonneg _)]
  have hlo : Nat.sqrt (newSize / 2) * Nat.sqrt (newSize / 2) ≤ newSize / 2 :=
    Nat.sqrt_le (newSize / 2)
  have hhi : newSize / 2 < (Nat.sqrt (newSize / 2) + 1) * (Nat.sqrt (newSize / 2) + 1) :=
    Nat.lt_succ_sqrt (newSize / 2)
  have hlo2 : 2 * (Nat.sqrt (newSize / 2) * Nat.sqrt (newSize / 2)) ≤ newSize := by omega
  have hhi2 : newSize + 1 ≤
      2 * ((Nat.sqrt (newSize / 2) + 1) * (Nat.sqrt (newSize / 2) + 1)) := by omega
  have hlo3 : (2 : ℝ) * ((Nat.sqrt (newSize / 2) : ℝ) * (Nat.sqrt (newSize / 2) : ℝ))
      ≤ (newSize : ℝ) := by exact_mod_cast hlo2
  have hhi3 : (newSize : ℝ) + 1 ≤
      2 * (((Nat.sqrt (newSize / 2) : ℝ) + 1) * ((Nat.sqrt (newSize / 2) : ℝ) + 1)) := by
    exact_mod_cast hhi2
  constructor
  · apply Real.le_sqrt_of_sq_le
    nlinarith
  · rw [Real.sqrt_lt' (by positivity)]
    nlinarith

/-- Witness of C6: size 20 gives step 3 = floor (sqrt 10). -/
theorem setm_dotSize_moveDist_floor_sqrt_witness :
    (Dot.setm_dotSize 20 (Dot.ctor ⟨100, 100⟩ ⟨50, 50⟩)).2.m_moveDist
      = ⌊Real.sqrt (((20 : Nat) : ℝ) / 2)⌋₊ :=
  setm_dotSize_moveDist_floor_sqrt (Dot.ctor ⟨100, 100⟩ ⟨50, 50⟩) 20 (by decide) (by decide)

/-- One elapsed-time tick in a running game below the time limit. -/
lemma tick_running_below (w : DotWidget) (h : w.m_gameState = dotGameState.RUNNING)
    (hlt : w.m_elapsedGameTime + 1 < w.m_gameLength) (hL : w.m_gameLength < 4294967296) :
    w.updateElapsedGameTime = { w with m_elapsedGameTime := w.m_elapsedGameTime + 1 } := by
  have hmod : (w.m_elapsedGameTime + 1) % 4294967296 = w.m_elapsedGameTime + 1 :=
    Nat.mod_eq_of_lt (by omega)
  have hno : ¬ (w.m_elapsedGameTime + 1 ≥ w.m_gameLength ∧ w.m_gameLength ≠ INFINITE) := by
    intro hc
    omega
  simp only [DotWidget.updateElapsedGameTime, h, hmod, if_true]
  rw [if_neg hno]

/-- One elapsed-time tick in a running game that reaches the time limit. -/
lemma tick_running_reaches (w : DotWidget) (h : w.m_gameState = dotGameState.RUNNING)
    (heq : w.m_elapsedGameTime + 1 = w.m_gameLength) (hL : w.m_gameLength < 4294967296) :
    w.updateElapsedGameTime =
      DotWidget.setGameOver gameOverReason.TIME_LIMIT
        { w with m_elapsedGameTime := w.m_elapsedGameTime + 1 } := by
  have hmod : (w.m_elapsedGameTime + 1) % 4294967296 = w.m_elapsedGameTime + 1 :=
    Nat.mod_eq_of_lt (by omega)
  have hyes : w.m_elapsedGameTime + 1 ≥ w.m_gameLength ∧ w.m_gameLength ≠ INFINITE := by
    constructor
    · omega
    · unfold INFINITE
      omega
  simp only [DotWidget.updateElapsedGameTime, h, hmod, if_true]
  rw [if_pos hyes]

/-- An elapsed-time tick outside the running state changes nothing. -/
lemma tick_not_running (w : DotWidget) (h : w.m_gameState ≠ dotGameState.RUNNING) :
    w.updateElapsedGameTime = w := by
  simp only [DotWidget.updateElapsedGameTime]
  rw [if_neg h]

/-- C7: with a time limit L >= 1, after k < L elapsed-time ticks from
`startGame()` the game is RUNNING with elapsed time k and no `gameOver` signal
has been emitted; after L or more ticks it is GAMEOVER with reason TIME_LIMIT,
elapsed time L and exactly one `gameOver(TIME_LIMIT)` signal emitted. -/
theorem time_limit_ends_game_once (w : DotWidget) (L k : Nat)
    (hL1 : 1 ≤ L) (hL : L < 4294967296) (hw : w.m_gameLength = L) :
    (k < L →
      (DotWidget.ticks k w.startGame).m_gameState = dotGameState.RUNNING ∧
      (DotWidget.ticks k w.startGame).m_elapsedGameTime = k ∧
      (DotWidget.ticks k w.startGame).gameOverSignals = w.gameOverSignals) ∧
    (L ≤ k →
      (DotWidget.ticks k w.startGame).m_gameState = dotGameState.GAMEOVER ∧
      (DotWidget.ticks k w.startGame).m_lastGameOverReason = gameOverReason.TIME_LIMIT ∧
      (DotWidget.ticks k w.startGame).m_elapsedGameTime = L ∧
      (DotWidget.ticks k w.startGame).gameOverSignals
        = gameOverReason.TIME_LIMIT :: w.gameOverSignals) := by
  have hlen : ∀ j, (DotWidget.ticks j w.startGame).m_gameLength = L := by
    intro j
    induction j with
    | zero => simpa [DotWidget.ticks, DotWidget.startGame, DotWidget.resetGameStats,
        DotWidget.unpauseGame] using hw
    | succ j ih =>
      simp only [DotWidget.ticks, DotWidget.updateElapsedGameTime]
      split_ifs <;> simp_all [DotWidget.setGameOver, DotWidget.pauseGame]
  induction k with
  | zero =>
    refine ⟨fun _ => ?_, fun h => ?_⟩
    · simp [DotWidget.ticks, DotWidget.startGame, DotWidget.resetGameStats,
        DotWidget.unpauseGame]
    · omega
  | succ k ih =>
    obtain ⟨ihlt, ihge⟩ := ih
    have hl := hlen k
    refine ⟨fun h => ?_, fun h => ?_⟩
    · obtain ⟨hs, he, hg⟩ := ihlt (by omega)
      have hstep := tick_running_below (DotWidget.ticks k w.startGame) hs
        (by rw [he, hl]; exact h) (by rw [hl]; exact hL)
      simp only [DotWidget.ticks]
      rw [hstep]
      exact ⟨hs, by simp [he], hg⟩
    · rcases Nat.lt_or_ge k L with hk | hk
      · obtain ⟨hs, he, hg⟩ := ihlt hk
        have hstep := tick_running_reaches (DotWidget.ticks k w.startGame) hs
          (by rw [he, hl]; omega) (by rw [hl]; exact hL)
        simp only [DotWidget.ticks]
        rw [hstep]
        refine ⟨rfl, rfl, ?_, ?_⟩
        · simp only [DotWidget.setGameOver, DotWidget.pauseGame, he]
          omega
        · simp only [DotWidget.setGameOver, DotWidget.pauseGame, hg]
      · obtain ⟨hs, hr, he, hg⟩ := ihge hk
        have hstep := tick_not_running (DotWidget.ticks k w.startGame) (by rw [hs]; decide)
        simp only [DotWidget.ticks]
        rw [hstep]
        exact ⟨hs, hr, he, hg⟩

/-- Witness of C7: the default limit of 10 seconds on a new widget, after 9
ticks and after 12 ticks. -/
theorem time_limit_ends_game_once_witness :
    ((DotWidget.ticks 9 (DotWidget.ctor ⟨100, 100⟩).startGame).m_gameState
        = dotGameState.RUNNING ∧
      (DotWidget.ticks 9 (DotWidget.ctor ⟨100, 100⟩).startGame).m_elapsedGameTime = 9 ∧
      (DotWidget.ticks 9 (DotWidget.ctor ⟨100, 100⟩).startGame).gameOverSignals
        = (DotWidget.ctor ⟨100, 100⟩).gameOverSignals) ∧
    ((DotWidget.ticks 12 (DotWidget.ctor ⟨100, 100⟩).startGame).m_gameState
        = dotGameState.GAMEOVER ∧
      (DotWidget.ticks 12 (DotWidget.ctor ⟨100, 100⟩).startGame).m_lastGameOverReason
        = gameOverReason.TIME_LIMIT ∧
      (DotWidget.ticks 12 (DotWidget.ctor ⟨100, 100⟩).startGame).m_elapsedGameTime = 10 ∧
      (DotWidget.ticks 12 (DotWidget.ctor ⟨100, 100⟩).startGame).gameOverSignals
        = gameOverReason.TIME_LIMIT :: (DotWidget.ctor ⟨100, 100⟩).gameOverSignals) :=
  ⟨(time_limit_ends_game_once (DotWidget.ctor ⟨100, 100⟩) 10 9
      (by decide) (by decide) rfl).1 (by decide),
   (time_limit_ends_game_once (DotWidget.ctor ⟨100, 100⟩) 10 12
      (by decide) (by decide) rfl).2 (by decide)⟩

/-- The running average stored by `calcGameStatsWith` is `newRunningAvg`. -/
lemma calcGameStatsWith_avg (r : ℚ) (w : DotWidget) :
    (w.calcGameStatsWith r).m_runningAvgErrorRatio = w.newRunningAvg r := by
  simp only [DotWidget.calcGameStatsWith]
  split_ifs <;> simp [DotWidget.setGameOver, DotWidget.pauseGame]

/-- The score stored by `calcGameStatsWith` is the old score plus the
increment, also on the call that ends the game. -/
lemma calcGameStatsWith_score (r : ℚ) (w : DotWidget) :
    (w.calcGameStatsWith r).m_score
      = w.m_score + DotWidget.compositeScoreInc (w.newRunningAvg r) w.m_dotSpeed := by
  simp only [DotWidget.calcGameStatsWith]
  split_ifs <;> simp [DotWidget.setGameOver, DotWidget.pauseGame]

/-- C8: `calcGameStats` sets the running average to (15*a + r)/16, where a is
the prior average and r the sampled error ratio; with r = 0 the new average is
a - a/16, and on the first sample after `startGame()` 3.0 becomes 2.8125. -/
theorem calcGameStats_running_average (fsqrt : ℚ → ℚ) (mousePosition : QPoint)
    (w : DotWidget) (r : ℚ) :
    (w.calcGameStats fsqrt mousePosition).m_runningAvgErrorRatio
      = (15 * w.m_runningAvgErrorRatio
          + w.m_gameDot.calcPosErrorRatio fsqrt mousePosition) / 16 ∧
    (w.calcGameStatsWith r).m_runningAvgErrorRatio
      = (15 * w.m_runningAvgErrorRatio + r) / 16 ∧
    (w.calcGameStatsWith 0).m_runningAvgErrorRatio
      = w.m_runningAvgErrorRatio - w.m_runningAvgErrorRatio / 16 ∧
    (w.startGame.calcGameStatsWith 0).m_runningAvgErrorRatio = 28125 / 10000 := by
  have key : ∀ (u : DotWidget) (q : ℚ),
      u.newRunningAvg q = (15 * u.m_runningAvgErrorRatio + q) / 16 := by
    intro u q
    simp only [DotWidget.newRunningAvg, ERROR_AVERAGING_RATIO]
    norm_num
    ring
  refine ⟨?_, ?_, ?_, ?_⟩
  · simp only [DotWidget.calcGameStats]
    rw [calcGameStatsWith_avg, key]
  · rw [calcGameStatsWith_avg, key]
  · rw [calcGameStatsWith_avg, key]
    ring
  · rw [calcGameStatsWith_avg, key]
    simp only [DotWidget.startGame, DotWidget.resetGameStats, DotWidget.unpauseGame,
      RUNNING_AVERAGE_ERROR_DEFAULT]
    norm_num

/-- The speed component of the score increment is never negative. -/
lemma speedComp_nonneg (v : Nat) :
    (0 : ℚ) ≤ (((DOT_SPEED_MAX + 4294967296 - v % 4294967296) % 4294967296 : Nat) : ℚ)
      / ((DOT_SPEED_MAX - DOT_SPEED_MIN : Nat) : ℚ) :=
  div_nonneg (Nat.cast_nonneg _) (Nat.cast_nonneg _)

/-- `sqrtMilli` is exact on the square of a natural number. -/
lemma sqrtMilli_sq (n : Nat) : sqrtMilli ((n : ℚ) ^ 2) = n := by
  unfold sqrtMilli
  have h : ⌊((n : ℚ) ^ 2 * 1000000)⌋ = (((n * 1000) * (n * 1000) : Nat) : Int) := by
    have : ((n : ℚ) ^ 2 * 1000000) = (((((n * 1000) * (n * 1000) : Nat) : Int)) : ℚ) := by
      push_cast
      ring
    rw [this, Int.floor_intCast]
  rw [h, Int.toNat_natCast, Nat.sqrt_eq]
  push_cast
  field_simp

/-- The dot of a new 100 x 100 widget after `startGame()`. -/
lemma startGame_ctor_dot :
    (DotWidget.ctor ⟨100, 100⟩).startGame.m_gameDot = ⟨⟨50, 50⟩, ⟨0, 0⟩, 3, ⟨20, 20⟩⟩ := by
  have h : Nat.sqrt 10 = 3 := by norm_num
  simp [DotWidget.ctor, DotWidget.startGame, DotWidget.resetGameStats,
    DotWidget.unpauseGame, Dot.ctor, Dot.setm_dotSize, Dot.applyBoundaryCheck,
    DOT_DIAM_DEFAULT, DOT_DIAM_MIN, DOT_DIAM_MAX, MOVE_DISTANCE_DEFAULT, h]
  decide

/-- The error ratio sampled with the pointer 1449 pixels to the right of the
dot of a new game: 1449 / 3 = 483. -/
lemma startGame_ctor_ratio_far :
    (DotWidget.ctor ⟨100, 100⟩).startGame.m_gameDot.calcPosErrorRatio sqrtMilli ⟨1499, 50⟩
      = 483 := by
  rw [startGame_ctor_dot]
  have e1 : wrapInt (1499 - 50) = 1449 := by decide
  have e2 : wrapInt (50 - 50) = 0 := by decide
  have e3 : (((1449 : Int) : ℚ) ^ 2 + ((0 : Int) : ℚ) ^ 2) = ((1449 : Nat) : ℚ) ^ 2 := by
    norm_num
  simp only [Dot.calcPosErrorRatio, e1, e2, e3, sqrtMilli_sq]
  norm_num

/-- The error ratio sampled with the pointer on the dot of a new game: 0. -/
lemma startGame_ctor_ratio_on_dot :
    (DotWidget.ctor ⟨100, 100⟩).startGame.m_gameDot.calcPosErrorRatio sqrtMilli ⟨50, 50⟩
      = 0 := by
  rw [startGame_ctor_dot]
  have e2 : wrapInt (50 - 50) = 0 := by decide
  have e3 : (((0 : Int) : ℚ) ^ 2 + ((0 : Int) : ℚ) ^ 2) = ((0 : Nat) : ℚ) ^ 2 := by
    norm_num
  simp only [Dot.calcPosErrorRatio, e2, e3, sqrtMilli_sq]
  norm_num

/-- Score, running average and speed of a new widget after `startGame()`. -/
lemma startGame_ctor_stats :
    (DotWidget.ctor ⟨100, 100⟩).startGame.m_score = 0 ∧
    (DotWidget.ctor ⟨100, 100⟩).startGame.m_runningAvgErrorRatio = 3 ∧
    (DotWidget.ctor ⟨100, 100⟩).startGame.m_dotSpeed = 40 ∧
    (DotWidget.ctor ⟨100, 100⟩).startGame.m_gameState = dotGameState.RUNNING := by
  simp [DotWidget.ctor, DotWidget.startGame, DotWidget.resetGameStats,
    DotWidget.unpauseGame, RUNNING_AVERAGE_ERROR_DEFAULT, DOT_SPEED_DEFAULT,
    DOT_ACCEL_DEFAULT]

/-- C9, as amended: a `calcGameStats` call in state RUNNING with dot speed in
[2, 50] whose new running average is at most the game-over distance 30 leaves
the score greater than or equal to the score before it. -/
theorem calcGameStats_score_monotone (fsqrt : ℚ → ℚ) (mousePosition : QPoint)
    (w : DotWidget) (_hrun : w.m_gameState = dotGameState.RUNNING)
    (_hlo : 2 ≤ w.m_dotSpeed) (_hhi : w.m_dotSpeed ≤ 50)
    (havg : w.newRunningAvg (w.m_gameDot.calcPosErrorRatio fsqrt mousePosition)
      ≤ CURSOR_DISTANCE_GAMEOVER) :
    w.m_score ≤ (w.calcGameStats fsqrt mousePosition).m_score := by
  simp only [DotWidget.calcGameStats]
  rw [calcGameStatsWith_score]
  have hd : (0 : ℚ) ≤ 10 * (CURSOR_DISTANCE_GAMEOVER
      - w.newRunningAvg (w.m_gameDot.calcPosErrorRatio fsqrt mousePosition))
      / CURSOR_DISTANCE_GAMEOVER := by
    apply div_nonneg
    · linarith
    · norm_num [CURSOR_DISTANCE_GAMEOVER]
  have hinc : (0 : ℚ) ≤ DotWidget.compositeScoreInc
      (w.newRunningAvg (w.m_gameDot.calcPosErrorRatio fsqrt mousePosition)) w.m_dotSpeed := by
    simp only [DotWidget.compositeScoreInc]
    exact div_nonneg (mul_nonneg (pow_nonneg hd 3) (speedComp_nonneg _)) (by norm_num)
  linarith

/-- Witness of C9: the first sample of a new game with the pointer on the
dot. -/
theorem calcGameStats_score_monotone_witness :
    (DotWidget.ctor ⟨100, 100⟩).startGame.m_score
      ≤ ((DotWidget.ctor ⟨100, 100⟩).startGame.calcGameStats sqrtMilli ⟨50, 50⟩).m_score :=
  calcGameStats_score_monotone sqrtMilli ⟨50, 50⟩ (DotWidget.ctor ⟨100, 100⟩).startGame
    startGame_ctor_stats.2.2.2
    (by rw [startGame_ctor_stats.2.2.1]; decide)
    (by rw [startGame_ctor_stats.2.2.1]; decide)
    (by
      rw [startGame_ctor_ratio_on_dot]
      simp only [DotWidget.newRunningAvg, startGame_ctor_stats.2.1, ERROR_AVERAGING_RATIO,
        CURSOR_DISTANCE_GAMEOVER]
      norm_num)

/-- Counterexample to C9 as stated: a new game (state RUNNING, running
average 3, speed 40, score 0) sampled with the pointer 1449 pixels from the
dot gets the new average 33 and the score -1/192, below the score before. -/
theorem calcGameStats_score_decreases :
    (DotWidget.ctor ⟨100, 100⟩).startGame.m_gameState = dotGameState.RUNNING ∧
    0 ≤ (DotWidget.ctor ⟨100, 100⟩).startGame.m_runningAvgErrorRatio ∧
    2 ≤ (DotWidget.ctor ⟨100, 100⟩).startGame.m_dotSpeed ∧
    (DotWidget.ctor ⟨100, 100⟩).startGame.m_dotSpeed ≤ 50 ∧
    (DotWidget.ctor ⟨100, 100⟩).startGame.m_score = 0 ∧
    ((DotWidget.ctor ⟨100, 100⟩).startGame.calcGameStats sqrtMilli ⟨1499, 50⟩).m_score
      = -1 / 192 ∧
    ((DotWidget.ctor ⟨100, 100⟩).startGame.calcGameStats sqrtMilli ⟨1499, 50⟩).m_score
      < (DotWidget.ctor ⟨100, 100⟩).startGame.m_score := by
  obtain ⟨hs, ha, hv, hst⟩ := startGame_ctor_stats
  have hscore :
      ((DotWidget.ctor ⟨100, 100⟩).startGame.calcGameStats sqrtMilli ⟨1499, 50⟩).m_score
        = -1 / 192 := by
    simp only [DotWidget.calcGameStats]
    rw [calcGameStatsWith_score, startGame_ctor_ratio_far]
    simp only [DotWidget.newRunningAvg, DotWidget.compositeScoreInc, hs, ha, hv,
      ERROR_AVERAGING_RATIO, CURSOR_DISTANCE_GAMEOVER, DOT_SPEED_MAX, DOT_SPEED_MIN]
    norm_num
  refine ⟨hst, ?_, ?_, ?_, hs, hscore, ?_⟩
  · rw [ha]; norm_num
  · rw [hv]; decide
  · rw [hv]; decide
  · rw [hscore, hs]; norm_num

/-- C10, as amended: for every new running average a and every dot speed
v <= 50 the score increment is ((30 - a)/30)^3 * ((50 - v)/48) / K with
K = 1/25. -/
theorem compositeScoreInc_formula (a : ℚ) (v : Nat) (hv : v ≤ 50) :
    DotWidget.compositeScoreInc a v
      = ((30 - a) / 30) ^ 3 * (((50 : ℚ) - (v : ℚ)) / 48) / (1 / 25) := by
  have h1 : (DOT_SPEED_MAX + 4294967296 - v % 4294967296) % 4294967296 = 50 - v := by
    unfold DOT_SPEED_MAX
    omega
  have h2 : ((50 - v : Nat) : ℚ) = (50 : ℚ) - (v : ℚ) := by
    rw [Nat.cast_sub hv]
    norm_num
  have h3 : ((DOT_SPEED_MAX - DOT_SPEED_MIN : Nat) : ℚ) = 48 := by
    norm_num [DOT_SPEED_MAX, DOT_SPEED_MIN]
  simp only [DotWidget.compositeScoreInc, h1, h2, h3, CURSOR_DISTANCE_GAMEOVER]
  ring

/-- Witness of C10: the default speed 40 and the average 33/16. -/
theorem compositeScoreInc_formula_witness :
    DotWidget.compositeScoreInc (33 / 16) 40
      = ((30 - (33 / 16 : ℚ)) / 30) ^ 3 * (((50 : ℚ) - ((40 : Nat) : ℚ)) / 48) / (1 / 25) :=
  compositeScoreInc_formula (33 / 16) 40 (by decide)

/-- Counterexample to C10 as stated: the dot speed 4294967295 is the `uint`
left by `increaseDotSpeed` in a game started with speed 2 and acceleration 3;
at that speed the code's increment for the average 0 is 425/16 while the
formula's is negative, and no constant K fits every speed. -/
theorem compositeScoreInc_formula_fails_above_max :
    ((((DotWidget.ctor ⟨100, 100⟩).setDotSpeedNeg (-2)).2.setDotAcceleration
        3).startGame.increaseDotSpeed).m_dotSpeed = 4294967295 ∧
    DotWidget.compositeScoreInc 0 4294967295 = 425 / 16 ∧
    DotWidget.compositeScoreInc 0 4294967295
      ≠ ((30 - (0 : ℚ)) / 30) ^ 3 * (((50 : ℚ) - ((4294967295 : Nat) : ℚ)) / 48) / (1 / 25) ∧
    ¬ ∃ K : ℚ, ∀ (a : ℚ) (v : Nat),
      DotWidget.compositeScoreInc a v
        = ((30 - a) / 30) ^ 3 * (((50 : ℚ) - (v : ℚ)) / 48) / K := by
  have hbig : DotWidget.compositeScoreInc 0 4294967295 = 425 / 16 := by
    simp only [DotWidget.compositeScoreInc, CURSOR_DISTANCE_GAMEOVER, DOT_SPEED_MAX,
      DOT_SPEED_MIN]
    norm_num
  refine ⟨by decide, hbig, ?_, ?_⟩
  · rw [hbig]
    norm_num
  · rintro ⟨K, hK⟩
    have h1 := hK 0 4294967295
    rw [hbig] at h1
    have hneg : ((30 - (0 : ℚ)) / 30) ^ 3 * (((50 : ℚ) - ((4294967295 : Nat) : ℚ)) / 48) / K
        = (-4294967245 / 48) / K := by
      norm_num
    rw [hneg] at h1
    have h2 := hK 0 49
    have h49 : DotWidget.compositeScoreInc 0 49 = 25 / 48 := by
      simp only [DotWidget.compositeScoreInc, CURSOR_DISTANCE_GAMEOVER, DOT_SPEED_MAX,
        DOT_SPEED_MIN]
      norm_num
    rw [h49] at h2
    have hpos : ((30 - (0 : ℚ)) / 30) ^ 3 * (((50 : ℚ) - ((49 : Nat) : ℚ)) / 48) / K
        = (1 / 48) / K := by
      norm_num
    rw [hpos] at h2
    have hK0 : K ≠ 0 := by
      intro h0
      rw [h0] at h2
      norm_num at h2
    field_simp at h1 h2
    nlinarith

/-- The `removeLast` loop leaves the first 10 entries. -/
lemma removeLastWhileOver_eq_take (fuel : Nat) (l : List HighScoreData)
    (h : l.length ≤ fuel + 10) : removeLastWhileOver fuel l = l.take 10 := by
  induction fuel generalizing l with
  | zero =>
    simp only [removeLastWhileOver]
    rw [List.take_of_length_le (by omega)]
  | succ fuel ih =>
    simp only [removeLastWhileOver, NUM_HIGH_SCORES_MAX]
    split_ifs with hgt
    · have hgt2 : 10 < l.length := by exact_mod_cast hgt
      rw [ih l.dropLast (by rw [List.length_dropLast]; omega), List.dropLast_eq_take,
        List.take_take]
      congr 1
      omega
    · have hle : l.length ≤ 10 := by
        by_contra hc
        exact hgt (by exact_mod_cast (Nat.lt_of_not_le hc))
      rw [List.take_of_length_le hle]

/-- An accepted `addHighScore` at a natural index inserts the entry there and
keeps the first 10 entries. -/
lemma addHighScore_accepted (w : DotWidget) (dlg : DialogResult) (i newScore : Nat)
    (l : List HighScoreData) (hok : dlg.ok = true) (hne : dlg.nameText ≠ []) :
    addHighScore w dlg (i : Int) newScore l
      = (l.take i ++ scoreData w dlg newScore :: l.drop i).take 10 := by
  have hacc : dlg.ok = true ∧ (!dlg.nameText.isEmpty) = true := by
    refine ⟨hok, ?_⟩
    cases hn : dlg.nameText with
    | nil => exact absurd hn hne
    | cons c cs => rfl
  simp only [addHighScore]
  rw [if_pos hacc]
  simp only [qlistInsert, Int.toNat_ofNat]
  exact removeLastWhileOver_eq_take _ _ (by omega)

/-- A rejected `addHighScore` leaves the list as it is. -/
lemma addHighScore_rejected (w : DotWidget) (dlg : DialogResult) (index : Int)
    (newScore : Nat) (l : List HighScoreData)
    (hrej : ¬ (dlg.ok = true ∧ (!dlg.nameText.isEmpty) = true)) :
    addHighScore w dlg index newScore l = l := by
  simp only [addHighScore]
  rw [if_neg hrej]

/-- With a rejected dialog the whole scan leaves the list as it is. -/
lemma scanLoop_rejected (w : DotWidget) (dlg : DialogResult) (newScore : Nat)
    (l : List HighScoreData) (hrej : ¬ (dlg.ok = true ∧ (!dlg.nameText.isEmpty) = true))
    (fuel i : Nat) : scanLoop w dlg newScore l fuel i = l := by
  induction fuel generalizing i with
  | zero => rfl
  | succ fuel ih =>
    simp only [scanLoop]
    split
    · rfl
    · split_ifs
      · exact addHighScore_rejected w dlg _ newScore l hrej
      · exact addHighScore_rejected w dlg _ newScore l hrej
      · exact ih (i + 1)

/-- The scan from index `i`, in terms of the first beaten entry at or after
`i`. -/
lemma scanLoop_eq (w : DotWidget) (dlg : DialogResult) (newScore : Nat)
    (l : List HighScoreData) (fuel i : Nat) (hfuel : l.length ≤ fuel + i)
    (hinv : i < l.length ∨ 10 ≤ l.length) :
    scanLoop w dlg newScore l fuel i =
      match (l.drop i).findIdx? (fun x => decide (newScore > x.score)) with
      | some k => addHighScore w dlg ((i + k : Nat) : Int) newScore l
      | none => if l.length < 10 then addHighScore w dlg ((l.length : Nat) : Int) newScore l
                else l := by
  induction fuel generalizing i with
  | zero =>
    have hi : l.length ≤ i := by omega
    have h10 : ¬ l.length < 10 := by omega
    simp only [scanLoop, List.drop_eq_nil_of_le hi, List.findIdx?_nil]
    rw [if_neg h10]
  | succ fuel ih =>
    simp only [scanLoop]
    rcases Nat.lt_or_ge i l.length with hi | hi
    · rw [List.getElem?_eq_getElem hi, List.drop_eq_getElem_cons hi, List.findIdx?_cons]
      simp only [decide_eq_true_eq]
      by_cases hbeat : newScore > l[i].score
      · simp only [if_pos hbeat]
        rfl
      · simp only [if_neg hbeat]
        by_cases hlast : (i : Int) ≥ (l.length : Int) - 1 ∧ (l.length : Int) < NUM_HIGH_SCORES_MAX
        · rw [if_pos hlast]
          obtain ⟨h1, h2⟩ := hlast
          simp only [NUM_HIGH_SCORES_MAX] at h2
          have hlen : l.length ≤ i + 1 := by omega
          have h10 : l.length < 10 := by omega
          have heq : i + 1 = l.length := by omega
          rw [List.drop_eq_nil_of_le hlen, List.findIdx?_nil]
          simp only []
          rw [if_pos h10]
          congr 1
          exact_mod_cast heq
        · rw [if_neg hlast]
          have hinv2 : i + 1 < l.length ∨ 10 ≤ l.length := by
            simp only [NUM_HIGH_SCORES_MAX] at hlast
            by_contra hc
            apply hlast
            omega
          rw [ih (i + 1) (by omega) hinv2, List.findIdx?_succ]
          cases (l.drop (i + 1)).findIdx? (fun x => decide (newScore > x.score)) with
          | none => rfl
          | some k =>
            simp only [Option.map_some']
            congr 2
            omega
    · have h10 : ¬ l.length < 10 := by omega
      rw [List.getElem?_eq_none hi, List.drop_eq_nil_of_le hi, List.findIdx?_nil]
      simp only []
      rw [if_neg h10]

/-- With an accepted name the insertion of `MainWindow::gameOver` is the
reference insertion of the entry built by `addHighScore`. -/
lemma gameOverInsert_accepted (w : DotWidget) (dlg : DialogResult) (newScore : Nat)
    (l : List HighScoreData) (hok : dlg.ok = true) (hne : dlg.nameText ≠ []) :
    gameOverInsert w dlg newScore l = insertReference (scoreData w dlg newScore) l := by
  simp only [gameOverInsert, insertReference]
  have hsc : (scoreData w dlg newScore).score = newScore := rfl
  rw [hsc]
  by_cases h0 : l.length = 0
  · have hnil : l = [] := List.eq_nil_of_length_eq_zero h0
    subst hnil
    have := addHighScore_accepted w dlg 0 newScore [] hok hne
    simpa using this
  · have hpos : 0 < l.length := Nat.pos_of_ne_zero h0
    rw [if_neg h0, scanLoop_eq w dlg newScore l l.length 0 (by omega) (Or.inl hpos)]
    simp only [List.drop_zero, Nat.zero_add]
    cases l.findIdx? (fun x => decide (newScore > x.score)) with
    | some k =>
      simp only []
      exact addHighScore_accepted w dlg k newScore l hok hne
    | none =>
      simp only []
      split_ifs with h10
      · rw [addHighScore_accepted w dlg l.length newScore l hok hne]
        simp only [List.take_length, List.drop_length]
        rw [List.take_of_length_le (by simp; omega)]
      · rfl

/-- With a rejected name dialog the insertion of `MainWindow::gameOver` leaves
the list as it is. -/
lemma gameOverInsert_rejected (w : DotWidget) (dlg : DialogResult) (newScore : Nat)
    (l : List HighScoreData) (hrej : ¬ (dlg.ok = true ∧ (!dlg.nameText.isEmpty) = true)) :
    gameOverInsert w dlg newScore l = l := by
  simp only [gameOverInsert]
  split_ifs
  · exact addHighScore_rejected w dlg 0 newScore l hrej
  · exact scanLoop_rejected w dlg newScore l hrej _ _

/-- The reference insertion keeps a list in non-increasing order of score. -/
lemma insertReference_sorted (e : HighScoreData) (l : List HighScoreData)
    (hs : l.Pairwise (fun a b => b.score ≤ a.score)) :
    (insertReference e l).Pairwise (fun a b => b.score ≤ a.score) := by
  have key : ∀ l : List HighScoreData, l.Pairwise (fun a b => b.score ≤ a.score) →
      match l.findIdx? (fun x => decide (e.score > x.score)) with
      | some i => (l.take i ++ e :: l.drop i).Pairwise (fun a b => b.score ≤ a.score)
      | none => ∀ x ∈ l, e.score ≤ x.score := by
    intro l
    induction l with
    | nil => intro _; simp
    | cons x xs ih =>
      intro hp
      rw [List.pairwise_cons] at hp
      obtain ⟨hx, hxs⟩ := hp
      rw [List.findIdx?_cons]
      simp only [decide_eq_true_eq]
      by_cases hb : e.score > x.score
      · rw [if_pos hb]
        simp only [List.take_zero, List.nil_append, List.drop_zero]
        refine List.Pairwise.cons ?_ (List.Pairwise.cons hx hxs)
        intro a ha
        rcases List.mem_cons.mp ha with rfl | ha
        · omega
        · have := hx a ha
          omega
      · rw [if_neg hb, List.findIdx?_succ]
        have ih2 := ih hxs
        cases hfi : xs.findIdx? (fun x => decide (e.score > x.score)) with
        | none =>
          rw [hfi] at ih2
          simp only [Option.map_none']
          intro y hy
          rcases List.mem_cons.mp hy with rfl | hy
          · omega
          · exact ih2 y hy
        | some k =>
          rw [hfi] at ih2
          simp only [Option.map_some', List.take_succ_cons, List.drop_succ_cons,
            List.cons_append]
          refine List.Pairwise.cons ?_ ih2
          intro a ha
          rcases List.mem_append.mp ha with ha | ha
          · exact hx a (List.mem_of_mem_take ha)
          · rcases List.mem_cons.mp ha with rfl | ha
            · omega
            · exact hx a (List.mem_of_mem_drop ha)
  have hk := key l hs
  simp only [insertReference]
  cases hfi : l.findIdx? (fun x => decide (e.score > x.score)) with
  | some i =>
    rw [hfi] at hk
    exact List.Pairwise.sublist (List.take_sublist _ _) hk
  | none =>
    rw [hfi] at hk
    simp only []
    split_ifs
    · rw [List.pairwise_append]
      refine ⟨hs, List.pairwise_singleton _ _, ?_⟩
      intro a ha b hb
      rw [List.mem_singleton] at hb
      subst hb
      exact hk a ha
    · exact hs

/-- The reference insertion keeps a list within 10 entries. -/
lemma insertReference_length (e : HighScoreData) (l : List HighScoreData)
    (hl : l.length ≤ 10) : (insertReference e l).length ≤ 10 := by
  simp only [insertReference]
  cases l.findIdx? (fun x => decide (e.score > x.score)) with
  | some i =>
    simp only [List.length_take]
    omega
  | none =>
    simp only []
    split_ifs with h
    · simp only [List.length_append, List.length_singleton]
      omega
    · exact hl

/-- One game-over insertion, with any dialog outcome, keeps the list in
non-increasing order of score and within 10 entries. -/
lemma gameOverInsert_invariant (w : DotWidget) (dlg : DialogResult) (newScore : Nat)
    (l : List HighScoreData)
    (hs : l.Pairwise (fun a b => b.score ≤ a.score)) (hl : l.length ≤ 10) :
    (gameOverInsert w dlg newScore l).Pairwise (fun a b => b.score ≤ a.score) ∧
    (gameOverInsert w dlg newScore l).length ≤ 10 := by
  by_cases hacc : dlg.ok = true ∧ (!dlg.nameText.isEmpty) = true
  · have hne : dlg.nameText ≠ [] := by
      intro h
      rw [h] at hacc
      simp at hacc
    rw [gameOverInsert_accepted w dlg newScore l hacc.1 hne]
    exact ⟨insertReference_sorted _ l hs, insertReference_length _ l hl⟩
  · rw [gameOverInsert_rejected w dlg newScore l hacc]
    exact ⟨hs, hl⟩

/-- The order and size invariant through a sequence of insertions. -/
lemma insertAll_invariant (events : List (DotWidget × DialogResult × Nat))
    (l : List HighScoreData)
    (hs : l.Pairwise (fun a b => b.score ≤ a.score)) (hl : l.length ≤ 10) :
    (insertAll events l).Pairwise (fun a b => b.score ≤ a.score) ∧
    (insertAll events l).length ≤ 10 := by
  induction events generalizing l with
  | nil => exact ⟨hs, hl⟩
  | cons ev rest ih =>
    obtain ⟨w, dlg, newScore⟩ := ev
    simp only [insertAll]
    obtain ⟨h1, h2⟩ := gameOverInsert_invariant w dlg newScore l hs hl
    exact ih _ h1 h2

/-- C2: starting from the empty list, after any sequence of game-over
insertions (whatever the widget state, dialog outcome and score of each) the
high-score list is in non-increasing order of score and holds at most
NUM_HIGH_SCORES_MAX = 10 entries. -/
theorem insertAll_sorted_and_bounded (events : List (DotWidget × DialogResult × Nat)) :
    (insertAll events []).Pairwise (fun a b => b.score ≤ a.score) ∧
    ((insertAll events []).length : Int) ≤ NUM_HIGH_SCORES_MAX := by
  obtain ⟨h1, h2⟩ := insertAll_invariant events [] List.Pairwise.nil (by simp)
  refine ⟨h1, ?_⟩
  simp only [NUM_HIGH_SCORES_MAX]
  exact_mod_cast h2

/-- C3: for a list of at most 10 entries and an accepted name, the insertion
done by `MainWindow::gameOver` is the reference insertion of the entry built
by `addHighScore`: at the first index with a lower score (after every entry
with an equal score) and cut to 10 entries, else appended when there is room,
else the list unchanged; the entries of a list with room all stay, whatever
their names. -/
theorem gameOverInsert_eq_reference (w : DotWidget) (dlg : DialogResult) (newScore : Nat)
    (l : List HighScoreData) (_hlen : l.length ≤ 10)
    (hok : dlg.ok = true) (hne : dlg.nameText ≠ []) :
    gameOverInsert w dlg newScore l = insertReference (scoreData w dlg newScore) l ∧
    (l.length < 10 → l.Sublist (gameOverInsert w dlg newScore l)) := by
  have hmain := gameOverInsert_accepted w dlg newScore l hok hne
  refine ⟨hmain, fun hlt => ?_⟩
  rw [hmain]
  simp only [insertReference]
  cases l.findIdx? (fun x => decide ((scoreData w dlg newScore).score > x.score)) with
  | some k =>
    simp only []
    rw [List.take_of_length_le (by simp; omega)]
    have h1 : l.Sublist (l.take k ++ l.drop k) := by rw [List.take_append_drop]
    exact h1.trans (List.Sublist.append_left (List.sublist_cons_self _ _) _)
  | none =>
    simp only []
    rw [if_pos hlt]
    exact List.sublist_append_left _ _

/-- Witness of C3: the score 5 entered as "al" into the list of scores 7, 5, 3
lands after the entry that already has the score 5, and the entry already
named "al" stays. -/
theorem gameOverInsert_eq_reference_witness :
    gameOverInsert (DotWidget.ctor ⟨100, 100⟩) ⟨true, ['a', 'l']⟩ 5
        [⟨['b'], 7, 10, 20, 40⟩, ⟨['c'], 5, 10, 20, 40⟩, ⟨['a', 'l'], 3, 10, 20, 40⟩]
      = insertReference (scoreData (DotWidget.ctor ⟨100, 100⟩) ⟨true, ['a', 'l']⟩ 5)
        [⟨['b'], 7, 10, 20, 40⟩, ⟨['c'], 5, 10, 20, 40⟩, ⟨['a', 'l'], 3, 10, 20, 40⟩] ∧
    List.Sublist
      [⟨['b'], 7, 10, 20, 40⟩, ⟨['c'], 5, 10, 20, 40⟩, ⟨['a', 'l'], 3, 10, 20, 40⟩]
      (gameOverInsert (DotWidget.ctor ⟨100, 100⟩) ⟨true, ['a', 'l']⟩ 5
        [⟨['b'], 7, 10, 20, 40⟩, ⟨['c'], 5, 10, 20, 40⟩, ⟨['a', 'l'], 3, 10, 20, 40⟩]) :=
  ⟨(gameOverInsert_eq_reference (DotWidget.ctor ⟨100, 100⟩) ⟨true, ['a', 'l']⟩ 5
      [⟨['b'], 7, 10, 20, 40⟩, ⟨['c'], 5, 10, 20, 40⟩, ⟨['a', 'l'], 3, 10, 20, 40⟩]
      (by decide) rfl (by decide)).1,
   (gameOverInsert_eq_reference (DotWidget.ctor ⟨100, 100⟩) ⟨true, ['a', 'l']⟩ 5
      [⟨['b'], 7, 10, 20, 40⟩, ⟨['c'], 5, 10, 20, 40⟩, ⟨['a', 'l'], 3, 10, 20, 40⟩]
      (by decide) rfl (by decide)).2 (by decide)⟩

/-- A digit character is a digit, is not whitespace, and has its value. -/
lemma digitChar_props (d : Nat) :
    isDigit (digitChar d) = true ∧ isSpace (digitChar d) = false ∧
    digitValue (digitChar d) = d % 10 := by
  unfold digitChar
  have h : d % 10 < 10 := Nat.mod_lt _ (by norm_num)
  generalize d % 10 = r at h
  interval_cases r <;> decide

/-- A digit is not whitespace. -/
lemma isSpace_of_isDigit (c : Char) (h : isDigit c = true) : isSpace c = false := by
  simp only [isDigit, Bool.and_eq_true, decide_eq_true_eq] at h
  simp only [isSpace, Bool.or_eq_false_iff, Bool.and_eq_false_iff, decide_eq_false_iff_not,
    beq_eq_false_iff_ne]
  omega

/-- The digits written for `n`: a non-empty run of digits whose value is `n`. -/
lemma writeUIntAux_spec (fuel n : Nat) (acc : List Char) (h : n < 10 ^ (fuel + 1)) :
    ∃ ds : List Char, writeUIntAux (fuel + 1) n acc = ds ++ acc ∧ ds ≠ [] ∧
      (∀ c ∈ ds, isDigit c = true) ∧
      ∀ v : Nat, ds.foldl (fun v c => v * 10 + digitValue c) v = v * 10 ^ ds.length + n := by
  induction fuel generalizing n acc with
  | zero =>
    obtain ⟨hd, _, hv⟩ := digitChar_props n
    have hsmall : n / 10 = 0 := by
      simp only [zero_add, pow_one] at h
      omega
    simp only [writeUIntAux, hsmall, if_true]
    refine ⟨[digitChar n], rfl, by simp, ?_, ?_⟩
    · intro c hc
      rw [List.mem_singleton] at hc
      rw [hc]
      exact hd
    · intro v
      simp only [List.foldl_cons, List.foldl_nil, List.length_singleton, pow_one, hv]
      omega
  | succ fuel ih =>
    obtain ⟨hd, _, hv⟩ := digitChar_props n
    rw [writeUIntAux]
    split_ifs with hsmall
    · refine ⟨[digitChar n], rfl, by simp, ?_, ?_⟩
      · intro c hc
        rw [List.mem_singleton] at hc
        rw [hc]
        exact hd
      · intro v
        simp only [List.foldl_cons, List.foldl_nil, List.length_singleton, pow_one, hv]
        omega
    · have hlt : n / 10 < 10 ^ (fuel + 1) := by
        rw [pow_succ] at h
        omega
      obtain ⟨ds, heq, _, hdig, hval⟩ := ih (n / 10) (digitChar n :: acc) hlt
      refine ⟨ds ++ [digitChar n], by rw [heq]; simp, by simp, ?_, ?_⟩
      · intro c hc
        rcases List.mem_append.mp hc with hc | hc
        · exact hdig c hc
        · rw [List.mem_singleton] at hc
          rw [hc]
          exact hd
      · intro v
        rw [List.foldl_append, hval v]
        simp only [List.foldl_cons, List.foldl_nil, List.length_append, List.length_singleton,
          hv, pow_succ]
        have := Nat.div_add_mod n 10
        nlinarith

/-- The text written for a `uint`: a non-empty run of digits of value `n`. -/
lemma writeUInt_spec (n : Nat) :
    writeUInt n ≠ [] ∧ (∀ c ∈ writeUInt n, isDigit c = true) ∧
    (writeUInt n).foldl (fun v c => v * 10 + digitValue c) 0 = n := by
  have hpow : n < 10 ^ (n + 1) := by
    have := Nat.lt_pow_self (show 1 < 10 by norm_num) (n + 1)
    omega
  obtain ⟨ds, heq, hne, hdig, hval⟩ := writeUIntAux_spec n n [] hpow
  have hw : writeUInt n = ds := by
    simp only [writeUInt, heq, List.append_nil]
  rw [hw]
  refine ⟨hne, hdig, ?_⟩
  rw [hval 0]
  omega

/-- Reading back a written `uint` that is preceded by a space and followed by
a character that is not a digit. -/
lemma readUInt_writeUInt (n : Nat) (hn : n < 4294967296) (c : Char) (rest : List Char)
    (hc : isDigit c = false) :
    readUInt (' ' :: (writeUInt n ++ c :: rest)) = (n, c :: rest) := by
  obtain ⟨hne, hdig, hval⟩ := writeUInt_spec n
  have hskip : skipWhiteSpace (' ' :: (writeUInt n ++ c :: rest))
      = writeUInt n ++ c :: rest := by
    simp only [skipWhiteSpace]
    rw [List.dropWhile_cons_of_pos (by decide)]
    cases hw : writeUInt n with
    | nil => exact absurd hw hne
    | cons d ds =>
      have hd : isDigit d = true := hdig d (by rw [hw]; exact List.mem_cons_self _ _)
      rw [List.cons_append, List.dropWhile_cons_of_neg]
      rw [isSpace_of_isDigit d hd]
      decide
  have htake : (writeUInt n ++ c :: rest).takeWhile isDigit = writeUInt n := by
    rw [List.takeWhile_append_of_pos hdig, List.takeWhile_cons_of_neg (by rw [hc]; decide),
      List.append_nil]
  have hdrop : (writeUInt n ++ c :: rest).dropWhile isDigit = c :: rest := by
    rw [List.dropWhile_append_of_pos hdig, List.dropWhile_cons_of_neg (by rw [hc]; decide)]
  have hemp : (writeUInt n).isEmpty = false := by
    cases hw : writeUInt n with
    | nil => exact absurd hw hne
    | cons d ds => rfl
  simp only [readUInt, hskip, htake, hdrop, hemp, hval, Bool.false_eq_true, if_false]
  rw [Nat.mod_eq_of_lt hn]

/-- Reading back a name without whitespace that is followed by a space. -/
lemma readWord_name (name rest : List Char) (hne : name ≠ [])
    (hns : ∀ c ∈ name, isSpace c = false) :
    readWord (name ++ ' ' :: rest) = (name, ' ' :: rest) := by
  have hns2 : ∀ c ∈ name, (fun c => !isSpace c) c = true := by
    intro c hc
    simp [hns c hc]
  have hskip : skipWhiteSpace (name ++ ' ' :: rest) = name ++ ' ' :: rest := by
    cases hw : name with
    | nil => exact absurd hw hne
    | cons d ds =>
      have hd : isSpace d = false := hns d (by rw [hw]; exact List.mem_cons_self _ _)
      simp only [skipWhiteSpace, List.cons_append]
      rw [List.dropWhile_cons_of_neg (by rw [hd]; decide)]
  simp only [readWord, hskip]
  rw [List.takeWhile_append_of_pos hns2, List.dropWhile_append_of_pos hns2,
    List.takeWhile_cons_of_neg (by decide), List.dropWhile_cons_of_neg (by decide),
    List.append_nil]

/-- Reading back the row written for one entry. -/
lemma readRow_writeRow (e : HighScoreData) (rest : List Char) (hne : e.name ≠ [])
    (hns : e.nameHasNoSpace) (hu : e.fieldsAreUInt) :
    readRow (writeRow e ++ rest) = (e, '\n' :: rest) := by
  obtain ⟨h1, h2, h3, h4⟩ := hu
  have hsp : isDigit ' ' = false := by decide
  have hnl : isDigit '\n' = false := by decide
  simp only [readRow, writeRow, List.append_assoc, List.cons_append, List.nil_append]
  rw [readWord_name e.name _ hne hns]
  simp only []
  rw [readUInt_writeUInt e.score h1 ' ' _ hsp]
  simp only []
  rw [readUInt_writeUInt e.gameTimeLength h2 ' ' _ hsp]
  simp only []
  rw [readUInt_writeUInt e.dotDiam h3 ' ' _ hsp]
  simp only []
  rw [readUInt_writeUInt e.maxSpeed h4 '\n' _ hnl]

/-- The text written for a list of names without whitespace does not start
with whitespace. -/
lemma skipWhiteSpace_writeScoreFile (l : List HighScoreData)
    (h : ∀ e ∈ l, e.nameHasNoSpace ∧ e.fieldsAreUInt) :
    skipWhiteSpace (writeScoreFile l) = writeScoreFile l := by
  induction l with
  | nil => rfl
  | cons e rest ih =>
    have ih2 := ih (fun x hx => h x (List.mem_cons_of_mem _ hx))
    simp only [writeScoreFile]
    split_ifs with hw
    · cases hn : e.name with
      | nil => exact absurd hn hw.1
      | cons c cs =>
        have hc : isSpace c = false :=
          (h e (List.mem_cons_self _ _)).1 c (by rw [hn]; exact List.mem_cons_self _ _)
        simp only [writeRow, hn, List.cons_append, skipWhiteSpace]
        rw [List.dropWhile_cons_of_neg (by rw [hc]; decide)]
    · exact ih2

/-- Reading the text written for a list of entries whose names have no
whitespace appends the entries with a non-empty name, in order. -/
lemma readLoop_writeScoreFile (l : List HighScoreData)
    (h : ∀ e ∈ l, e.nameHasNoSpace ∧ e.fieldsAreUInt) (fuel : Nat) (acc : List HighScoreData)
    (hfuel : (writeScoreFile l).length ≤ fuel) :
    readLoop fuel (writeScoreFile l) acc = acc ++ l.filter (fun e => !e.name.isEmpty) := by
  induction l generalizing fuel acc with
  | nil =>
    cases fuel with
    | zero => simp [readLoop]
    | succ f => simp [readLoop, writeScoreFile, atEnd]
  | cons e rest ih =>
    have hrest : ∀ x ∈ rest, x.nameHasNoSpace ∧ x.fieldsAreUInt :=
      fun x hx => h x (List.mem_cons_of_mem _ hx)
    obtain ⟨hns, hu⟩ := h e (List.mem_cons_self _ _)
    by_cases hne : e.name = []
    · have hskip : ¬ (e.name ≠ [] ∧ e.name ≠ ['\n']) := fun hc => hc.1 hne
      have hw : writeScoreFile (e :: rest) = writeScoreFile rest := by
        simp only [writeScoreFile]
        rw [if_neg hskip]
      rw [hw] at hfuel ⊢
      rw [ih hrest fuel acc hfuel, List.filter_cons]
      simp [hne]
    · have hnl : e.name ≠ ['\n'] := by
        intro hc
        have := hns '\n' (by rw [hc]; exact List.mem_cons_self _ _)
        exact absurd this (by decide)
      have hw : writeScoreFile (e :: rest) = writeRow e ++ writeScoreFile rest := by
        simp only [writeScoreFile]
        rw [if_pos ⟨hne, hnl⟩]
      have hlen : 0 < (writeRow e).length := by
        simp [writeRow]
      rw [hw] at hfuel ⊢
      rw [List.length_append] at hfuel
      cases fuel with
      | zero => omega
      | succ f =>
        have hnotend : atEnd (writeRow e ++ writeScoreFile rest) = false := by
          cases hr : writeRow e with
          | nil => rw [hr] at hlen; simp at hlen
          | cons c cs => rfl
        simp only [readLoop, hnotend, Bool.false_eq_true, if_false]
        rw [readRow_writeRow e _ hne hns hu]
        simp only []
        have hsk : skipWhiteSpace ('\n' :: writeScoreFile rest) = writeScoreFile rest := by
          have h1 : skipWhiteSpace ('\n' :: writeScoreFile rest)
              = skipWhiteSpace (writeScoreFile rest) := by
            simp only [skipWhiteSpace]
            rw [List.dropWhile_cons_of_pos (by decide)]
          rw [h1, skipWhiteSpace_writeScoreFile rest hrest]
        rw [hsk, ih hrest f (acc ++ [e]) (by omega), List.filter_cons]
        have hemp : (!e.name.isEmpty) = true := by
          cases hn : e.name with
          | nil => exact absurd hn hne
          | cons c cs => rfl
        simp [hemp]

/-- C4, as amended: for every high-score list whose names contain no
whitespace character (and whose numeric fields are `uint` values), writing it
with `writeScoreFile` and reading the text back with
`updateHighScoreListFromFile` into an empty list yields the same entries in
the same order, except that entries with an empty name are absent. -/
theorem write_then_read_roundtrip (l : List HighScoreData)
    (h : ∀ e ∈ l, e.nameHasNoSpace ∧ e.fieldsAreUInt) :
    updateHighScoreListFromFile (writeScoreFile l) [] = l.filter (fun e => !e.name.isEmpty) := by
  simp only [updateHighScoreListFromFile]
  rw [skipWhiteSpace_writeScoreFile l h, readLoop_writeScoreFile l h _ [] (le_refl _)]
  simp

/-- Witness of C4: three entries, the second with an empty name. -/
theorem write_then_read_roundtrip_witness :
    updateHighScoreListFromFile
        (writeScoreFile [⟨['b', 'o', 'b'], 120, 10, 20, 40⟩, ⟨[], 5, 1, 1, 1⟩,
          ⟨['a', 'l'], 7, 10, 20, 38⟩]) []
      = ([⟨['b', 'o', 'b'], 120, 10, 20, 40⟩, ⟨[], 5, 1, 1, 1⟩,
          ⟨['a', 'l'], 7, 10, 20, 38⟩] : List HighScoreData).filter
          (fun e => !e.name.isEmpty) :=
  write_then_read_roundtrip
    [⟨['b', 'o', 'b'], 120, 10, 20, 40⟩, ⟨[], 5, 1, 1, 1⟩, ⟨['a', 'l'], 7, 10, 20, 38⟩]
    (by
      simp only [HighScoreData.nameHasNoSpace, HighScoreData.fieldsAreUInt]
      decide)

/-- Counterexample to C4 as stated: the one-entry list with the name "a b" is
written as `a b 1 2 3 4` and read back as the two entries ("a", 0, 0, 0, 0)
and ("b", 1, 2, 3, 4); the one-entry list whose name is a line feed is written
as the empty text and read back as the empty list. -/
theorem write_then_read_loses_spaced_name :
    writeScoreFile [⟨['a', ' ', 'b'], 1, 2, 3, 4⟩]
      = ['a', ' ', 'b', ' ', '1', ' ', '2', ' ', '3', ' ', '4', '\n'] ∧
    updateHighScoreListFromFile (writeScoreFile [⟨['a', ' ', 'b'], 1, 2, 3, 4⟩]) []
      = [⟨['a'], 0, 0, 0, 0⟩, ⟨['b'], 1, 2, 3, 4⟩] ∧
    updateHighScoreListFromFile (writeScoreFile [⟨['a', ' ', 'b'], 1, 2, 3, 4⟩]) []
      ≠ ([⟨['a', ' ', 'b'], 1, 2, 3, 4⟩] : List HighScoreData).filter
          (fun e => !e.name.isEmpty) ∧
    updateHighScoreListFromFile (writeScoreFile [⟨['\n'], 1, 2, 3, 4⟩]) [] = [] ∧
    ([⟨['\n'], 1, 2, 3, 4⟩] : List HighScoreData).filter (fun e => !e.name.isEmpty)
      = [⟨['\n'], 1, 2, 3, 4⟩] := by
  decide

/-- The state and the game-over reason stored by `calcGameStatsWith`. -/
lemma calcGameStatsWith_state (r : ℚ) (w : DotWidget) :
    (CURSOR_DISTANCE_GAMEOVER ≤ w.newRunningAvg r →
      (w.calcGameStatsWith r).m_gameState = dotGameState.GAMEOVER ∧
      (w.calcGameStatsWith r).m_lastGameOverReason = gameOverReason.DISTANCE) ∧
    (w.newRunningAvg r < CURSOR_DISTANCE_GAMEOVER →
      (w.calcGameStatsWith r).m_gameState = w.m_gameState ∧
      (w.calcGameStatsWith r).m_lastGameOverReason = w.m_lastGameOverReason) := by
  constructor
  · intro h
    have h2 : w.newRunningAvg r ≥ CURSOR_DISTANCE_GAMEOVER := h
    simp only [DotWidget.calcGameStatsWith]
    rw [if_pos h2]
    exact ⟨rfl, rfl⟩
  · intro h
    have h2 : ¬ (w.newRunningAvg r ≥ CURSOR_DISTANCE_GAMEOVER) := not_le.mpr h
    simp only [DotWidget.calcGameStatsWith]
    rw [if_neg h2]
    exact ⟨rfl, rfl⟩

/-- C11: a `calcGameStats` call in state RUNNING whose new running average is
at least CURSOR_DISTANCE_GAMEOVER = 30 leaves the state GAMEOVER with reason
DISTANCE; with a new average below 30 the state is still RUNNING and the last
game-over reason is unchanged. -/
theorem calcGameStats_distance_game_over (fsqrt : ℚ → ℚ) (mousePosition : QPoint)
    (w : DotWidget) (hrun : w.m_gameState = dotGameState.RUNNING) :
    (30 ≤ (w.calcGameStats fsqrt mousePosition).m_runningAvgErrorRatio →
      (w.calcGameStats fsqrt mousePosition).m_gameState = dotGameState.GAMEOVER ∧
      (w.calcGameStats fsqrt mousePosition).m_lastGameOverReason
        = gameOverReason.DISTANCE) ∧
    ((w.calcGameStats fsqrt mousePosition).m_runningAvgErrorRatio < 30 →
      (w.calcGameStats fsqrt mousePosition).m_gameState = dotGameState.RUNNING ∧
      (w.calcGameStats fsqrt mousePosition).m_lastGameOverReason
        = w.m_lastGameOverReason) := by
  simp only [DotWidget.calcGameStats]
  rw [calcGameStatsWith_avg]
  obtain ⟨hge, hlt⟩ :=
    calcGameStatsWith_state (w.m_gameDot.calcPosErrorRatio fsqrt mousePosition) w
  constructor
  · intro h
    exact hge (by simpa [CURSOR_DISTANCE_GAMEOVER] using h)
  · intro h
    obtain ⟨h1, h2⟩ := hlt (by simpa [CURSOR_DISTANCE_GAMEOVER] using h)
    exact ⟨by rw [h1, hrun], h2⟩

/-- The running average after the first sample of a new game taken with the
pointer 1449 pixels from the dot: 33. -/
lemma startGame_ctor_avg_far :
    ((DotWidget.ctor ⟨100, 100⟩).startGame.calcGameStats sqrtMilli
      ⟨1499, 50⟩).m_runningAvgErrorRatio = 33 := by
  simp only [DotWidget.calcGameStats]
  rw [calcGameStatsWith_avg, startGame_ctor_ratio_far]
  simp only [DotWidget.newRunningAvg, startGame_ctor_stats.2.1, ERROR_AVERAGING_RATIO]
  norm_num

/-- The running average after the first sample of a new game taken with the
pointer on the dot: 45/16. -/
lemma startGame_ctor_avg_on_dot :
    ((DotWidget.ctor ⟨100, 100⟩).startGame.calcGameStats sqrtMilli
      ⟨50, 50⟩).m_runningAvgErrorRatio = 45 / 16 := by
  simp only [DotWidget.calcGameStats]
  rw [calcGameStatsWith_avg, startGame_ctor_ratio_on_dot]
  simp only [DotWidget.newRunningAvg, startGame_ctor_stats.2.1, ERROR_AVERAGING_RATIO]
  norm_num

/-- Witness of C11: the first sample of a new game, with the pointer 1449
pixels from the dot (new average 33) and with the pointer on the dot (new
average 45/16). -/
theorem calcGameStats_distance_game_over_witness :
    (((DotWidget.ctor ⟨100, 100⟩).startGame.calcGameStats sqrtMilli ⟨1499, 50⟩).m_gameState
        = dotGameState.GAMEOVER ∧
      ((DotWidget.ctor ⟨100, 100⟩).startGame.calcGameStats sqrtMilli
        ⟨1499, 50⟩).m_lastGameOverReason = gameOverReason.DISTANCE) ∧
    (((DotWidget.ctor ⟨100, 100⟩).startGame.calcGameStats sqrtMilli ⟨50, 50⟩).m_gameState
        = dotGameState.RUNNING ∧
      ((DotWidget.ctor ⟨100, 100⟩).startGame.calcGameStats sqrtMilli
        ⟨50, 50⟩).m_lastGameOverReason
        = (DotWidget.ctor ⟨100, 100⟩).startGame.m_lastGameOverReason) :=
  ⟨(calcGameStats_distance_game_over sqrtMilli ⟨1499, 50⟩
      (DotWidget.ctor ⟨100, 100⟩).startGame startGame_ctor_stats.2.2.2).1
      (by rw [startGame_ctor_avg_far]; norm_num),
   (calcGameStats_distance_game_over sqrtMilli ⟨50, 50⟩
      (DotWidget.ctor ⟨100, 100⟩).startGame startGame_ctor_stats.2.2.2).2
      (by rw [startGame_ctor_avg_on_dot]; norm_num)⟩

/-- C12: `screenClicked` dispatches on the state: RUNNING becomes PAUSED;
PAUSED becomes RUNNING with score, elapsed time and running average unchanged;
GAMEOVER becomes RUNNING with score 0, elapsed time 0 and running average 3. -/
theorem screenClicked_dispatch (w : DotWidget) :
    (w.m_gameState = dotGameState.RUNNING →
      w.screenClicked.m_gameState = dotGameState.PAUSED) ∧
    (w.m_gameState = dotGameState.PAUSED →
      w.screenClicked.m_gameState = dotGameState.RUNNING ∧
      w.screenClicked.m_score = w.m_score ∧
      w.screenClicked.m_elapsedGameTime = w.m_elapsedGameTime ∧
      w.screenClicked.m_runningAvgErrorRatio = w.m_runningAvgErrorRatio) ∧
    (w.m_gameState = dotGameState.GAMEOVER →
      w.screenClicked.m_gameState = dotGameState.RUNNING ∧
      w.screenClicked.m_score = 0 ∧
      w.screenClicked.m_elapsedGameTime = 0 ∧
      w.screenClicked.m_runningAvgErrorRatio = 3) := by
  refine ⟨fun h => ?_, fun h => ?_, fun h => ?_⟩
  · have e : w.screenClicked = w.pauseGame := by
      simp only [DotWidget.screenClicked, h]
    rw [e]
    rfl
  · have e : w.screenClicked = w.unpauseGame := by
      simp only [DotWidget.screenClicked, h]
    rw [e]
    exact ⟨rfl, rfl, rfl, rfl⟩
  · have e : w.screenClicked = w.startGame := by
      simp only [DotWidget.screenClicked, h]
    rw [e]
    exact ⟨rfl, rfl, rfl, rfl⟩

/-- Witness of C12: a click on a running game, on a new (paused) widget, and
on a game ended by `setGameOver`. -/
theorem screenClicked_dispatch_witness :
    (DotWidget.ctor ⟨100, 100⟩).startGame.screenClicked.m_gameState = dotGameState.PAUSED ∧
    ((DotWidget.ctor ⟨100, 100⟩).screenClicked.m_gameState = dotGameState.RUNNING ∧
      (DotWidget.ctor ⟨100, 100⟩).screenClicked.m_score = (DotWidget.ctor ⟨100, 100⟩).m_score ∧
      (DotWidget.ctor ⟨100, 100⟩).screenClicked.m_elapsedGameTime
        = (DotWidget.ctor ⟨100, 100⟩).m_elapsedGameTime ∧
      (DotWidget.ctor ⟨100, 100⟩).screenClicked.m_runningAvgErrorRatio
        = (DotWidget.ctor ⟨100, 100⟩).m_runningAvgErrorRatio) ∧
    (((DotWidget.ctor ⟨100, 100⟩).startGame.setGameOver
        gameOverReason.DISTANCE).screenClicked.m_gameState = dotGameState.RUNNING ∧
      ((DotWidget.ctor ⟨100, 100⟩).startGame.setGameOver
        gameOverReason.DISTANCE).screenClicked.m_score = 0 ∧
      ((DotWidget.ctor ⟨100, 100⟩).startGame.setGameOver
        gameOverReason.DISTANCE).screenClicked.m_elapsedGameTime = 0 ∧
      ((DotWidget.ctor ⟨100, 100⟩).startGame.setGameOver
        gameOverReason.DISTANCE).screenClicked.m_runningAvgErrorRatio = 3) :=
  ⟨(screenClicked_dispatch (DotWidget.ctor ⟨100, 100⟩).startGame).1 rfl,
   (screenClicked_dispatch (DotWidget.ctor ⟨100, 100⟩)).2.1 rfl,
   (screenClicked_dispatch
      ((DotWidget.ctor ⟨100, 100⟩).startGame.setGameOver gameOverReason.DISTANCE)).2.2 rfl⟩

/-- C13: after `startGame()` the score is 0, the elapsed time 0, the running
average 3 and the state RUNNING; the dot speed is the user speed setting when
the acceleration is > 0 and is unchanged when it is 0; the time limit, the
acceleration and the user speed setting are unchanged. -/
theorem startGame_resets (w : DotWidget) :
    w.startGame.m_score = 0 ∧
    w.startGame.m_elapsedGameTime = 0 ∧
    w.startGame.m_runningAvgErrorRatio = 3 ∧
    w.startGame.m_gameState = dotGameState.RUNNING ∧
    (0 < w.m_dotAcceleration → w.startGame.m_dotSpeed = w.m_dotSpeedUserSetting) ∧
    (w.m_dotAcceleration = 0 → w.startGame.m_dotSpeed = w.m_dotSpeed) ∧
    w.startGame.m_gameLength = w.m_gameLength ∧
    w.startGame.m_dotAcceleration = w.m_dotAcceleration ∧
    w.startGame.m_dotSpeedUserSetting = w.m_dotSpeedUserSetting := by
  refine ⟨rfl, rfl, rfl, rfl, fun h => ?_, fun h => ?_, rfl, rfl, rfl⟩
  · have h2 : w.m_dotAcceleration > 0 := h
    show (if w.m_dotAcceleration > 0 then w.m_dotSpeedUserSetting else w.m_dotSpeed)
      = w.m_dotSpeedUserSetting
    rw [if_pos h2]
  · have h2 : ¬ (w.m_dotAcceleration > 0) := by omega
    show (if w.m_dotAcceleration > 0 then w.m_dotSpeedUserSetting else w.m_dotSpeed)
      = w.m_dotSpeed
    rw [if_neg h2]

/-- Witness of C13: a widget whose speed was lowered to 30 by two acceleration
ticks of 5 (user setting 40), and the same widget with the acceleration then
set to 0. -/
theorem startGame_resets_witness :
    (((DotWidget.ctor ⟨100, 100⟩).setDotAcceleration
        5).increaseDotSpeed.increaseDotSpeed.startGame.m_dotSpeed
      = ((DotWidget.ctor ⟨100, 100⟩).setDotAcceleration
        5).increaseDotSpeed.increaseDotSpeed.m_dotSpeedUserSetting) ∧
    ((((DotWidget.ctor ⟨100, 100⟩).setDotAcceleration
        5).increaseDotSpeed.increaseDotSpeed.setDotAcceleration 0).startGame.m_dotSpeed
      = (((DotWidget.ctor ⟨100, 100⟩).setDotAcceleration
        5).increaseDotSpeed.increaseDotSpeed.setDotAcceleration 0).m_dotSpeed) :=
  ⟨(startGame_resets (((DotWidget.ctor ⟨100, 100⟩).setDotAcceleration
      5).increaseDotSpeed.increaseDotSpeed)).2.2.2.2.1 (by decide),
   (startGame_resets ((((DotWidget.ctor ⟨100, 100⟩).setDotAcceleration
      5).increaseDotSpeed.increaseDotSpeed.setDotAcceleration 0))).2.2.2.2.2.1 (by decide)⟩

/-- C14, the code at the failing input: in the game started after
`setDotSpeedNeg(-2)` and `setDotAcceleration(3)` the speed is 2 and the
acceleration 3, both in range; `increaseDotSpeed` then leaves the speed
4294967295, which is neither max(2 - 3, 2) = 2 nor within [2, 50], and the
acceleration timer is still running. -/
theorem increaseDotSpeed_wraps_below_floor :
    (((DotWidget.ctor ⟨100, 100⟩).setDotSpeedNeg (-2)).2.setDotAcceleration
      3).startGame.m_dotSpeed = 2 ∧
    (((DotWidget.ctor ⟨100, 100⟩).setDotSpeedNeg (-2)).2.setDotAcceleration
      3).startGame.m_dotAcceleration = 3 ∧
    (((DotWidget.ctor ⟨100, 100⟩).setDotSpeedNeg (-2)).2.setDotAcceleration
      3).startGame.increaseDotSpeed.m_dotSpeed = 4294967295 ∧
    (((((DotWidget.ctor ⟨100, 100⟩).setDotSpeedNeg (-2)).2.setDotAcceleration
      3).startGame.increaseDotSpeed.m_dotSpeed : Nat) : Int) ≠ max ((2 : Int) - 3) 2 ∧
    ¬ ((((DotWidget.ctor ⟨100, 100⟩).setDotSpeedNeg (-2)).2.setDotAcceleration
      3).startGame.increaseDotSpeed.m_dotSpeed ≤ DOT_SPEED_MAX) ∧
    (((DotWidget.ctor ⟨100, 100⟩).setDotSpeedNeg (-2)).2.setDotAcceleration
      3).startGame.increaseDotSpeed.m_accelerationTimer.active = true := by
  decide

/-- The `uint` made of the absolute value of an `int` other than INT_MIN is
that absolute value. -/
lemma toUInt_abs (v : Int) (hlo : -2147483648 < v) (hhi : v ≤ 2147483647) :
    ((toUInt |v| : Nat) : Int) = |v| := by
  have h0 : 0 ≤ |v| := abs_nonneg v
  have h1 : |v| < 4294967296 := by
    rw [abs_lt]
    constructor <;> omega
  unfold toUInt
  omega

/-- C15: for every `int` v other than INT_MIN, `setDotSpeedNeg(v)` returns
true iff 2 <= |v| <= 50; when it returns false the state is unchanged (dot
speed, user speed setting and motion-timer interval included); when it returns
true the dot speed and the motion-timer interval become |v|, and the user speed
setting becomes |v| when the state is not RUNNING and is unchanged when it is
RUNNING. -/
theorem setDotSpeedNeg_validates (v : Int) (w : DotWidget)
    (hlo : -2147483648 < v) (hhi : v ≤ 2147483647) :
    ((w.setDotSpeedNeg v).1 = true ↔ (2 ≤ |v| ∧ |v| ≤ 50)) ∧
    ((w.setDotSpeedNeg v).1 = false →
      (w.setDotSpeedNeg v).2 = w ∧
      (w.setDotSpeedNeg v).2.m_dotSpeed = w.m_dotSpeed ∧
      (w.setDotSpeedNeg v).2.m_dotSpeedUserSetting = w.m_dotSpeedUserSetting ∧
      (w.setDotSpeedNeg v).2.m_dotTimer.interval = w.m_dotTimer.interval) ∧
    ((w.setDotSpeedNeg v).1 = true →
      (((w.setDotSpeedNeg v).2.m_dotSpeed : Nat) : Int) = |v| ∧
      (((w.setDotSpeedNeg v).2.m_dotTimer.interval : Nat) : Int) = |v| ∧
      (w.m_gameState ≠ dotGameState.RUNNING →
        (((w.setDotSpeedNeg v).2.m_dotSpeedUserSetting : Nat) : Int) = |v|) ∧
      (w.m_gameState = dotGameState.RUNNING →
        (w.setDotSpeedNeg v).2.m_dotSpeedUserSetting = w.m_dotSpeedUserSetting)) := by
  have habs := toUInt_abs v hlo hhi
  by_cases hr : DOT_SPEED_MIN ≤ toUInt |v| ∧ toUInt |v| ≤ DOT_SPEED_MAX
  · have hrange : 2 ≤ |v| ∧ |v| ≤ 50 := by
      simp only [DOT_SPEED_MIN, DOT_SPEED_MAX] at hr
      omega
    by_cases hs : w.m_gameState ≠ dotGameState.RUNNING
    · have e : w.setDotSpeedNeg v =
          (true, { w with m_dotTimer := w.m_dotTimer.setInterval (toUInt |v|),
                          m_dotSpeed := toUInt |v|,
                          m_dotSpeedUserSetting := toUInt |v| }) := by
        simp only [DotWidget.setDotSpeedNeg]
        rw [if_pos hr, if_pos hs]
      rw [e]
      refine ⟨⟨fun _ => hrange, fun _ => rfl⟩, fun h => ?_, fun _ => ?_⟩
      · simp at h
      · exact ⟨habs, habs, fun _ => habs, fun h => absurd h hs⟩
    · have e : w.setDotSpeedNeg v =
          (true, { w with m_dotTimer := w.m_dotTimer.setInterval (toUInt |v|),
                          m_dotSpeed := toUInt |v| }) := by
        simp only [DotWidget.setDotSpeedNeg]
        rw [if_pos hr, if_neg hs]
      rw [e]
      refine ⟨⟨fun _ => hrange, fun _ => rfl⟩, fun h => ?_, fun _ => ?_⟩
      · simp at h
      · exact ⟨habs, habs, fun h => absurd h hs, fun _ => rfl⟩
  · have hrange : ¬ (2 ≤ |v| ∧ |v| ≤ 50) := by
      simp only [DOT_SPEED_MIN, DOT_SPEED_MAX] at hr
      omega
    have e : w.setDotSpeedNeg v = (false, w) := by
      simp only [DotWidget.setDotSpeedNeg]
      rw [if_neg hr]
    rw [e]
    refine ⟨⟨fun h => ?_, fun h => absurd h hrange⟩, fun _ => ⟨rfl, rfl, rfl, rfl⟩, fun h => ?_⟩
    · simp at h
    · simp at h

/-- Witness of C15: the values -30 and 51 on a new widget, and -30 on a
running game. -/
theorem setDotSpeedNeg_validates_witness :
    (((((DotWidget.ctor ⟨100, 100⟩).setDotSpeedNeg (-30)).2.m_dotSpeed : Nat) : Int)
        = abs (-30 : Int) ∧
      ((((DotWidget.ctor ⟨100, 100⟩).setDotSpeedNeg (-30)).2.m_dotTimer.interval : Nat) : Int)
        = abs (-30 : Int) ∧
      ((((DotWidget.ctor ⟨100, 100⟩).setDotSpeedNeg (-30)).2.m_dotSpeedUserSetting : Nat) : Int)
        = abs (-30 : Int)) ∧
    ((DotWidget.ctor ⟨100, 100⟩).setDotSpeedNeg 51).2 = DotWidget.ctor ⟨100, 100⟩ ∧
    ((DotWidget.ctor ⟨100, 100⟩).startGame.setDotSpeedNeg (-30)).2.m_dotSpeedUserSetting
      = (DotWidget.ctor ⟨100, 100⟩).startGame.m_dotSpeedUserSetting :=
  ⟨⟨((setDotSpeedNeg_validates (-30) (DotWidget.ctor ⟨100, 100⟩)
        (by decide) (by decide)).2.2 (by decide)).1,
    ((setDotSpeedNeg_validates (-30) (DotWidget.ctor ⟨100, 100⟩)
        (by decide) (by decide)).2.2 (by decide)).2.1,
    ((setDotSpeedNeg_validates (-30) (DotWidget.ctor ⟨100, 100⟩)
        (by decide) (by decide)).2.2 (by decide)).2.2.1 (by decide)⟩,
   ((setDotSpeedNeg_validates 51 (DotWidget.ctor ⟨100, 100⟩)
        (by decide) (by decide)).2.1 (by decide)).1,
   ((setDotSpeedNeg_validates (-30) (DotWidget.ctor ⟨100, 100⟩).startGame
        (by decide) (by decide)).2.2 (by decide)).2.2.2 (by decide)⟩

/-- C16, as amended: a negative `newAcceleration` leaves the stored
acceleration unchanged; every `newAcceleration >= 0`, also one above
DOT_ACCEL_MAX = 5, is stored, and the acceleration timer then runs exactly
when the value is > 0 and the state is RUNNING. -/
theorem setDotAcceleration_effect (z : Int) (w : DotWidget) :
    (z < 0 →
      (w.setDotAcceleration z).m_dotAcceleration = w.m_dotAcceleration) ∧
    (0 ≤ z → z ≤ 2147483647 →
      (((w.setDotAcceleration z).m_dotAcceleration : Nat) : Int) = z ∧
      ((w.setDotAcceleration z).m_accelerationTimer.active = true ↔
        (0 < z ∧ w.m_gameState = dotGameState.RUNNING))) := by
  constructor
  · intro hz
    have h1 : ¬ (z ≥ 0) := by omega
    have h2 : ¬ (z > 0 ∧ w.m_gameState = dotGameState.RUNNING) := fun hc => by omega
    simp only [DotWidget.setDotAcceleration, if_neg h1]
    rw [if_neg h2]
  · intro hz hmax
    have h1 : z ≥ 0 := hz
    have hconv : ((toUInt z : Nat) : Int) = z := by
      unfold toUInt
      omega
    simp only [DotWidget.setDotAcceleration, if_pos h1]
    by_cases h2 : z > 0 ∧ w.m_gameState = dotGameState.RUNNING
    · rw [if_pos h2]
      exact ⟨hconv, fun _ => h2, fun _ => rfl⟩
    · rw [if_neg h2]
      refine ⟨hconv, fun h => ?_, fun h => absurd h h2⟩
      simp [QTimer.stop] at h

/-- Witness of C16: the values -1 and 6 on a running game. -/
theorem setDotAcceleration_effect_witness :
    ((DotWidget.ctor ⟨100, 100⟩).startGame.setDotAcceleration (-1)).m_dotAcceleration
        = (DotWidget.ctor ⟨100, 100⟩).startGame.m_dotAcceleration ∧
    (((((DotWidget.ctor ⟨100, 100⟩).startGame.setDotAcceleration 6).m_dotAcceleration : Nat)
        : Int) = 6 ∧
      (((DotWidget.ctor ⟨100, 100⟩).startGame.setDotAcceleration
        6).m_accelerationTimer.active = true ↔
        ((0 : Int) < 6 ∧
          (DotWidget.ctor ⟨100, 100⟩).startGame.m_gameState = dotGameState.RUNNING))) :=
  ⟨(setDotAcceleration_effect (-1) (DotWidget.ctor ⟨100, 100⟩).startGame).1 (by decide),
   (setDotAcceleration_effect 6 (DotWidget.ctor ⟨100, 100⟩).startGame).2
      (by decide) (by decide)⟩

/-- Counterexample to C16 as stated: on a running game with acceleration 1 and
the acceleration timer running, `setDotAcceleration(6)` stores 6, and
`setDotAcceleration(-1)` stops the acceleration timer. -/
theorem setDotAcceleration_changes_state_out_of_range :
    (DotWidget.ctor ⟨100, 100⟩).startGame.m_dotAcceleration = 1 ∧
    (DotWidget.ctor ⟨100, 100⟩).startGame.m_accelerationTimer.active = true ∧
    ((DotWidget.ctor ⟨100, 100⟩).startGame.setDotAcceleration 6).m_dotAcceleration = 6 ∧
    ((DotWidget.ctor ⟨100, 100⟩).startGame.setDotAcceleration 6).m_dotAcceleration
      ≠ (DotWidget.ctor ⟨100, 100⟩).startGame.m_dotAcceleration ∧
    ((DotWidget.ctor ⟨100, 100⟩).startGame.setDotAcceleration
      (-1)).m_accelerationTimer.active = false ∧
    ((DotWidget.ctor ⟨100, 100⟩).startGame.setDotAcceleration
      (-1)).m_accelerationTimer.active
      ≠ (DotWidget.ctor ⟨100, 100⟩).startGame.m_accelerationTimer.active := by
  decide

/-- C17, as amended: in state PAUSED or GAMEOVER an elapsed-time tick leaves
the elapsed time, the state, the score and the game-over reason unchanged; in
state RUNNING with an elapsed time below 4294967295 it increases the elapsed
time by exactly 1, and at 4294967295 the `uint` counter wraps to 0. -/
theorem updateElapsedGameTime_frame (w : DotWidget) :
    ((w.m_gameState = dotGameState.PAUSED ∨ w.m_gameState = dotGameState.GAMEOVER) →
      w.updateElapsedGameTime.m_elapsedGameTime = w.m_elapsedGameTime ∧
      w.updateElapsedGameTime.m_gameState = w.m_gameState ∧
      w.updateElapsedGameTime.m_score = w.m_score ∧
      w.updateElapsedGameTime.m_lastGameOverReason = w.m_lastGameOverReason) ∧
    (w.m_gameState = dotGameState.RUNNING → w.m_elapsedGameTime < 4294967295 →
      w.updateElapsedGameTime.m_elapsedGameTime = w.m_elapsedGameTime + 1) ∧
    (w.m_gameState = dotGameState.RUNNING → w.m_elapsedGameTime = 4294967295 →
      w.updateElapsedGameTime.m_elapsedGameTime = 0) := by
  have helapsed : w.m_gameState = dotGameState.RUNNING →
      w.updateElapsedGameTime.m_elapsedGameTime = (w.m_elapsedGameTime + 1) % 4294967296 := by
    intro h
    simp only [DotWidget.updateElapsedGameTime, h, if_true]
    split_ifs <;> rfl
  refine ⟨fun h => ?_, fun h hlt => ?_, fun h heq => ?_⟩
  · have hnr : w.m_gameState ≠ dotGameState.RUNNING := by
      rcases h with h | h <;> rw [h] <;> decide
    rw [tick_not_running w hnr]
    exact ⟨rfl, rfl, rfl, rfl⟩
  · rw [helapsed h]
    omega
  · rw [helapsed h]
    omega

/-- Witness of C17: a tick on a new (paused) widget and on a new game. -/
theorem updateElapsedGameTime_frame_witness :
    ((DotWidget.ctor ⟨100, 100⟩).updateElapsedGameTime.m_elapsedGameTime
        = (DotWidget.ctor ⟨100, 100⟩).m_elapsedGameTime ∧
      (DotWidget.ctor ⟨100, 100⟩).updateElapsedGameTime.m_gameState
        = (DotWidget.ctor ⟨100, 100⟩).m_gameState ∧
      (DotWidget.ctor ⟨100, 100⟩).updateElapsedGameTime.m_score
        = (DotWidget.ctor ⟨100, 100⟩).m_score ∧
      (DotWidget.ctor ⟨100, 100⟩).updateElapsedGameTime.m_lastGameOverReason
        = (DotWidget.ctor ⟨100, 100⟩).m_lastGameOverReason) ∧
    (DotWidget.ctor ⟨100, 100⟩).startGame.updateElapsedGameTime.m_elapsedGameTime
      = (DotWidget.ctor ⟨100, 100⟩).startGame.m_elapsedGameTime + 1 :=
  ⟨(updateElapsedGameTime_frame (DotWidget.ctor ⟨100, 100⟩)).1 (Or.inl rfl),
   (updateElapsedGameTime_frame (DotWidget.ctor ⟨100, 100⟩).startGame).2.1 rfl
      (by decide)⟩

/-- Counterexample to C17 as stated: a running game without time limit whose
elapsed time is 4294967295, the largest `uint`; the tick leaves the elapsed
time 0, not 4294967296, and the game is still RUNNING. -/
theorem updateElapsedGameTime_wraps :
    ({ ((DotWidget.ctor ⟨100, 100⟩).setTimeLimit 0).2.startGame with
        m_elapsedGameTime := 4294967295 } : DotWidget).m_gameState = dotGameState.RUNNING ∧
    ({ ((DotWidget.ctor ⟨100, 100⟩).setTimeLimit 0).2.startGame with
        m_elapsedGameTime := 4294967295 } : DotWidget).updateElapsedGameTime.m_elapsedGameTime
      = 0 ∧
    ({ ((DotWidget.ctor ⟨100, 100⟩).setTimeLimit 0).2.startGame with
        m_elapsedGameTime := 4294967295 } : DotWidget).updateElapsedGameTime.m_elapsedGameTime
      ≠ 4294967295 + 1 ∧
    ({ ((DotWidget.ctor ⟨100, 100⟩).setTimeLimit 0).2.startGame with
        m_elapsedGameTime := 4294967295 } : DotWidget).updateElapsedGameTime.m_gameState
      = dotGameState.RUNNING := by
  decide

/-- C18: in an arena with width >= 0 and height >= 0, `Dot::setPos(p)` leaves
the position (min(max(p.x, 0), width), min(max(p.y, 0), height)): p itself when
p is inside the arena, and a point of the arena in every case; the velocity,
the step magnitude and the dot size are unchanged. -/
theorem setPos_clamps (parentSize : QSize) (p : QPoint) (d : Dot)
    (hw : 0 ≤ parentSize.width) (hh : 0 ≤ parentSize.height) :
    (d.setPos parentSize p).m_curLoc
      = ⟨min (max p.x 0) parentSize.width, min (max p.y 0) parentSize.height⟩ ∧
    (0 ≤ p.x → p.x ≤ parentSize.width → 0 ≤ p.y → p.y ≤ parentSize.height →
      (d.setPos parentSize p).m_curLoc = p) ∧
    (0 ≤ (d.setPos parentSize p).m_curLoc.x ∧
      (d.setPos parentSize p).m_curLoc.x ≤ parentSize.width ∧
      0 ≤ (d.setPos parentSize p).m_curLoc.y ∧
      (d.setPos parentSize p).m_curLoc.y ≤ parentSize.height) ∧
    (d.setPos parentSize p).m_curMoveVect = d.m_curMoveVect ∧
    (d.setPos parentSize p).m_moveDist = d.m_moveDist ∧
    (d.setPos parentSize p).m_dotSize = d.m_dotSize := by
  have hx : (if p.x < 0 then 0 else if p.x > parentSize.width then parentSize.width else p.x)
      = min (max p.x 0) parentSize.width := by
    split_ifs <;> omega
  have hy : (if p.y < 0 then 0 else if p.y > parentSize.height then parentSize.height
      else p.y) = min (max p.y 0) parentSize.height := by
    split_ifs <;> omega
  have hloc : (d.setPos parentSize p).m_curLoc
      = ⟨min (max p.x 0) parentSize.width, min (max p.y 0) parentSize.height⟩ := by
    simp only [Dot.setPos, Dot.applyBoundaryCheck, hx, hy]
  refine ⟨hloc, ?_, ?_, rfl, rfl, rfl⟩
  · intro h1 h2 h3 h4
    rw [hloc]
    have ex : min (max p.x 0) parentSize.width = p.x := by omega
    have ey : min (max p.y 0) parentSize.height = p.y := by omega
    rw [ex, ey]
  · rw [hloc]
    simp only
    omega

/-- Witness of C18: the points (150, -3) and (40, 60) in a 100 x 100 arena. -/
theorem setPos_clamps_witness :
    ((Dot.ctor ⟨100, 100⟩ ⟨50, 50⟩).setPos ⟨100, 100⟩ ⟨150, -3⟩).m_curLoc
      = ⟨min (max 150 0) 100, min (max (-3) 0) 100⟩ ∧
    ((Dot.ctor ⟨100, 100⟩ ⟨50, 50⟩).setPos ⟨100, 100⟩ ⟨40, 60⟩).m_curLoc = ⟨40, 60⟩ :=
  ⟨(setPos_clamps ⟨100, 100⟩ ⟨150, -3⟩ (Dot.ctor ⟨100, 100⟩ ⟨50, 50⟩)
      (by decide) (by decide)).1,
   (setPos_clamps ⟨100, 100⟩ ⟨40, 60⟩ (Dot.ctor ⟨100, 100⟩ ⟨50, 50⟩)
      (by decide) (by decide)).2.1 (by decide) (by decide) (by decide) (by decide)⟩

/-- The step magnitude set for an accepted size lies between 2 and 5. -/
lemma sqrt_half_size_bounds (newSize : Nat) (h8 : 8 ≤ newSize) (h50 : newSize ≤ 50) :
    2 ≤ Nat.sqrt (newSize / 2) ∧ Nat.sqrt (newSize / 2) ≤ 5 := by
  have e4 : Nat.sqrt 4 = 2 := by norm_num
  have e25 : Nat.sqrt 25 = 5 := by norm_num
  have hlo : Nat.sqrt 4 ≤ Nat.sqrt (newSize / 2) := Nat.sqrt_le_sqrt (by omega)
  have hhi : Nat.sqrt (newSize / 2) ≤ Nat.sqrt 25 := Nat.sqrt_le_sqrt (by omega)
  omega

/-- One `setm_dotSize` call keeps the step magnitude between 2 and 5. -/
lemma setm_dotSize_moveDist_bounds (newSize : Nat) (d : Dot)
    (h : 2 ≤ d.m_moveDist ∧ d.m_moveDist ≤ 5) :
    2 ≤ (Dot.setm_dotSize newSize d).2.m_moveDist ∧
    (Dot.setm_dotSize newSize d).2.m_moveDist ≤ 5 := by
  simp only [Dot.setm_dotSize]
  split_ifs with hr
  · exact sqrt_half_size_bounds newSize hr.1 hr.2
  · exact h

/-- A sequence of `setm_dotSize` calls keeps the step magnitude between 2 and
5. -/
lemma setSizes_moveDist_bounds (sizes : List Nat) (d : Dot)
    (h : 2 ≤ d.m_moveDist ∧ d.m_moveDist ≤ 5) :
    2 ≤ (Dot.setSizes sizes d).m_moveDist ∧ (Dot.setSizes sizes d).m_moveDist ≤ 5 := by
  induction sizes generalizing d with
  | nil => exact h
  | cons n rest ih => exact ih _ (setm_dotSize_moveDist_bounds n d h)

/-- The step magnitude of a newly constructed dot is 3. -/
lemma ctor_moveDist (parentSize : QSize) (location : QPoint) :
    (Dot.ctor parentSize location).m_moveDist = 3 := by
  have h : Nat.sqrt 10 = 3 := by norm_num
  simp [Dot.ctor, Dot.setm_dotSize, DOT_DIAM_DEFAULT, DOT_DIAM_MIN, DOT_DIAM_MAX, h]

/-- C19: in every dot state reached from the constructor by a sequence of
`setm_dotSize` calls, accepted or rejected, the step magnitude `m_moveDist` is
one of 2, 3, 4, 5, hence >= 1: the divisor of `calcPosErrorRatio` is not zero
and the modulus `2*m_moveDist + 1` of `updateLoc` is not zero in `uint`. -/
theorem moveDist_never_zero (parentSize : QSize) (location : QPoint) (sizes : List Nat) :
    1 ≤ (Dot.setSizes sizes (Dot.ctor parentSize location)).m_moveDist ∧
    ((Dot.setSizes sizes (Dot.ctor parentSize location)).m_moveDist = 2 ∨
      (Dot.setSizes sizes (Dot.ctor parentSize location)).m_moveDist = 3 ∨
      (Dot.setSizes sizes (Dot.ctor parentSize location)).m_moveDist = 4 ∨
      (Dot.setSizes sizes (Dot.ctor parentSize location)).m_moveDist = 5) ∧
    (((Dot.setSizes sizes (Dot.ctor parentSize location)).m_moveDist : Nat) : ℚ) ≠ 0 ∧
    (2 * (Dot.setSizes sizes (Dot.ctor parentSize location)).m_moveDist + 1) % 4294967296
      ≠ 0 := by
  obtain ⟨hlo, hhi⟩ := setSizes_moveDist_bounds sizes (Dot.ctor parentSize location)
    (by rw [ctor_moveDist]; omega)
  refine ⟨by omega, by omega, ?_, by omega⟩
  have : (Dot.setSizes sizes (Dot.ctor parentSize location)).m_moveDist ≠ 0 := by omega
  exact_mod_cast this

/-- C20: when the new running average a of a `calcGameStats` call satisfies
0 <= a < 30 and the dot speed lies in [2, 50], the score increment, which is
the difference of the scores after and before the call, is >= 0, and it is
> 0 when the speed is below 50. -/
theorem calcGameStats_increment_nonneg (fsqrt : ℚ → ℚ) (mousePosition : QPoint)
    (w : DotWidget)
    (_ha0 : 0 ≤ (w.calcGameStats fsqrt mousePosition).m_runningAvgErrorRatio)
    (ha : (w.calcGameStats fsqrt mousePosition).m_runningAvgErrorRatio < 30)
    (_hlo : 2 ≤ w.m_dotSpeed) (hhi : w.m_dotSpeed ≤ 50) :
    (w.calcGameStats fsqrt mousePosition).m_score - w.m_score
      = DotWidget.compositeScoreInc
          (w.calcGameStats fsqrt mousePosition).m_runningAvgErrorRatio w.m_dotSpeed ∧
    0 ≤ (w.calcGameStats fsqrt mousePosition).m_score - w.m_score ∧
    (w.m_dotSpeed < 50 → 0 < (w.calcGameStats fsqrt mousePosition).m_score - w.m_score) := by
  have hs : (w.calcGameStats fsqrt mousePosition).m_score - w.m_score
      = DotWidget.compositeScoreInc
          (w.calcGameStats fsqrt mousePosition).m_runningAvgErrorRatio w.m_dotSpeed := by
    simp only [DotWidget.calcGameStats]
    rw [calcGameStatsWith_score, calcGameStatsWith_avg]
    ring
  have hd : (0 : ℚ) < 10 * (CURSOR_DISTANCE_GAMEOVER
      - (w.calcGameStats fsqrt mousePosition).m_runningAvgErrorRatio)
      / CURSOR_DISTANCE_GAMEOVER := by
    apply div_pos
    · simp only [CURSOR_DISTANCE_GAMEOVER]
      linarith
    · norm_num [CURSOR_DISTANCE_GAMEOVER]
  have h1 : (DOT_SPEED_MAX + 4294967296 - w.m_dotSpeed % 4294967296) % 4294967296
      = 50 - w.m_dotSpeed := by
    unfold DOT_SPEED_MAX
    omega
  have h3 : ((DOT_SPEED_MAX - DOT_SPEED_MIN : Nat) : ℚ) = 48 := by
    norm_num [DOT_SPEED_MAX, DOT_SPEED_MIN]
  refine ⟨hs, ?_, fun hlt => ?_⟩
  · rw [hs]
    simp only [DotWidget.compositeScoreInc]
    exact div_nonneg (mul_nonneg (pow_nonneg (le_of_lt hd) 3) (speedComp_nonneg _))
      (by norm_num)
  · rw [hs]
    simp only [DotWidget.compositeScoreInc, h1, h3]
    have hsp : (0 : ℚ) < ((50 - w.m_dotSpeed : Nat) : ℚ) := by
      have : 0 < 50 - w.m_dotSpeed := by omega
      exact_mod_cast this
    exact div_pos (mul_pos (pow_pos hd 3) (div_pos hsp (by norm_num))) (by norm_num)

/-- Witness of C20: the first sample of a new game (speed 40) with the pointer
on the dot; the new average is 45/16. -/
theorem calcGameStats_increment_nonneg_witness :
    0 ≤ ((DotWidget.ctor ⟨100, 100⟩).startGame.calcGameStats sqrtMilli ⟨50, 50⟩).m_score
        - (DotWidget.ctor ⟨100, 100⟩).startGame.m_score ∧
    0 < ((DotWidget.ctor ⟨100, 100⟩).startGame.calcGameStats sqrtMilli ⟨50, 50⟩).m_score
        - (DotWidget.ctor ⟨100, 100⟩).startGame.m_score :=
  ⟨(calcGameStats_increment_nonneg sqrtMilli ⟨50, 50⟩ (DotWidget.ctor ⟨100, 100⟩).startGame
      (by rw [startGame_ctor_avg_on_dot]; norm_num)
      (by rw [startGame_ctor_avg_on_dot]; norm_num)
      (by rw [startGame_ctor_stats.2.2.1]; decide)
      (by rw [startGame_ctor_stats.2.2.1]; decide)).2.1,
   (calcGameStats_increment_nonneg sqrtMilli ⟨50, 50⟩ (DotWidget.ctor ⟨100, 100⟩).startGame
      (by rw [startGame_ctor_avg_on_dot]; norm_num)
      (by rw [startGame_ctor_avg_on_dot]; norm_num)
      (by rw [startGame_ctor_stats.2.2.1]; decide)
      (by rw [startGame_ctor_stats.2.2.1]; decide)).2.2
      (by rw [startGame_ctor_stats.2.2.1]; decide)⟩

/-- The reference insertion leaves at most max(size, 10) entries. -/
lemma insertReference_length_le_max (e : HighScoreData) (l : List HighScoreData) :
    (insertReference e l).length ≤ max l.length 10 := by
  simp only [insertReference]
  cases l.findIdx? (fun x => decide (e.score > x.score)) with
  | some i =>
    simp only [List.length_take]
    omega
  | none =>
    simp only []
    split_ifs with h
    · simp only [List.length_append, List.length_singleton]
      omega
    · omega

/-- One game-over insertion leaves at most max(size, 10) entries. -/
lemma gameOverInsert_length_le_max (w : DotWidget) (dlg : DialogResult) (newScore : Nat)
    (l : List HighScoreData) :
    (gameOverInsert w dlg newScore l).length ≤ max l.length 10 := by
  by_cases hacc : dlg.ok = true ∧ (!dlg.nameText.isEmpty) = true
  · have hne : dlg.nameText ≠ [] := by
      intro h
      rw [h] at hacc
      simp at hacc
    rw [gameOverInsert_accepted w dlg newScore l hacc.1 hne]
    exact insertReference_length_le_max _ l
  · rw [gameOverInsert_rejected w dlg newScore l hacc]
    omega

/-- C21, as amended: the game-over insertion scan leaves at most
max(size before, 10) entries; so for every score-file content whose load
yields at most 10 entries the list after the load and the scan has at most 10
entries, and a file written by `writeScoreFile` from a list of at most 10
entries with names free of whitespace loads to at most 10 entries. -/
theorem load_and_scan_size (w : DotWidget) (dlg : DialogResult) (newScore : Nat)
    (fileText : List Char) (l : List HighScoreData) :
    (gameOverInsert w dlg newScore l).length ≤ max l.length 10 ∧
    ((updateHighScoreListFromFile fileText []).length ≤ 10 →
      (gameOverInsert w dlg newScore (updateHighScoreListFromFile fileText [])).length ≤ 10) ∧
    ((∀ e ∈ l, e.nameHasNoSpace ∧ e.fieldsAreUInt) → l.length ≤ 10 →
      (updateHighScoreListFromFile (writeScoreFile l) []).length ≤ 10) := by
  refine ⟨gameOverInsert_length_le_max w dlg newScore l, fun h => ?_, fun hwf hl => ?_⟩
  · have := gameOverInsert_length_le_max w dlg newScore
      (updateHighScoreListFromFile fileText [])
    omega
  · simp only [updateHighScoreListFromFile]
    rw [skipWhiteSpace_writeScoreFile l hwf,
      readLoop_writeScoreFile l hwf _ [] (le_refl _)]
    simp only [List.nil_append]
    exact le_trans (List.length_filter_le _ l) hl

/-- Witness of C21: a file of two rows, and the file written for a list of two
entries. -/
theorem load_and_scan_size_witness :
    (gameOverInsert (DotWidget.ctor ⟨100, 100⟩) ⟨true, ['z']⟩ 3
      (updateHighScoreListFromFile
        ['a', ' ', '7', ' ', '1', ' ', '1', ' ', '1', '\n',
         'b', ' ', '2', ' ', '1', ' ', '1', ' ', '1', '\n'] [])).length ≤ 10 ∧
    (updateHighScoreListFromFile
      (writeScoreFile [⟨['a'], 7, 1, 1, 1⟩, ⟨['b'], 2, 1, 1, 1⟩]) []).length ≤ 10 :=
  ⟨(load_and_scan_size (DotWidget.ctor ⟨100, 100⟩) ⟨true, ['z']⟩ 3
      ['a', ' ', '7', ' ', '1', ' ', '1', ' ', '1', '\n',
       'b', ' ', '2', ' ', '1', ' ', '1', ' ', '1', '\n'] []).2.1 (by decide),
   (load_and_scan_size (DotWidget.ctor ⟨100, 100⟩) ⟨true, ['z']⟩ 3 []
      [⟨['a'], 7, 1, 1, 1⟩, ⟨['b'], 2, 1, 1, 1⟩]).2.2
      (by
        simp only [HighScoreData.nameHasNoSpace, HighScoreData.fieldsAreUInt]
        decide)
      (by decide)⟩

/-- Counterexample to C21 as stated: the score file of eleven rows `a 1 1 1 1`
loads to a list of 11 entries, and the insertion scan for the new score 0,
which beats none of them, leaves the 11 entries. -/
theorem load_exceeds_max :
    elevenRows.length = 110 ∧
    (updateHighScoreListFromFile elevenRows []).length = 11 ∧
    (gameOverInsert (DotWidget.ctor ⟨100, 100⟩) ⟨true, ['z']⟩ 0
      (updateHighScoreListFromFile elevenRows [])).length = 11 ∧
    ¬ ((11 : Int) ≤ NUM_HIGH_SCORES_MAX) := by
  decide

/-- C22, as amended: for an accepted name text (dialog confirmed, text not
empty) the stored name is the text with every space, tab, line feed and
carriage return replaced by `_`, cut to 16 characters; it is not empty, has at
most MAX_NAME_STRING_LEN = 16 characters and contains none of those four
characters, and it is the name of the entry `addHighScore` inserts. When the
dialog is cancelled or the text is empty the list is unchanged. -/
theorem addHighScore_name (w : DotWidget) (dlg : DialogResult) (index : Nat)
    (newScore : Nat) (l : List HighScoreData) :
    (dlg.ok = true → dlg.nameText ≠ [] →
      storedName dlg.nameText ≠ [] ∧
      (storedName dlg.nameText).length ≤ MAX_NAME_STRING_LEN ∧
      (∀ c ∈ storedName dlg.nameText, c ≠ ' ' ∧ c ≠ '\t' ∧ c ≠ '\n' ∧ c ≠ '\r') ∧
      storedName dlg.nameText = (replaceSpaces dlg.nameText).take 16 ∧
      (scoreData w dlg newScore).name = storedName dlg.nameText ∧
      addHighScore w dlg (index : Int) newScore l
        = (l.take index ++ scoreData w dlg newScore :: l.drop index).take 10) ∧
    ((dlg.ok = false ∨ dlg.nameText = []) →
      addHighScore w dlg (index : Int) newScore l = l) := by
  constructor
  · intro hok hne
    have hlen : (replaceSpaces dlg.nameText).length = dlg.nameText.length := by
      simp [replaceSpaces]
    have hpos : 0 < dlg.nameText.length := List.length_pos.mpr hne
    have htake : storedName dlg.nameText = (replaceSpaces dlg.nameText).take 16 := by
      simp only [storedName, MAX_NAME_STRING_LEN]
      split_ifs with h
      · rfl
      · rw [List.take_of_length_le (by omega)]
    have hrep : ∀ c ∈ replaceSpaces dlg.nameText,
        c ≠ ' ' ∧ c ≠ '\t' ∧ c ≠ '\n' ∧ c ≠ '\r' := by
      intro c hc
      simp only [replaceSpaces, List.mem_map] at hc
      obtain ⟨a, _, ha⟩ := hc
      split_ifs at ha with hsp
      · rw [← ha]
        decide
      · rw [← ha]
        exact ⟨fun h => hsp (Or.inl h), fun h => hsp (Or.inr (Or.inl h)),
          fun h => hsp (Or.inr (Or.inr (Or.inl h))),
          fun h => hsp (Or.inr (Or.inr (Or.inr h)))⟩
    refine ⟨?_, ?_, ?_, htake, rfl, addHighScore_accepted w dlg index newScore l hok hne⟩
    · rw [htake]
      intro h
      have := congrArg List.length h
      simp only [List.length_take, List.length_nil, hlen] at this
      omega
    · rw [htake]
      simp only [List.length_take, MAX_NAME_STRING_LEN]
      omega
    · rw [htake]
      intro c hc
      exact hrep c (List.mem_of_mem_take hc)
  · intro h
    apply addHighScore_rejected
    intro hacc
    rcases h with h | h
    · rw [h] at hacc
      simp at hacc
    · rw [h] at hacc
      simp at hacc

/-- Witness of C22: the text "al ice" (stored as "al_ice") and a cancelled
dialog. -/
theorem addHighScore_name_witness :
    (storedName ['a', 'l', ' ', 'i', 'c', 'e'] ≠ [] ∧
      (storedName ['a', 'l', ' ', 'i', 'c', 'e']).length ≤ MAX_NAME_STRING_LEN ∧
      (∀ c ∈ storedName ['a', 'l', ' ', 'i', 'c', 'e'],
        c ≠ ' ' ∧ c ≠ '\t' ∧ c ≠ '\n' ∧ c ≠ '\r') ∧
      storedName ['a', 'l', ' ', 'i', 'c', 'e']
        = (replaceSpaces ['a', 'l', ' ', 'i', 'c', 'e']).take 16 ∧
      (scoreData (DotWidget.ctor ⟨100, 100⟩) ⟨true, ['a', 'l', ' ', 'i', 'c', 'e']⟩ 5).name
        = storedName ['a', 'l', ' ', 'i', 'c', 'e'] ∧
      addHighScore (DotWidget.ctor ⟨100, 100⟩) ⟨true, ['a', 'l', ' ', 'i', 'c', 'e']⟩
          ((0 : Nat) : Int) 5 []
        = (([] : List HighScoreData).take 0 ++
            scoreData (DotWidget.ctor ⟨100, 100⟩) ⟨true, ['a', 'l', ' ', 'i', 'c', 'e']⟩ 5
              :: ([] : List HighScoreData).drop 0).take 10) ∧
    addHighScore (DotWidget.ctor ⟨100, 100⟩) ⟨false, ['a', 'l']⟩ ((0 : Nat) : Int) 5 [] = [] :=
  ⟨(addHighScore_name (DotWidget.ctor ⟨100, 100⟩) ⟨true, ['a', 'l', ' ', 'i', 'c', 'e']⟩
      0 5 []).1 rfl (by decide),
   (addHighScore_name (DotWidget.ctor ⟨100, 100⟩) ⟨false, ['a', 'l']⟩ 0 5 []).2
      (Or.inl rfl)⟩

/-- Counterexample to C22 as stated: the accepted text made of `a`, the
no-break space U+00A0, `b` and a vertical tab is stored as it is, and both
U+00A0 and the vertical tab are whitespace characters: the score file written
for the one entry is read back as two entries, named `a` and `b`. -/
theorem storedName_keeps_other_whitespace :
    storedName ['a', Char.ofNat 160, 'b', Char.ofNat 11]
      = ['a', Char.ofNat 160, 'b', Char.ofNat 11] ∧
    (addHighScore (DotWidget.ctor ⟨100, 100⟩)
        ⟨true, ['a', Char.ofNat 160, 'b', Char.ofNat 11]⟩ 0 5 []).map (fun e => e.name)
      = [['a', Char.ofNat 160, 'b', Char.ofNat 11]] ∧
    isSpace (Char.ofNat 160) = true ∧
    isSpace (Char.ofNat 11) = true ∧
    Char.ofNat 160 ∈ storedName ['a', Char.ofNat 160, 'b', Char.ofNat 11] ∧
    (updateHighScoreListFromFile (writeScoreFile
      (addHighScore (DotWidget.ctor ⟨100, 100⟩)
        ⟨true, ['a', Char.ofNat 160, 'b', Char.ofNat 11]⟩ 0 5 [])) []).map (fun e => e.name)
      = [['a'], ['b']] := by
  decide

/-- The x offset of `Dot::updateLoc` lies in [-m, m], for every `rand()`
value and step magnitude. -/
lemma randIntX_bounds (tempRand : Int) (m : Nat) :
    -(m : Int) ≤ Dot.randIntX tempRand m ∧ Dot.randIntX tempRand m ≤ (m : Int) := by
  have hD : 0 < (2 * m + 1) % 4294967296 := by omega
  have hk : toUInt tempRand % ((2 * m + 1) % 4294967296) < (2 * m + 1) % 4294967296 :=
    Nat.mod_lt _ hD
  simp only [Dot.randIntX, toInt32]
  generalize toUInt tempRand % ((2 * m + 1) % 4294967296) = k at hk
  split_ifs <;> omega

/-- The truncated remainder `tempRand % 2` of C++ is 0, 1 or -1. -/
lemma tmod_two_cases (tempRand : Int) :
    Int.tmod tempRand 2 = 0 ∨ Int.tmod tempRand 2 = 1 ∨ Int.tmod tempRand 2 = -1 := by
  rcases tempRand with n | n
  · have : Int.tmod (Int.ofNat n) 2 = ((n % 2 : Nat) : Int) := rfl
    rw [this]
    omega
  · have : Int.tmod (Int.negSucc n) 2 = -(((n + 1) % 2 : Nat) : Int) := rfl
    rw [this]
    omega

/-- The y orientation of `Dot::updateLoc` is 1 or -1. -/
lemma ySign_eq (tempRand : Int) : Dot.ySign tempRand = 1 ∨ Dot.ySign tempRand = -1 := by
  simp only [Dot.ySign]
  split_ifs with h
  · exact Or.inr rfl
  · rcases tmod_two_cases tempRand with h0 | h1 | h2
    · exact absurd h0 h
    · exact Or.inl h1
    · exact Or.inr h2

/-- C23: for every step magnitude m >= 1 and every `rand()` value r >= 0 the x
offset of `Dot::updateLoc` lies in [-m, m]; hence m^2 - x^2 >= 0, and with
y = plus or minus sqrt(m^2 - x^2) the random vector satisfies x^2 + y^2 = m^2, over the
reals and in the model for every square root that is exact at m^2 - x^2. -/
theorem randMoveVect_on_circle (m : Nat) (r : Int) (_hm : 1 ≤ m) (_hr : 0 ≤ r) :
    (-(m : Int) ≤ Dot.randIntX r m ∧ Dot.randIntX r m ≤ (m : Int)) ∧
    (0 : ℚ) ≤ (m : ℚ) ^ 2 - (Dot.randIntX r m : ℚ) ^ 2 ∧
    (Dot.ySign r = 1 ∨ Dot.ySign r = -1) ∧
    ((Dot.randIntX r m : ℝ)) ^ 2
        + ((Dot.ySign r : ℝ) * Real.sqrt ((m : ℝ) ^ 2 - (Dot.randIntX r m : ℝ) ^ 2)) ^ 2
      = (m : ℝ) ^ 2 ∧
    (∀ fsqrt : ℚ → ℚ,
      fsqrt ((m : ℚ) ^ 2 - (Dot.randIntX r m : ℚ) ^ 2)
          * fsqrt ((m : ℚ) ^ 2 - (Dot.randIntX r m : ℚ) ^ 2)
        = (m : ℚ) ^ 2 - (Dot.randIntX r m : ℚ) ^ 2 →
      (Dot.randMoveVect fsqrt r m).x = (Dot.randIntX r m : ℚ) ∧
      (Dot.randMoveVect fsqrt r m).lengthSquared = (m : ℚ) ^ 2) := by
  obtain ⟨hlo, hhi⟩ := randIntX_bounds r m
  have hsqZ : Dot.randIntX r m * Dot.randIntX r m ≤ (m : Int) * (m : Int) := by nlinarith
  have hsqQ : (Dot.randIntX r m : ℚ) ^ 2 ≤ (m : ℚ) ^ 2 := by
    have : ((Dot.randIntX r m * Dot.randIntX r m : Int) : ℚ) ≤ (((m : Int) * (m : Int) : Int) : ℚ) :=
      by exact_mod_cast hsqZ
    push_cast at this
    nlinarith
  have hsqR : (Dot.randIntX r m : ℝ) ^ 2 ≤ (m : ℝ) ^ 2 := by
    have : ((Dot.randIntX r m * Dot.randIntX r m : Int) : ℝ) ≤ (((m : Int) * (m : Int) : Int) : ℝ) :=
      by exact_mod_cast hsqZ
    push_cast at this
    nlinarith
  have hs := ySign_eq r
  have hs2Q : (Dot.ySign r : ℚ) * (Dot.ySign r : ℚ) = 1 := by
    rcases hs with h | h <;> rw [h] <;> norm_num
  have hs2R : (Dot.ySign r : ℝ) ^ 2 = 1 := by
    rcases hs with h | h <;> rw [h] <;> norm_num
  refine ⟨⟨hlo, hhi⟩, by linarith, hs, ?_, ?_⟩
  · rw [mul_pow, hs2R, one_mul, Real.sq_sqrt (by linarith)]
    ring
  · intro fsqrt hex
    refine ⟨rfl, ?_⟩
    simp only [QVector2D.lengthSquared, Dot.randMoveVect]
    have : (Dot.ySign r : ℚ) * fsqrt ((m : ℚ) ^ 2 - (Dot.randIntX r m : ℚ) ^ 2)
        * ((Dot.ySign r : ℚ) * fsqrt ((m : ℚ) ^ 2 - (Dot.randIntX r m : ℚ) ^ 2))
        = (Dot.ySign r : ℚ) * (Dot.ySign r : ℚ)
          * (fsqrt ((m : ℚ) ^ 2 - (Dot.randIntX r m : ℚ) ^ 2)
            * fsqrt ((m : ℚ) ^ 2 - (Dot.randIntX r m : ℚ) ^ 2)) := by ring
    rw [this, hs2Q, hex]
    ring

/-- `sqrtMilli` at 0. -/
lemma sqrtMilli_zero : sqrtMilli 0 = 0 := by
  have h := sqrtMilli_sq 0
  simpa using h

/-- Witness of C23: the step 3 and the `rand()` value 6 give the x offset 3,
and `sqrtMilli` is exact at 3^2 - 3^2 = 0. -/
theorem randMoveVect_on_circle_witness :
    (-((3 : Nat) : Int) ≤ Dot.randIntX 6 3 ∧ Dot.randIntX 6 3 ≤ ((3 : Nat) : Int)) ∧
    (Dot.randMoveVect sqrtMilli 6 3).lengthSquared = ((3 : Nat) : ℚ) ^ 2 :=
  ⟨(randMoveVect_on_circle 3 6 (by decide) (by decide)).1,
   ((randMoveVect_on_circle 3 6 (by decide) (by decide)).2.2.2.2 sqrtMilli
      (by
        have e : Dot.randIntX 6 3 = 3 := by decide
        rw [e]
        norm_num [sqrtMilli_zero])).2⟩

/-- The velocity stored by `updateLoc` has the squared length of the
normalized blend scaled by the step: the boundary clamp only changes signs. -/
lemma updateLoc_velocity_lengthSquared (fsqrt : ℚ → ℚ) (parentSize : QSize)
    (tempRand : Int) (d : Dot) :
    (Dot.updateLoc fsqrt parentSize tempRand d).m_curMoveVect.lengthSquared
      = (((Dot.blendVect fsqrt tempRand d).normalized fsqrt).scale
          (d.m_moveDist : ℚ)).lengthSquared := by
  simp only [Dot.updateLoc, Dot.blendVect, QVector2D.lengthSquared]
  split_ifs <;> simp only [] <;> ring

/-- With s^2 <= A*B and A, B apart, A + B + 2*s stays above 1/200. -/
lemma blend_ge_aux {K : Type*} [LinearOrderedField K] (A B s : K)
    (hcs : s * s ≤ A * B) (hsep : (A + B) / 100 ≤ (A - B) * (A - B))
    (hsum : 1 / 200 ≤ A + B) : 1 / 200 ≤ A + B + 2 * s := by
  by_contra h
  push_neg at h
  have hu : 0 ≤ A + B - 1 / 200 := by linarith
  have h1 : A + B - 1 / 200 < -(2 * s) := by linarith
  have h2 : (A + B - 1 / 200) * (A + B - 1 / 200) < (-(2 * s)) * (-(2 * s)) :=
    mul_self_lt_mul_self hu h1
  nlinarith

/-- Two values half apart, or 7/25 apart with a small sum, are apart in the
sense of `blend_ge_aux`. -/
lemma blend_sep_aux {K : Type*} [LinearOrderedField K] (A B : K)
    (h : (1 / 2 ≤ A - B ∧ A + B ≤ 15) ∨ (7 / 25 ≤ B - A ∧ A + B ≤ 43 / 10)) :
    (A + B) / 100 ≤ (A - B) * (A - B) := by
  rcases h with ⟨h1, h2⟩ | ⟨h1, h2⟩ <;> nlinarith

/-- The separation of `blend_sep_aux` for A = 0.49*P and B = 0.09*Q, with P
about the square kk of a step magnitude 2..5 and Q about the square mm of
one. -/
lemma blend_sep_cases {K : Type*} [LinearOrderedField K] (P Q kk mm : K)
    (hkK : kk = 4 ∨ (9 ≤ kk ∧ kk ≤ 25)) (hmK : mm = 25 ∨ (4 ≤ mm ∧ mm ≤ 16))
    (hl : kk * (399 / 400) ≤ P) (hu : P ≤ kk * (401 / 400))
    (hr1 : mm * (999 / 1000) ≤ Q) (hr2 : Q ≤ mm * (1001 / 1000)) :
    (49 / 100 * P + 9 / 100 * Q) / 100
      ≤ (49 / 100 * P - 9 / 100 * Q) * (49 / 100 * P - 9 / 100 * Q) := by
  apply blend_sep_aux
  rcases hkK with h4 | ⟨h9, h25⟩
  · rcases hmK with h25 | ⟨_, h16⟩
    · subst h4
      subst h25
      exact Or.inr ⟨by linarith, by linarith⟩
    · subst h4
      exact Or.inl ⟨by linarith, by linarith⟩
  · rcases hmK with hm25 | ⟨_, h16⟩
    · subst hm25
      exact Or.inl ⟨by linarith, by linarith⟩
    · exact Or.inl ⟨by linarith, by linarith⟩

/-- The blend 0.7*v + 0.3*r of a velocity v of length 0 or about a step
magnitude 2..5 and a vector r of length about the step magnitude m in 2..5 has
squared length at least 1/200: 0.7*|v| and 0.3*|r| never agree. -/
lemma blend_lengthSquared_ge {K : Type*} [LinearOrderedField K] (vx vy rx ry : K) (m : ℕ)
    (hm2 : 2 ≤ m) (hm5 : m ≤ 5)
    (hv : vx * vx + vy * vy = 0 ∨ ∃ k : ℕ, 2 ≤ k ∧ k ≤ 5 ∧
      (k : K) ^ 2 * (399 / 400) ≤ vx * vx + vy * vy ∧
      vx * vx + vy * vy ≤ (k : K) ^ 2 * (401 / 400))
    (hr1 : (m : K) ^ 2 * (999 / 1000) ≤ rx * rx + ry * ry)
    (hr2 : rx * rx + ry * ry ≤ (m : K) ^ 2 * (1001 / 1000)) :
    1 / 200 ≤ (vx * (7 / 10) + rx * (1 - 7 / 10)) * (vx * (7 / 10) + rx * (1 - 7 / 10))
      + (vy * (7 / 10) + ry * (1 - 7 / 10)) * (vy * (7 / 10) + ry * (1 - 7 / 10)) := by
  rcases hv with h0 | ⟨k, hk2, hk5, hl, hu⟩
  · obtain ⟨hx, hy⟩ := mul_self_add_mul_self_eq_zero.mp h0
    subst hx
    subst hy
    have h4 : (4 : K) ≤ (m : K) ^ 2 := by
      have : (2 : K) ≤ (m : K) := by exact_mod_cast hm2
      nlinarith
    have e : ((0 : K) * (7 / 10) + rx * (1 - 7 / 10)) * ((0 : K) * (7 / 10) + rx * (1 - 7 / 10))
        + ((0 : K) * (7 / 10) + ry * (1 - 7 / 10)) * ((0 : K) * (7 / 10) + ry * (1 - 7 / 10))
        = 9 / 100 * (rx * rx + ry * ry) := by ring
    rw [e]
    linarith only [h4, hr1]
  · have hcs : (21 / 100 * (vx * rx + vy * ry)) * (21 / 100 * (vx * rx + vy * ry))
        ≤ (49 / 100 * (vx * vx + vy * vy)) * (9 / 100 * (rx * rx + ry * ry)) := by
      nlinarith [mul_self_nonneg (vx * ry - vy * rx)]
    have hsep : ((49 / 100 * (vx * vx + vy * vy)) + (9 / 100 * (rx * rx + ry * ry))) / 100
        ≤ ((49 / 100 * (vx * vx + vy * vy)) - (9 / 100 * (rx * rx + ry * ry)))
          * ((49 / 100 * (vx * vx + vy * vy)) - (9 / 100 * (rx * rx + ry * ry))) := by
      have hkK : (k : K) ^ 2 = 4 ∨ (9 ≤ (k : K) ^ 2 ∧ (k : K) ^ 2 ≤ 25) := by
        interval_cases k <;> norm_num
      have hmK : (m : K) ^ 2 = 25 ∨ (4 ≤ (m : K) ^ 2 ∧ (m : K) ^ 2 ≤ 16) := by
        interval_cases m <;> norm_num
      exact blend_sep_cases _ _ _ _ hkK hmK hl hu hr1 hr2
    have hsum : 1 / 200 ≤ (49 / 100 * (vx * vx + vy * vy)) + (9 / 100 * (rx * rx + ry * ry)) := by
      have h4 : (4 : K) ≤ (m : K) ^ 2 := by
        have : (2 : K) ≤ (m : K) := by exact_mod_cast hm2
        nlinarith
      have hP : 0 ≤ vx * vx + vy * vy := add_nonneg (mul_self_nonneg vx) (mul_self_nonneg vy)
      linarith only [hP, h4, hr1]
    have key := blend_ge_aux _ _ _ hcs hsep hsum
    have e : (vx * (7 / 10) + rx * (1 - 7 / 10)) * (vx * (7 / 10) + rx * (1 - 7 / 10))
        + (vy * (7 / 10) + ry * (1 - 7 / 10)) * (vy * (7 / 10) + ry * (1 - 7 / 10))
        = (49 / 100 * (vx * vx + vy * vy)) + (9 / 100 * (rx * rx + ry * ry))
          + 2 * (21 / 100 * (vx * rx + vy * ry)) := by ring
    rw [e]
    exact key

/-- The random vector has squared length within eps*m^2 of m^2 when the square
of the square root is within eps*q of every q >= 0. -/
lemma randMoveVect_lengthSquared_near (fsqrt : ℚ → ℚ) (ε : ℚ) (hε0 : 0 ≤ ε)
    (hacc : ∀ q : ℚ, 0 ≤ q → |fsqrt q * fsqrt q - q| ≤ ε * q) (tempRand : Int) (m : Nat) :
    (m : ℚ) ^ 2 * (1 - ε) ≤ (Dot.randMoveVect fsqrt tempRand m).lengthSquared ∧
    (Dot.randMoveVect fsqrt tempRand m).lengthSquared ≤ (m : ℚ) ^ 2 * (1 + ε) := by
  obtain ⟨hlo, hhi⟩ := randIntX_bounds tempRand m
  have hsqZ : Dot.randIntX tempRand m * Dot.randIntX tempRand m ≤ (m : Int) * (m : Int) := by
    nlinarith
  have hsqQ : (Dot.randIntX tempRand m : ℚ) ^ 2 ≤ (m : ℚ) ^ 2 := by
    have : ((Dot.randIntX tempRand m * Dot.randIntX tempRand m : Int) : ℚ)
        ≤ (((m : Int) * (m : Int) : Int) : ℚ) := by exact_mod_cast hsqZ
    push_cast at this
    nlinarith
  have hs2Q : (Dot.ySign tempRand : ℚ) * (Dot.ySign tempRand : ℚ) = 1 := by
    rcases ySign_eq tempRand with h | h <;> rw [h] <;> norm_num
  have hq0 : (0 : ℚ) ≤ (m : ℚ) ^ 2 - (Dot.randIntX tempRand m : ℚ) ^ 2 := by linarith
  have ha := abs_le.mp (hacc _ hq0)
  have hx0 : (0 : ℚ) ≤ (Dot.randIntX tempRand m : ℚ) ^ 2 := by positivity
  have hεq : ε * ((m : ℚ) ^ 2 - (Dot.randIntX tempRand m : ℚ) ^ 2) ≤ ε * (m : ℚ) ^ 2 :=
    mul_le_mul_of_nonneg_left (by linarith) hε0
  simp only [QVector2D.lengthSquared, Dot.randMoveVect]
  have e : (Dot.randIntX tempRand m : ℚ) * (Dot.randIntX tempRand m : ℚ)
      + (Dot.ySign tempRand : ℚ) * fsqrt ((m : ℚ) ^ 2 - (Dot.randIntX tempRand m : ℚ) ^ 2)
        * ((Dot.ySign tempRand : ℚ) * fsqrt ((m : ℚ) ^ 2 - (Dot.randIntX tempRand m : ℚ) ^ 2))
      = (Dot.randIntX tempRand m : ℚ) ^ 2
        + (Dot.ySign tempRand : ℚ) * (Dot.ySign tempRand : ℚ)
          * (fsqrt ((m : ℚ) ^ 2 - (Dot.randIntX tempRand m : ℚ) ^ 2)
            * fsqrt ((m : ℚ) ^ 2 - (Dot.randIntX tempRand m : ℚ) ^ 2)) := by ring
  rw [e, hs2Q, one_mul]
  constructor <;> linarith [ha.1, ha.2]

/-- `QVector2D::normalized()` times m on a vector of squared length >= 1/200:
the squared length of the result is within m^2*(2*eps + 10^-12) of m^2 when
the square of the square root is within eps of the squared length. -/
lemma normalized_scale_near (fsqrt : ℚ → ℚ) (ε : ℚ) (hε0 : 0 ≤ ε) (hε : ε ≤ 1 / 1000)
    (v : QVector2D) (m : ℚ) (hlen : 1 / 200 ≤ v.lengthSquared)
    (hacc : |fsqrt v.lengthSquared * fsqrt v.lengthSquared - v.lengthSquared|
      ≤ ε * v.lengthSquared) :
    |((v.normalized fsqrt).scale m).lengthSquared - m ^ 2|
      ≤ m ^ 2 * (2 * ε + 1 / 1000000000000) := by
  have hm2 : (0 : ℚ) ≤ m ^ 2 := by positivity
  simp only [QVector2D.lengthSquared] at hlen hacc
  have hnn : qFuzzyIsNull (v.x * v.x + v.y * v.y) = false := by
    simp only [qFuzzyIsNull, decide_eq_false_iff_not, not_le]
    rw [abs_of_nonneg (by linarith)]
    linarith
  cases h1 : qFuzzyIsNull (v.x * v.x + v.y * v.y - 1) with
  | true =>
    have hclose : |v.x * v.x + v.y * v.y - 1| ≤ 1 / 1000000000000 := by
      simpa [qFuzzyIsNull] using h1
    simp only [QVector2D.normalized, h1, if_true, QVector2D.scale, QVector2D.lengthSquared]
    have e : v.x * m * (v.x * m) + v.y * m * (v.y * m) - m ^ 2
        = m ^ 2 * (v.x * v.x + v.y * v.y - 1) := by ring
    rw [e, abs_mul, abs_of_nonneg hm2]
    apply mul_le_mul_of_nonneg_left _ hm2
    linarith
  | false =>
    simp only [QVector2D.normalized, h1, hnn, Bool.false_eq_true, if_false,
      Bool.not_false, if_true, QVector2D.scale, QVector2D.lengthSquared]
    generalize fsqrt (v.x * v.x + v.y * v.y) = s at hacc ⊢
    obtain ⟨ha1, ha2⟩ := abs_le.mp hacc
    have hεlen : ε * (v.x * v.x + v.y * v.y) ≤ 1 / 1000 * (v.x * v.x + v.y * v.y) :=
      mul_le_mul_of_nonneg_right hε (by linarith)
    have hS : 0 < s * s := by linarith
    have hs : s ≠ 0 := by
      intro h0
      rw [h0] at hS
      simp at hS
    have e : v.x / s * m * (v.x / s * m) + v.y / s * m * (v.y / s * m) - m ^ 2
        = m ^ 2 * ((v.x * v.x + v.y * v.y - s * s) / (s * s)) := by
      field_simp
      ring
    rw [e, abs_mul, abs_of_nonneg hm2]
    apply mul_le_mul_of_nonneg_left _ hm2
    rw [abs_div, abs_of_pos hS, div_le_iff₀ hS, abs_sub_comm]
    have hlen2 : v.x * v.x + v.y * v.y ≤ 2 * (s * s) := by linarith
    have h2 : ε * (v.x * v.x + v.y * v.y) ≤ ε * (2 * (s * s)) :=
      mul_le_mul_of_nonneg_left hlen2 hε0
    have h3 : (0 : ℚ) ≤ 1 / 1000000000000 * (s * s) := by positivity
    linarith

/-- In a state with `velocityNearStep` the blend of `updateLoc` has squared
length at least 1/200, so `normalized()` does not return the null vector. -/
lemma blendVect_lengthSquared_ge_near (fsqrt : ℚ → ℚ) (ε : ℚ) (hε0 : 0 ≤ ε)
    (hε : ε ≤ 1 / 1000) (hacc : ∀ q : ℚ, 0 ≤ q → |fsqrt q * fsqrt q - q| ≤ ε * q)
    (tempRand : Int) (d : Dot) (hinv : d.velocityNearStep) :
    1 / 200 ≤ (Dot.blendVect fsqrt tempRand d).lengthSquared := by
  obtain ⟨⟨hm2, hm5⟩, hv⟩ := hinv
  obtain ⟨hr1, hr2⟩ := randMoveVect_lengthSquared_near fsqrt ε hε0 hacc tempRand d.m_moveDist
  have hmm : (0 : ℚ) ≤ (d.m_moveDist : ℚ) ^ 2 := by positivity
  have hmε : (d.m_moveDist : ℚ) ^ 2 * ε ≤ (d.m_moveDist : ℚ) ^ 2 * (1 / 1000) :=
    mul_le_mul_of_nonneg_left hε hmm
  have hr1' : (d.m_moveDist : ℚ) ^ 2 * (999 / 1000)
      ≤ (Dot.randMoveVect fsqrt tempRand d.m_moveDist).lengthSquared := by linarith
  have hr2' : (Dot.randMoveVect fsqrt tempRand d.m_moveDist).lengthSquared
      ≤ (d.m_moveDist : ℚ) ^ 2 * (1001 / 1000) := by linarith
  simp only [QVector2D.lengthSquared] at hv hr1' hr2'
  simp only [Dot.blendVect, QVector2D.lengthSquared, QVector2D.add, QVector2D.scale,
    MOTION_WEIGHT_DEFAULT]
  exact blend_lengthSquared_ge _ _ _ _ d.m_moveDist hm2 hm5 hv hr1' hr2'

/-- One `updateLoc` call in a state with `velocityNearStep`: the stored
velocity has squared length within m^2*(2*eps + 10^-12) of m^2. -/
lemma updateLoc_velocity_near (fsqrt : ℚ → ℚ) (ε : ℚ) (hε0 : 0 ≤ ε) (hε : ε ≤ 1 / 1000)
    (hacc : ∀ q : ℚ, 0 ≤ q → |fsqrt q * fsqrt q - q| ≤ ε * q)
    (parentSize : QSize) (tempRand : Int) (d : Dot) (hinv : d.velocityNearStep) :
    |(Dot.updateLoc fsqrt parentSize tempRand d).m_curMoveVect.lengthSquared
        - (d.m_moveDist : ℚ) ^ 2|
      ≤ (d.m_moveDist : ℚ) ^ 2 * (2 * ε + 1 / 1000000000000) := by
  rw [updateLoc_velocity_lengthSquared]
  have hge := blendVect_lengthSquared_ge_near fsqrt ε hε0 hε hacc tempRand d hinv
  exact normalized_scale_near fsqrt ε hε0 hε _ _ hge (hacc _ (by linarith))

/-- `updateLoc` leaves the step magnitude unchanged. -/
lemma updateLoc_moveDist (fsqrt : ℚ → ℚ) (parentSize : QSize) (tempRand : Int) (d : Dot) :
    (Dot.updateLoc fsqrt parentSize tempRand d).m_moveDist = d.m_moveDist := by
  simp only [Dot.updateLoc]

/-- `updateLoc` keeps `velocityNearStep`. -/
lemma updateLoc_velocityNearStep (fsqrt : ℚ → ℚ) (ε : ℚ) (hε0 : 0 ≤ ε) (hε : ε ≤ 1 / 1000)
    (hacc : ∀ q : ℚ, 0 ≤ q → |fsqrt q * fsqrt q - q| ≤ ε * q)
    (parentSize : QSize) (tempRand : Int) (d : Dot) (hinv : d.velocityNearStep) :
    (Dot.updateLoc fsqrt parentSize tempRand d).velocityNearStep := by
  have hm := updateLoc_moveDist fsqrt parentSize tempRand d
  obtain ⟨hb1, hb2⟩ :=
    abs_le.mp (updateLoc_velocity_near fsqrt ε hε0 hε hacc parentSize tempRand d hinv)
  have hmm : (0 : ℚ) ≤ (d.m_moveDist : ℚ) ^ 2 := by positivity
  have hmε : (d.m_moveDist : ℚ) ^ 2 * ε ≤ (d.m_moveDist : ℚ) ^ 2 * (1 / 1000) :=
    mul_le_mul_of_nonneg_left hε hmm
  refine ⟨by rw [hm]; exact hinv.1, Or.inr ⟨d.m_moveDist, hinv.1.1, hinv.1.2, ?_, ?_⟩⟩
  · linarith
  · linarith

/-- `setm_dotSize` keeps `velocityNearStep`. -/
lemma setm_dotSize_velocityNearStep (newSize : Nat) (d : Dot) (hinv : d.velocityNearStep) :
    (Dot.setm_dotSize newSize d).2.velocityNearStep := by
  simp only [Dot.setm_dotSize]
  split_ifs with hr
  · exact ⟨sqrt_half_size_bounds newSize hr.1 hr.2, hinv.2⟩
  · exact hinv

/-- A newly constructed dot has `velocityNearStep`: its velocity is null and
its step magnitude is 3. -/
lemma ctor_velocityNearStep (parentSize : QSize) (location : QPoint) :
    (Dot.ctor parentSize location).velocityNearStep := by
  have hm := ctor_moveDist parentSize location
  have hv : (Dot.ctor parentSize location).m_curMoveVect = ⟨0, 0⟩ := by
    simp only [Dot.ctor, Dot.setm_dotSize]
    split_ifs <;> rfl
  refine ⟨by rw [hm]; exact ⟨by decide, by decide⟩, Or.inl ?_⟩
  rw [hv]
  norm_num [QVector2D.lengthSquared]

/-- Every sequence of calls keeps `velocityNearStep`. -/
lemma calls_velocityNearStep (fsqrt : ℚ → ℚ) (ε : ℚ) (hε0 : 0 ≤ ε) (hε : ε ≤ 1 / 1000)
    (hacc : ∀ q : ℚ, 0 ≤ q → |fsqrt q * fsqrt q - q| ≤ ε * q)
    (calls : List DotCall) (d : Dot) (hinv : d.velocityNearStep) :
    (Dot.calls fsqrt calls d).velocityNearStep := by
  induction calls generalizing d with
  | nil => exact hinv
  | cons c rest ih =>
    apply ih
    cases c with
    | updateLoc parentSize tempRand =>
      exact updateLoc_velocityNearStep fsqrt ε hε0 hε hacc parentSize tempRand d hinv
    | setPos parentSize newPos => exact hinv
    | setm_dotSize newSize => exact setm_dotSize_velocityNearStep newSize d hinv

/-- Calls in sequence: the calls of an appended list run after those of the
first list. -/
lemma calls_append (fsqrt : ℚ → ℚ) (a b : List DotCall) (d : Dot) :
    Dot.calls fsqrt (a ++ b) d = Dot.calls fsqrt b (Dot.calls fsqrt a d) := by
  induction a generalizing d with
  | nil => rfl
  | cons c rest ih => exact ih _

/-- One event of a game session changes the dot by at most one call of
`updateLoc` or `setm_dotSize`. -/
lemma step_gameDot_calls (fsqrt : ℚ → ℚ) (w : DotWidget) (ev : SessionEvent) :
    ∃ calls : List DotCall, (w.step fsqrt ev).m_gameDot = Dot.calls fsqrt calls w.m_gameDot := by
  cases ev with
  | click =>
    refine ⟨[], ?_⟩
    simp only [DotWidget.step, DotWidget.screenClicked, Dot.calls]
    cases w.m_gameState <;> rfl
  | secondTick =>
    refine ⟨[], ?_⟩
    simp only [DotWidget.step, DotWidget.updateElapsedGameTime, Dot.calls]
    split_ifs <;> rfl
  | sample mousePosition =>
    refine ⟨[], ?_⟩
    simp only [DotWidget.step, DotWidget.calcGameStats, DotWidget.calcGameStatsWith, Dot.calls]
    split_ifs <;> rfl
  | dotMove parentSize tempRand => exact ⟨[DotCall.updateLoc parentSize tempRand], rfl⟩
  | accelTick =>
    refine ⟨[], ?_⟩
    simp only [DotWidget.step, DotWidget.increaseDotSpeed, Dot.calls]
    split_ifs <;> rfl
  | setSpeed newSpeedMs =>
    refine ⟨[], ?_⟩
    simp only [DotWidget.step, DotWidget.setDotSpeedNeg, Dot.calls]
    split_ifs <;> rfl
  | setAccel newAcceleration =>
    refine ⟨[], ?_⟩
    simp only [DotWidget.step, DotWidget.setDotAcceleration, Dot.calls]
    split_ifs <;> rfl
  | setLimit timeLimit =>
    refine ⟨[], ?_⟩
    simp only [DotWidget.step, DotWidget.setTimeLimit, Dot.calls]
    split_ifs <;> rfl
  | setSize newSize => exact ⟨[DotCall.setm_dotSize (toUInt newSize)], rfl⟩

/-- The dot of a game session is in a state reached from its state at the
start by `updateLoc` and `setm_dotSize` calls. -/
lemma run_gameDot_calls (fsqrt : ℚ → ℚ) (events : List SessionEvent) (w : DotWidget) :
    ∃ calls : List DotCall,
      (DotWidget.run fsqrt events w).m_gameDot = Dot.calls fsqrt calls w.m_gameDot := by
  induction events generalizing w with
  | nil => exact ⟨[], rfl⟩
  | cons ev rest ih =>
    obtain ⟨c1, h1⟩ := step_gameDot_calls fsqrt w ev
    obtain ⟨c2, h2⟩ := ih (w.step fsqrt ev)
    refine ⟨c1 ++ c2, ?_⟩
    rw [calls_append, ← h1]
    exact h2

/-- The square of `sqrtScaled q` is within q/5000 of q for every q >= 0. -/
lemma sqrtScaled_accurate (q : ℚ) (hq : 0 ≤ q) :
    |sqrtScaled q * sqrtScaled q - q| ≤ 1 / 5000 * q := by
  have hnum : 0 ≤ q.num := Rat.num_nonneg.mpr hq
  have hb : (0 : ℚ) < (q.den : ℚ) := by exact_mod_cast q.den_pos
  have hqa : q = (q.num.toNat : ℚ) / (q.den : ℚ) := by
    have h1 : ((q.num.toNat : Int) : ℚ) = (q.num : ℚ) := by
      rw [Int.toNat_of_nonneg hnum]
    have h2 : ((q.num.toNat : Int) : ℚ) = (q.num.toNat : ℚ) := by push_cast; rfl
    rw [← h2, h1]
    exact (Rat.num_div_den q).symm
  unfold sqrtScaled
  generalize q.num.toNat = a at hqa ⊢
  generalize q.den = b at hqa hb ⊢
  have hle : Nat.sqrt (a * b * 100000000) * Nat.sqrt (a * b * 100000000) ≤ a * b * 100000000 :=
    Nat.sqrt_le _
  have hlt : a * b * 100000000
      < (Nat.sqrt (a * b * 100000000) + 1) * (Nat.sqrt (a * b * 100000000) + 1) :=
    Nat.lt_succ_sqrt _
  have hbig : a * b * 100000000 = 0 ∨ 10000 ≤ Nat.sqrt (a * b * 100000000) := by
    rcases Nat.eq_zero_or_pos (a * b) with h0 | hpos
    · left
      rw [h0]
    · right
      apply Nat.le_sqrt.mpr
      nlinarith
  generalize Nat.sqrt (a * b * 100000000) = r at hle hlt hbig ⊢
  have hleQ : (r : ℚ) * (r : ℚ) ≤ (a : ℚ) * (b : ℚ) * 100000000 := by exact_mod_cast hle
  have hltQ : (a : ℚ) * (b : ℚ) * 100000000 < ((r : ℚ) + 1) * ((r : ℚ) + 1) := by
    exact_mod_cast hlt
  have hr0 : (0 : ℚ) ≤ (r : ℚ) := by positivity
  have h5 : 5000 * ((a : ℚ) * (b : ℚ) * 100000000 - (r : ℚ) * (r : ℚ))
      ≤ (a : ℚ) * (b : ℚ) * 100000000 := by
    rcases hbig with h0 | hr
    · have h0Q : (a : ℚ) * (b : ℚ) * 100000000 = 0 := by exact_mod_cast h0
      nlinarith
    · have hrQ : (10000 : ℚ) ≤ (r : ℚ) := by exact_mod_cast hr
      nlinarith
  have e : (r : ℚ) / ((b : ℚ) * 10000) * ((r : ℚ) / ((b : ℚ) * 10000)) - q
      = -(((a : ℚ) * (b : ℚ) * 100000000 - (r : ℚ) * (r : ℚ))
          / ((b : ℚ) * (b : ℚ) * 100000000)) := by
    rw [hqa]
    field_simp
    ring
  have hD : (0 : ℚ) < (b : ℚ) * (b : ℚ) * 100000000 := by positivity
  rw [e, abs_neg, abs_div, abs_of_pos hD, abs_of_nonneg (by linarith), div_le_iff₀ hD, hqa]
  have e2 : 1 / 5000 * ((a : ℚ) / (b : ℚ)) * ((b : ℚ) * (b : ℚ) * 100000000)
      = 1 / 5000 * ((a : ℚ) * (b : ℚ) * 100000000) := by
    field_simp
    ring
  rw [e2]
  linarith

/-- Over the reals, with the real square root: the blend of the velocity of a
state with `velocityNearStep` and the random vector has squared length at
least 1/200. -/
lemma real_blend_lengthSquared_ge (d : Dot) (hinv : d.velocityNearStep) (tempRand : Int) :
    (1 : ℝ) / 200
      ≤ ((d.m_curMoveVect.x : ℝ) * (7 / 10)
          + (Dot.randIntX tempRand d.m_moveDist : ℝ) * (1 - 7 / 10))
        * ((d.m_curMoveVect.x : ℝ) * (7 / 10)
          + (Dot.randIntX tempRand d.m_moveDist : ℝ) * (1 - 7 / 10))
      + ((d.m_curMoveVect.y : ℝ) * (7 / 10)
          + ((Dot.ySign tempRand : ℝ) * Real.sqrt ((d.m_moveDist : ℝ) ^ 2
              - (Dot.randIntX tempRand d.m_moveDist : ℝ) ^ 2)) * (1 - 7 / 10))
        * ((d.m_curMoveVect.y : ℝ) * (7 / 10)
          + ((Dot.ySign tempRand : ℝ) * Real.sqrt ((d.m_moveDist : ℝ) ^ 2
              - (Dot.randIntX tempRand d.m_moveDist : ℝ) ^ 2)) * (1 - 7 / 10)) := by
  obtain ⟨⟨hm2, hm5⟩, hv⟩ := hinv
  obtain ⟨hlo, hhi⟩ := randIntX_bounds tempRand d.m_moveDist
  have hsqZ : Dot.randIntX tempRand d.m_moveDist * Dot.randIntX tempRand d.m_moveDist
      ≤ (d.m_moveDist : Int) * (d.m_moveDist : Int) := by nlinarith
  have hsqR : (Dot.randIntX tempRand d.m_moveDist : ℝ) ^ 2 ≤ (d.m_moveDist : ℝ) ^ 2 := by
    have : ((Dot.randIntX tempRand d.m_moveDist * Dot.randIntX tempRand d.m_moveDist : Int) : ℝ)
        ≤ (((d.m_moveDist : Int) * (d.m_moveDist : Int) : Int) : ℝ) := by exact_mod_cast hsqZ
    push_cast at this
    nlinarith
  have hs2R : (Dot.ySign tempRand : ℝ) * (Dot.ySign tempRand : ℝ) = 1 := by
    rcases ySign_eq tempRand with h | h <;> rw [h] <;> norm_num
  have hq0 : (0 : ℝ) ≤ (d.m_moveDist : ℝ) ^ 2 - (Dot.randIntX tempRand d.m_moveDist : ℝ) ^ 2 := by
    linarith
  have hr : (Dot.randIntX tempRand d.m_moveDist : ℝ) * (Dot.randIntX tempRand d.m_moveDist : ℝ)
      + ((Dot.ySign tempRand : ℝ) * Real.sqrt ((d.m_moveDist : ℝ) ^ 2
            - (Dot.randIntX tempRand d.m_moveDist : ℝ) ^ 2))
        * ((Dot.ySign tempRand : ℝ) * Real.sqrt ((d.m_moveDist : ℝ) ^ 2
            - (Dot.randIntX tempRand d.m_moveDist : ℝ) ^ 2))
      = (d.m_moveDist : ℝ) ^ 2 := by
    have e : ((Dot.ySign tempRand : ℝ) * Real.sqrt ((d.m_moveDist : ℝ) ^ 2
            - (Dot.randIntX tempRand d.m_moveDist : ℝ) ^ 2))
        * ((Dot.ySign tempRand : ℝ) * Real.sqrt ((d.m_moveDist : ℝ) ^ 2
            - (Dot.randIntX tempRand d.m_moveDist : ℝ) ^ 2))
        = (Dot.ySign tempRand : ℝ) * (Dot.ySign tempRand : ℝ)
          * (Real.sqrt ((d.m_moveDist : ℝ) ^ 2 - (Dot.randIntX tempRand d.m_moveDist : ℝ) ^ 2)
            * Real.sqrt ((d.m_moveDist : ℝ) ^ 2
              - (Dot.randIntX tempRand d.m_moveDist : ℝ) ^ 2)) := by ring
    rw [e, hs2R, Real.mul_self_sqrt hq0]
    ring
  have hmm : (0 : ℝ) ≤ (d.m_moveDist : ℝ) ^ 2 := by positivity
  have hvR : (d.m_curMoveVect.x : ℝ) * (d.m_curMoveVect.x : ℝ)
        + (d.m_curMoveVect.y : ℝ) * (d.m_curMoveVect.y : ℝ) = 0 ∨
      ∃ k : ℕ, 2 ≤ k ∧ k ≤ 5 ∧
        (k : ℝ) ^ 2 * (399 / 400) ≤ (d.m_curMoveVect.x : ℝ) * (d.m_curMoveVect.x : ℝ)
          + (d.m_curMoveVect.y : ℝ) * (d.m_curMoveVect.y : ℝ) ∧
        (d.m_curMoveVect.x : ℝ) * (d.m_curMoveVect.x : ℝ)
          + (d.m_curMoveVect.y : ℝ) * (d.m_curMoveVect.y : ℝ) ≤ (k : ℝ) ^ 2 * (401 / 400) := by
    simp only [QVector2D.lengthSquared] at hv
    rcases hv with h0 | ⟨k, hk2, hk5, hl, hu⟩
    · left
      exact_mod_cast h0
    · right
      refine ⟨k, hk2, hk5, ?_, ?_⟩
      · have h : (((k : ℚ) ^ 2 * (399 / 400) : ℚ) : ℝ)
            ≤ ((d.m_curMoveVect.x * d.m_curMoveVect.x
                + d.m_curMoveVect.y * d.m_curMoveVect.y : ℚ) : ℝ) := Rat.cast_le.mpr hl
        push_cast at h
        exact h
      · have h : ((d.m_curMoveVect.x * d.m_curMoveVect.x
                + d.m_curMoveVect.y * d.m_curMoveVect.y : ℚ) : ℝ)
            ≤ (((k : ℚ) ^ 2 * (401 / 400) : ℚ) : ℝ) := Rat.cast_le.mpr hu
        push_cast at h
        exact h
  exact blend_lengthSquared_ge _ _ _ _ d.m_moveDist hm2 hm5 hvR (by rw [hr]; linarith)
    (by rw [hr]; linarith)

/-- The exactness part of `QVector2D::normalized()` times m: with a square
root exact at the squared length of a vector that is neither fuzzily null nor
fuzzily of length 1, the result has squared length m^2. -/
lemma normalized_scale_exact (fsqrt : ℚ → ℚ) (v : QVector2D) (m : ℚ)
    (hlen : 1 / 200 ≤ v.lengthSquared)
    (h1 : qFuzzyIsNull (v.lengthSquared - 1) = false)
    (hex : fsqrt v.lengthSquared * fsqrt v.lengthSquared = v.lengthSquared) :
    ((v.normalized fsqrt).scale m).lengthSquared = m ^ 2 := by
  simp only [QVector2D.lengthSquared] at hlen h1 hex
  have hnn : qFuzzyIsNull (v.x * v.x + v.y * v.y) = false := by
    simp only [qFuzzyIsNull, decide_eq_false_iff_not, not_le]
    rw [abs_of_nonneg (by linarith)]
    linarith
  simp only [QVector2D.normalized, h1, hnn, Bool.false_eq_true, if_false,
    Bool.not_false, if_true, QVector2D.scale, QVector2D.lengthSquared]
  generalize fsqrt (v.x * v.x + v.y * v.y) = s at hex ⊢
  have hS : 0 < s * s := by linarith
  have hs : s ≠ 0 := by
    intro h0
    rw [h0] at hS
    simp at hS
  have e : v.x / s * m * (v.x / s * m) + v.y / s * m * (v.y / s * m)
      = m ^ 2 * ((v.x * v.x + v.y * v.y) / (s * s)) := by
    field_simp
    ring
  rw [e, hex, div_self (by linarith), mul_one]

/-- C24: in every state of a dot reached from its constructor by `updateLoc`,
`setPos` and `setm_dotSize` calls, a call of `Dot::updateLoc` stores a velocity
whose length is the step magnitude m_moveDist, also when the boundary clamp
inverts components: the clamp leaves the squared length of
`normalized() * m_moveDist` unchanged, the blend is never null, and the stored
squared length is within m_moveDist^2 * (2*eps + 10^-12) of m_moveDist^2 for a
square root of relative accuracy eps, equal to it where the square root is
exact, and equal to it over the reals with the real square root (within
10^-12 where `normalized()` takes the blend for a unit vector). -/
theorem updateLoc_velocity_length (fsqrt : ℚ → ℚ) (ε : ℚ) (hε0 : 0 ≤ ε) (hε : ε ≤ 1 / 1000)
    (hacc : ∀ q : ℚ, 0 ≤ q → |fsqrt q * fsqrt q - q| ≤ ε * q)
    (parentSize0 : QSize) (location : QPoint) (calls : List DotCall) (d : Dot)
    (hd : d = Dot.calls fsqrt calls (Dot.ctor parentSize0 location))
    (parentSize : QSize) (tempRand : Int) :
    (Dot.updateLoc fsqrt parentSize tempRand d).m_curMoveVect.lengthSquared
      = (((Dot.blendVect fsqrt tempRand d).normalized fsqrt).scale
          (d.m_moveDist : ℚ)).lengthSquared ∧
    1 / 200 ≤ (Dot.blendVect fsqrt tempRand d).lengthSquared ∧
    |(Dot.updateLoc fsqrt parentSize tempRand d).m_curMoveVect.lengthSquared
        - (d.m_moveDist : ℚ) ^ 2|
      ≤ (d.m_moveDist : ℚ) ^ 2 * (2 * ε + 1 / 1000000000000) ∧
    (qFuzzyIsNull ((Dot.blendVect fsqrt tempRand d).lengthSquared - 1) = false →
      fsqrt (Dot.blendVect fsqrt tempRand d).lengthSquared
          * fsqrt (Dot.blendVect fsqrt tempRand d).lengthSquared
        = (Dot.blendVect fsqrt tempRand d).lengthSquared →
      (Dot.updateLoc fsqrt parentSize tempRand d).m_curMoveVect.lengthSquared
        = (d.m_moveDist : ℚ) ^ 2) ∧
    (∀ X Y : ℝ,
      X = (d.m_curMoveVect.x : ℝ) * ((MOTION_WEIGHT_DEFAULT : ℚ) : ℝ)
          + (Dot.randIntX tempRand d.m_moveDist : ℝ) * (1 - ((MOTION_WEIGHT_DEFAULT : ℚ) : ℝ)) →
      Y = (d.m_curMoveVect.y : ℝ) * ((MOTION_WEIGHT_DEFAULT : ℚ) : ℝ)
          + ((Dot.ySign tempRand : ℝ) * Real.sqrt ((d.m_moveDist : ℝ) ^ 2
              - (Dot.randIntX tempRand d.m_moveDist : ℝ) ^ 2))
            * (1 - ((MOTION_WEIGHT_DEFAULT : ℚ) : ℝ)) →
      1 / 200 ≤ X * X + Y * Y ∧
      (1 / 1000000000000 < |X * X + Y * Y - 1| →
        (X / Real.sqrt (X * X + Y * Y) * (d.m_moveDist : ℝ)) ^ 2
          + (Y / Real.sqrt (X * X + Y * Y) * (d.m_moveDist : ℝ)) ^ 2
          = (d.m_moveDist : ℝ) ^ 2) ∧
      (|X * X + Y * Y - 1| ≤ 1 / 1000000000000 →
        |(X * (d.m_moveDist : ℝ)) ^ 2 + (Y * (d.m_moveDist : ℝ)) ^ 2 - (d.m_moveDist : ℝ) ^ 2|
          ≤ (d.m_moveDist : ℝ) ^ 2 * (1 / 1000000000000))) := by
  have hinv : d.velocityNearStep := by
    rw [hd]
    exact calls_velocityNearStep fsqrt ε hε0 hε hacc calls _
      (ctor_velocityNearStep parentSize0 location)
  have hge := blendVect_lengthSquared_ge_near fsqrt ε hε0 hε hacc tempRand d hinv
  refine ⟨updateLoc_velocity_lengthSquared fsqrt parentSize tempRand d, hge,
    updateLoc_velocity_near fsqrt ε hε0 hε hacc parentSize tempRand d hinv, ?_, ?_⟩
  · intro h1 hex
    rw [updateLoc_velocity_lengthSquared]
    exact normalized_scale_exact fsqrt _ _ hge h1 hex
  · intro X Y hX hY
    have hw : ((MOTION_WEIGHT_DEFAULT : ℚ) : ℝ) = 7 / 10 := by
      simp only [MOTION_WEIGHT_DEFAULT]
      norm_num
    rw [hw] at hX hY
    have hL : 1 / 200 ≤ X * X + Y * Y := by
      rw [hX, hY]
      exact real_blend_lengthSquared_ge d hinv tempRand
    have hmm : (0 : ℝ) ≤ (d.m_moveDist : ℝ) ^ 2 := by positivity
    refine ⟨hL, ?_, ?_⟩
    · intro _
      have hpos : 0 < X * X + Y * Y := by linarith
      have hsq : Real.sqrt (X * X + Y * Y) ≠ 0 := (Real.sqrt_pos.mpr hpos).ne'
      have hss : Real.sqrt (X * X + Y * Y) ^ 2 = X * X + Y * Y := Real.sq_sqrt hpos.le
      have e : (X / Real.sqrt (X * X + Y * Y) * (d.m_moveDist : ℝ)) ^ 2
          + (Y / Real.sqrt (X * X + Y * Y) * (d.m_moveDist : ℝ)) ^ 2
          = (d.m_moveDist : ℝ) ^ 2 * ((X * X + Y * Y) / Real.sqrt (X * X + Y * Y) ^ 2) := by
        field_simp
        ring
      rw [e, hss, div_self hpos.ne', mul_one]
    · intro hclose
      have e : (X * (d.m_moveDist : ℝ)) ^ 2 + (Y * (d.m_moveDist : ℝ)) ^ 2
          - (d.m_moveDist : ℝ) ^ 2 = (d.m_moveDist : ℝ) ^ 2 * (X * X + Y * Y - 1) := by ring
      rw [e, abs_mul, abs_of_nonneg hmm]
      exact mul_le_mul_of_nonneg_left hclose hmm

/-- Witness of C24: `sqrtScaled` has relative accuracy 1/5000; the dot is made
large (step 5), moved, made small (step 2) and put into the corner (0, 0),
where the move for the draw 11 is clamped. -/
theorem updateLoc_velocity_length_witness :
    |(Dot.updateLoc sqrtScaled ⟨100, 100⟩ 11
        (Dot.calls sqrtScaled
          [DotCall.setm_dotSize 50, DotCall.updateLoc ⟨100, 100⟩ 4, DotCall.setm_dotSize 8,
            DotCall.setPos ⟨100, 100⟩ ⟨0, 0⟩]
          (Dot.ctor ⟨100, 100⟩ ⟨50, 50⟩))).m_curMoveVect.lengthSquared
        - (((Dot.calls sqrtScaled
          [DotCall.setm_dotSize 50, DotCall.updateLoc ⟨100, 100⟩ 4, DotCall.setm_dotSize 8,
            DotCall.setPos ⟨100, 100⟩ ⟨0, 0⟩]
          (Dot.ctor ⟨100, 100⟩ ⟨50, 50⟩)).m_moveDist : Nat) : ℚ) ^ 2|
      ≤ (((Dot.calls sqrtScaled
          [DotCall.setm_dotSize 50, DotCall.updateLoc ⟨100, 100⟩ 4, DotCall.setm_dotSize 8,
            DotCall.setPos ⟨100, 100⟩ ⟨0, 0⟩]
          (Dot.ctor ⟨100, 100⟩ ⟨50, 50⟩)).m_moveDist : Nat) : ℚ) ^ 2
        * (2 * (1 / 5000) + 1 / 1000000000000) :=
  (updateLoc_velocity_length sqrtScaled (1 / 5000) (by norm_num) (by norm_num)
    sqrtScaled_accurate ⟨100, 100⟩ ⟨50, 50⟩
    [DotCall.setm_dotSize 50, DotCall.updateLoc ⟨100, 100⟩ 4, DotCall.setm_dotSize 8,
      DotCall.setPos ⟨100, 100⟩ ⟨0, 0⟩]
    _ rfl ⟨100, 100⟩ 11).2.2.1

/-- Elapsed-time ticks on a running game without time limit: the game stays
RUNNING, no `gameOver` signal is emitted and the `uint` elapsed time advances
by the number of ticks modulo 2^32. -/
lemma ticks_without_limit (w : DotWidget) (k : Nat)
    (hrun : w.m_gameState = dotGameState.RUNNING) (hinf : w.m_gameLength = INFINITE)
    (he : w.m_elapsedGameTime < 4294967296) :
    (DotWidget.ticks k w).m_gameState = dotGameState.RUNNING ∧
    (DotWidget.ticks k w).m_gameLength = INFINITE ∧
    (DotWidget.ticks k w).gameOverSignals = w.gameOverSignals ∧
    (DotWidget.ticks k w).m_elapsedGameTime = (w.m_elapsedGameTime + k) % 4294967296 := by
  induction k with
  | zero => exact ⟨hrun, hinf, rfl, by simp only [DotWidget.ticks]; omega⟩
  | succ k ih =>
    obtain ⟨h1, h2, h3, h4⟩ := ih
    have hno : ¬ (((DotWidget.ticks k w).m_elapsedGameTime + 1) % 4294967296
        ≥ (DotWidget.ticks k w).m_gameLength ∧
        (DotWidget.ticks k w).m_gameLength ≠ INFINITE) := fun hc => hc.2 h2
    have hstep : (DotWidget.ticks k w).updateElapsedGameTime =
        { DotWidget.ticks k w with
          m_elapsedGameTime := ((DotWidget.ticks k w).m_elapsedGameTime + 1) % 4294967296 } := by
      simp only [DotWidget.updateElapsedGameTime, h1, if_true]
      rw [if_neg hno]
    simp only [DotWidget.ticks]
    rw [hstep]
    refine ⟨h1, h2, h3, ?_⟩
    show ((DotWidget.ticks k w).m_elapsedGameTime + 1) % 4294967296
      = (w.m_elapsedGameTime + (k + 1)) % 4294967296
    rw [h4]
    omega

/-- The state after `k` ticks of a game started without time limit. -/
lemma ticks_from_start_without_limit (w : DotWidget) (k : Nat) :
    (DotWidget.ticks k (w.setTimeLimit 0).2.startGame).m_gameState = dotGameState.RUNNING ∧
    (DotWidget.ticks k (w.setTimeLimit 0).2.startGame).gameOverSignals = w.gameOverSignals ∧
    (DotWidget.ticks k (w.setTimeLimit 0).2.startGame).m_elapsedGameTime
      = k % 4294967296 := by
  have hrun : (w.setTimeLimit 0).2.startGame.m_gameState = dotGameState.RUNNING := rfl
  have hinf : (w.setTimeLimit 0).2.startGame.m_gameLength = INFINITE := by
    simp [DotWidget.setTimeLimit, DotWidget.startGame, DotWidget.unpauseGame,
      DotWidget.resetGameStats, toUInt, INFINITE]
  have he : (w.setTimeLimit 0).2.startGame.m_elapsedGameTime = 0 := rfl
  have hsig : (w.setTimeLimit 0).2.startGame.gameOverSignals = w.gameOverSignals := by
    simp [DotWidget.setTimeLimit, DotWidget.startGame, DotWidget.unpauseGame,
      DotWidget.resetGameStats]
  obtain ⟨h1, _, h3, h4⟩ := ticks_without_limit _ k hrun hinf (by rw [he]; norm_num)
  refine ⟨h1, by rw [h3, hsig], ?_⟩
  rw [h4, he]
  omega

/-- C25, as amended: `setTimeLimit(0)` is accepted, and in a game started
with the time limit INFINITE the state after any number k of elapsed-time
ticks is RUNNING, no `gameOver` signal has been emitted, and the elapsed time
is k modulo 2^32: k itself for k < 4294967296. -/
theorem ticks_never_end_unlimited_game (w : DotWidget) (k : Nat) :
    (w.setTimeLimit 0).1 = true ∧
    (w.setTimeLimit 0).2.m_gameLength = INFINITE ∧
    (DotWidget.ticks k (w.setTimeLimit 0).2.startGame).m_gameState = dotGameState.RUNNING ∧
    (DotWidget.ticks k (w.setTimeLimit 0).2.startGame).gameOverSignals = w.gameOverSignals ∧
    (DotWidget.ticks k (w.setTimeLimit 0).2.startGame).m_elapsedGameTime
      = k % 4294967296 ∧
    (k < 4294967296 →
      (DotWidget.ticks k (w.setTimeLimit 0).2.startGame).m_elapsedGameTime = k) := by
  have hlim : (w.setTimeLimit 0).2.m_gameLength = INFINITE := by
    simp [DotWidget.setTimeLimit, toUInt, INFINITE]
  obtain ⟨hr, hs, he⟩ := ticks_from_start_without_limit w k
  refine ⟨by simp [DotWidget.setTimeLimit], hlim, hr, hs, he, fun hk => ?_⟩
  rw [he]
  exact Nat.mod_eq_of_lt hk

/-- Witness of C25: 100000 ticks (more than a day) on a new widget. -/
theorem ticks_never_end_unlimited_game_witness :
    (DotWidget.ticks 100000
      ((DotWidget.ctor ⟨100, 100⟩).setTimeLimit 0).2.startGame).m_elapsedGameTime = 100000 :=
  (ticks_never_end_unlimited_game (DotWidget.ctor ⟨100, 100⟩) 100000).2.2.2.2.2 (by decide)

/-- Counterexample to C25 as stated: after 4294967296 ticks of a game started
without time limit on a new widget the `uint` elapsed time is 0, not
4294967296. -/
theorem elapsed_time_wraps_unlimited_game :
    (DotWidget.ticks 4294967296
      ((DotWidget.ctor ⟨100, 100⟩).setTimeLimit 0).2.startGame).m_elapsedGameTime = 0 ∧
    (DotWidget.ticks 4294967296
      ((DotWidget.ctor ⟨100, 100⟩).setTimeLimit 0).2.startGame).m_elapsedGameTime
      ≠ 4294967296 := by
  have h := (ticks_from_start_without_limit (DotWidget.ctor ⟨100, 100⟩) 4294967296).2.2
  have h0 : (4294967296 : Nat) % 4294967296 = 0 := by norm_num
  rw [h0] at h
  exact ⟨h, by rw [h]; decide⟩

/-- C26: `pauseGame` is idempotent: a second call changes nothing; after a
call all four timers are stopped and the state is PAUSED, and the score, the
elapsed time, the running average and the speed are those before the call. -/
theorem pauseGame_idempotent (w : DotWidget) :
    w.pauseGame.pauseGame = w.pauseGame ∧
    w.pauseGame.m_dotTimer.active = false ∧
    w.pauseGame.m_gameStatsTimer.active = false ∧
    w.pauseGame.m_accelerationTimer.active = false ∧
    w.pauseGame.m_secondTimerPtr.active = false ∧
    w.pauseGame.m_gameState = dotGameState.PAUSED ∧
    w.pauseGame.m_score = w.m_score ∧
    w.pauseGame.m_elapsedGameTime = w.m_elapsedGameTime ∧
    w.pauseGame.m_runningAvgErrorRatio = w.m_runningAvgErrorRatio ∧
    w.pauseGame.m_dotSpeed = w.m_dotSpeed :=
  ⟨rfl, rfl, rfl, rfl, rfl, rfl, rfl, rfl, rfl, rfl⟩

/-- C27, the code at the failing input: on a new widget speed and timer
interval are both 40; after `startGame()` and one `increaseDotSpeed()` tick
the speed (the value of `getDotSpeed`) is 39 and the interval of `m_dotTimer`
is still 40. `resetGameStats` does the same: after `setDotSpeedNeg(-30)` in the
running game and a new `startGame()` the speed is back at the user setting 40
and the interval is 30. -/
theorem increaseDotSpeed_leaves_timer_interval :
    (DotWidget.ctor ⟨100, 100⟩).m_dotSpeed = 40 ∧
    (DotWidget.ctor ⟨100, 100⟩).m_dotTimer.interval = 40 ∧
    (DotWidget.ctor ⟨100, 100⟩).startGame.increaseDotSpeed.getDotSpeed = 39 ∧
    (DotWidget.ctor ⟨100, 100⟩).startGame.increaseDotSpeed.m_dotTimer.interval = 40 ∧
    (DotWidget.ctor ⟨100, 100⟩).startGame.increaseDotSpeed.m_dotTimer.interval
      ≠ (DotWidget.ctor ⟨100, 100⟩).startGame.increaseDotSpeed.m_dotSpeed ∧
    ((DotWidget.ctor ⟨100, 100⟩).startGame.setDotSpeedNeg (-30)).2.startGame.m_dotSpeed = 40 ∧
    ((DotWidget.ctor ⟨100, 100⟩).startGame.setDotSpeedNeg
      (-30)).2.startGame.m_dotTimer.interval = 30 := by
  decide

/-- `sqrtMilli` returns no negative value. -/
lemma sqrtMilli_nonneg (q : ℚ) : 0 ≤ sqrtMilli q := by
  unfold sqrtMilli
  positivity

/-- The error ratio sampled by `calcPosErrorRatio` is not negative when the
square root returns no negative value. -/
lemma calcPosErrorRatio_nonneg (fsqrt : ℚ → ℚ) (hsqrt : ∀ q, 0 ≤ fsqrt q)
    (mousePos : QPoint) (d : Dot) : 0 ≤ d.calcPosErrorRatio fsqrt mousePos := by
  simp only [Dot.calcPosErrorRatio]
  exact div_nonneg (hsqrt _) (Nat.cast_nonneg _)

/-- The new running average is (15 a + r) / 16. -/
lemma newRunningAvg_eq (r : ℚ) (w : DotWidget) :
    w.newRunningAvg r = (15 * w.m_runningAvgErrorRatio + r) / 16 := by
  simp only [DotWidget.newRunningAvg, ERROR_AVERAGING_RATIO]
  norm_num
  ring

/-- Every event keeps a running average that is >= 0. -/
lemma step_avg_nonneg (fsqrt : ℚ → ℚ) (hsqrt : ∀ q, 0 ≤ fsqrt q) (ev : SessionEvent)
    (w : DotWidget) (h : 0 ≤ w.m_runningAvgErrorRatio) :
    0 ≤ (w.step fsqrt ev).m_runningAvgErrorRatio := by
  cases ev with
  | click =>
    simp only [DotWidget.step, DotWidget.screenClicked]
    split
    · exact h
    · exact h
    · show (0 : ℚ) ≤ RUNNING_AVERAGE_ERROR_DEFAULT
      norm_num [RUNNING_AVERAGE_ERROR_DEFAULT]
  | secondTick =>
    simp only [DotWidget.step, DotWidget.updateElapsedGameTime]
    split_ifs <;> exact h
  | sample mousePosition =>
    simp only [DotWidget.step, DotWidget.calcGameStats]
    rw [calcGameStatsWith_avg, newRunningAvg_eq]
    have hr := calcPosErrorRatio_nonneg fsqrt hsqrt mousePosition w.m_gameDot
    apply div_nonneg _ (by norm_num)
    linarith
  | dotMove parentSize tempRand => exact h
  | accelTick =>
    simp only [DotWidget.step, DotWidget.increaseDotSpeed]
    split_ifs <;> exact h
  | setSpeed newSpeedMs =>
    simp only [DotWidget.step, DotWidget.setDotSpeedNeg]
    split_ifs <;> exact h
  | setAccel newAcceleration =>
    simp only [DotWidget.step, DotWidget.setDotAcceleration]
    split_ifs <;> exact h
  | setLimit timeLimit =>
    simp only [DotWidget.step, DotWidget.setTimeLimit]
    split_ifs <;> exact h
  | setSize newSize => exact h

/-- Every sequence of events keeps a running average that is >= 0. -/
lemma run_avg_nonneg (fsqrt : ℚ → ℚ) (hsqrt : ∀ q, 0 ≤ fsqrt q)
    (events : List SessionEvent) (w : DotWidget) (h : 0 ≤ w.m_runningAvgErrorRatio) :
    0 ≤ (DotWidget.run fsqrt events w).m_runningAvgErrorRatio := by
  induction events generalizing w with
  | nil => exact h
  | cons ev rest ih => exact ih _ (step_avg_nonneg fsqrt hsqrt ev w h)

/-- C28: with a square root that returns no negative value, the sampled error
ratio r is >= 0 and, for a prior running average a >= 0, the running average
after `calcGameStats` lies between min(a, r) and max(a, r); the running average
is >= 0 in every state reached from `startGame()` by any sequence of events. -/
theorem calcGameStats_avg_between (fsqrt : ℚ → ℚ) (hsqrt : ∀ q, 0 ≤ fsqrt q)
    (mousePosition : QPoint) (w w0 : DotWidget) (events : List SessionEvent)
    (_ha : 0 ≤ w.m_runningAvgErrorRatio) :
    0 ≤ w.m_gameDot.calcPosErrorRatio fsqrt mousePosition ∧
    min w.m_runningAvgErrorRatio (w.m_gameDot.calcPosErrorRatio fsqrt mousePosition)
      ≤ (w.calcGameStats fsqrt mousePosition).m_runningAvgErrorRatio ∧
    (w.calcGameStats fsqrt mousePosition).m_runningAvgErrorRatio
      ≤ max w.m_runningAvgErrorRatio (w.m_gameDot.calcPosErrorRatio fsqrt mousePosition) ∧
    0 ≤ (w.calcGameStats fsqrt mousePosition).m_runningAvgErrorRatio ∧
    0 ≤ (DotWidget.run fsqrt events w0.startGame).m_runningAvgErrorRatio := by
  have hr := calcPosErrorRatio_nonneg fsqrt hsqrt mousePosition w.m_gameDot
  have havg : (w.calcGameStats fsqrt mousePosition).m_runningAvgErrorRatio
      = (15 * w.m_runningAvgErrorRatio
          + w.m_gameDot.calcPosErrorRatio fsqrt mousePosition) / 16 := by
    simp only [DotWidget.calcGameStats]
    rw [calcGameStatsWith_avg, newRunningAvg_eq]
  refine ⟨hr, ?_, ?_, ?_, ?_⟩
  · rw [havg]
    rcases le_total w.m_runningAvgErrorRatio
      (w.m_gameDot.calcPosErrorRatio fsqrt mousePosition) with hle | hle
    · rw [min_eq_left hle]
      linarith
    · rw [min_eq_right hle]
      linarith
  · rw [havg]
    rcases le_total w.m_runningAvgErrorRatio
      (w.m_gameDot.calcPosErrorRatio fsqrt mousePosition) with hle | hle
    · rw [max_eq_right hle]
      linarith
    · rw [max_eq_left hle]
      linarith
  · rw [havg]
    apply div_nonneg _ (by norm_num)
    linarith
  · apply run_avg_nonneg fsqrt hsqrt
    show (0 : ℚ) ≤ RUNNING_AVERAGE_ERROR_DEFAULT
    norm_num [RUNNING_AVERAGE_ERROR_DEFAULT]

/-- Witness of C28: a new game sampled with the pointer 1449 pixels from the
dot, and the game after a dot move, two samples and a tick. -/
theorem calcGameStats_avg_between_witness :
    min (DotWidget.ctor ⟨100, 100⟩).startGame.m_runningAvgErrorRatio
        ((DotWidget.ctor ⟨100, 100⟩).startGame.m_gameDot.calcPosErrorRatio sqrtMilli
          ⟨1499, 50⟩)
      ≤ ((DotWidget.ctor ⟨100, 100⟩).startGame.calcGameStats sqrtMilli
          ⟨1499, 50⟩).m_runningAvgErrorRatio ∧
    0 ≤ (DotWidget.run sqrtMilli
      [SessionEvent.dotMove ⟨100, 100⟩ 6, SessionEvent.sample ⟨70, 20⟩,
        SessionEvent.secondTick, SessionEvent.sample ⟨10, 90⟩]
      (DotWidget.ctor ⟨100, 100⟩).startGame).m_runningAvgErrorRatio :=
  ⟨(calcGameStats_avg_between sqrtMilli sqrtMilli_nonneg ⟨1499, 50⟩
      (DotWidget.ctor ⟨100, 100⟩).startGame (DotWidget.ctor ⟨100, 100⟩)
      [SessionEvent.dotMove ⟨100, 100⟩ 6, SessionEvent.sample ⟨70, 20⟩,
        SessionEvent.secondTick, SessionEvent.sample ⟨10, 90⟩]
      (by rw [startGame_ctor_stats.2.1]; norm_num)).2.1,
   (calcGameStats_avg_between sqrtMilli sqrtMilli_nonneg ⟨1499, 50⟩
      (DotWidget.ctor ⟨100, 100⟩).startGame (DotWidget.ctor ⟨100, 100⟩)
      [SessionEvent.dotMove ⟨100, 100⟩ 6, SessionEvent.sample ⟨70, 20⟩,
        SessionEvent.secondTick, SessionEvent.sample ⟨10, 90⟩]
      (by rw [startGame_ctor_stats.2.1]; norm_num)).2.2.2.2⟩

/-- The state left by `setGameOver` with a reason other than NO_GAME_OVER is
consistent. -/
lemma setGameOver_consistent (reason : gameOverReason) (w : DotWidget)
    (hr : reason = gameOverReason.TIME_LIMIT ∨ reason = gameOverReason.DISTANCE) :
    (w.setGameOver reason).gameOverConsistent := by
  intro _
  exact ⟨hr, rfl, rfl, rfl, rfl⟩

/-- A state that is not GAMEOVER is consistent. -/
lemma consistent_of_not_gameOver (w : DotWidget)
    (h : w.m_gameState ≠ dotGameState.GAMEOVER) : w.gameOverConsistent :=
  fun hg => absurd hg h

/-- Every event keeps the session state consistent. -/
lemma step_consistent (fsqrt : ℚ → ℚ) (ev : SessionEvent) (w : DotWidget)
    (h : w.gameOverConsistent) : (w.step fsqrt ev).gameOverConsistent := by
  cases ev with
  | click =>
    apply consistent_of_not_gameOver
    simp only [DotWidget.step, DotWidget.screenClicked]
    split <;> simp [DotWidget.pauseGame, DotWidget.unpauseGame, DotWidget.startGame]
  | secondTick =>
    simp only [DotWidget.step, DotWidget.updateElapsedGameTime]
    split_ifs with h1 h2
    · exact setGameOver_consistent _ _ (Or.inl rfl)
    · apply consistent_of_not_gameOver
      show w.m_gameState ≠ dotGameState.GAMEOVER
      rw [h1]
      decide
    · exact h
  | sample mousePosition =>
    simp only [DotWidget.step, DotWidget.calcGameStats, DotWidget.calcGameStatsWith]
    split_ifs
    · exact setGameOver_consistent _ _ (Or.inr rfl)
    · exact h
  | dotMove parentSize tempRand => exact h
  | accelTick =>
    simp only [DotWidget.step, DotWidget.increaseDotSpeed]
    split_ifs
    · intro hg
      obtain ⟨a, b, c, _, e⟩ := h hg
      exact ⟨a, b, c, rfl, e⟩
    · exact h
  | setSpeed newSpeedMs =>
    simp only [DotWidget.step, DotWidget.setDotSpeedNeg]
    split_ifs
    · intro hg
      obtain ⟨a, b, c, d, e⟩ := h hg
      exact ⟨a, b, c, d, e⟩
    · intro hg
      obtain ⟨a, b, c, d, e⟩ := h hg
      exact ⟨a, b, c, d, e⟩
    · exact h
  | setAccel newAcceleration =>
    simp only [DotWidget.step, DotWidget.setDotAcceleration]
    split_ifs with h1 h2 h3
    · apply consistent_of_not_gameOver
      show w.m_gameState ≠ dotGameState.GAMEOVER
      rw [h2.2]
      decide
    · intro hg
      obtain ⟨a, b, c, _, e⟩ := h hg
      exact ⟨a, b, c, rfl, e⟩
    · apply consistent_of_not_gameOver
      show w.m_gameState ≠ dotGameState.GAMEOVER
      rw [h3.2]
      decide
    · intro hg
      obtain ⟨a, b, c, _, e⟩ := h hg
      exact ⟨a, b, c, rfl, e⟩
  | setLimit timeLimit =>
    simp only [DotWidget.step, DotWidget.setTimeLimit]
    split_ifs
    · exact h
    · exact h
  | setSize newSize => exact h

/-- Every sequence of events keeps the session state consistent. -/
lemma run_consistent (fsqrt : ℚ → ℚ) (events : List SessionEvent) (w : DotWidget)
    (h : w.gameOverConsistent) : (DotWidget.run fsqrt events w).gameOverConsistent := by
  induction events generalizing w with
  | nil => exact h
  | cons ev rest ih => exact ih _ (step_consistent fsqrt ev w h)

/-- C29: in every session state reached from the constructor by a sequence of
events (clicks, elapsed-time ticks and statistics samples among them), a
GAMEOVER state has the last game-over reason TIME_LIMIT or DISTANCE and all
four periodic timers stopped. -/
theorem gameOver_state_has_reason (fsqrt : ℚ → ℚ) (winSize : QSize)
    (events : List SessionEvent)
    (hg : (DotWidget.run fsqrt events (DotWidget.ctor winSize)).m_gameState
      = dotGameState.GAMEOVER) :
    ((DotWidget.run fsqrt events (DotWidget.ctor winSize)).m_lastGameOverReason
        = gameOverReason.TIME_LIMIT ∨
      (DotWidget.run fsqrt events (DotWidget.ctor winSize)).m_lastGameOverReason
        = gameOverReason.DISTANCE) ∧
    (DotWidget.run fsqrt events (DotWidget.ctor winSize)).m_lastGameOverReason
      ≠ gameOverReason.NO_GAME_OVER ∧
    (DotWidget.run fsqrt events (DotWidget.ctor winSize)).m_dotTimer.active = false ∧
    (DotWidget.run fsqrt events (DotWidget.ctor winSize)).m_gameStatsTimer.active = false ∧
    (DotWidget.run fsqrt events (DotWidget.ctor winSize)).m_accelerationTimer.active = false ∧
    (DotWidget.run fsqrt events (DotWidget.ctor winSize)).m_secondTimerPtr.active = false := by
  have hinit : (DotWidget.ctor winSize).gameOverConsistent :=
    consistent_of_not_gameOver _ (by simp [DotWidget.ctor])
  obtain ⟨hr, h1, h2, h3, h4⟩ := run_consistent fsqrt events _ hinit hg
  refine ⟨hr, ?_, h1, h2, h3, h4⟩
  rcases hr with hr | hr <;> rw [hr] <;> decide

/-- Witness of C29: a click and ten elapsed-time ticks on a new widget end the
game by the default time limit of 10 seconds. -/
theorem gameOver_state_has_reason_witness :
    ((DotWidget.run sqrtMilli
        (SessionEvent.click :: List.replicate 10 SessionEvent.secondTick)
        (DotWidget.ctor ⟨100, 100⟩)).m_lastGameOverReason = gameOverReason.TIME_LIMIT ∨
      (DotWidget.run sqrtMilli
        (SessionEvent.click :: List.replicate 10 SessionEvent.secondTick)
        (DotWidget.ctor ⟨100, 100⟩)).m_lastGameOverReason = gameOverReason.DISTANCE) ∧
    (DotWidget.run sqrtMilli
        (SessionEvent.click :: List.replicate 10 SessionEvent.secondTick)
        (DotWidget.ctor ⟨100, 100⟩)).m_dotTimer.active = false :=
  ⟨(gameOver_state_has_reason sqrtMilli ⟨100, 100⟩
      (SessionEvent.click :: List.replicate 10 SessionEvent.secondTick) (by decide)).1,
   (gameOver_state_has_reason sqrtMilli ⟨100, 100⟩
      (SessionEvent.click :: List.replicate 10 SessionEvent.secondTick) (by decide)).2.2.1⟩

/-- C30: from a RUNNING state two `screenClicked` calls (pause, then resume)
return to RUNNING with the score, the elapsed time, the running average, the
dot speed, the user speed setting, the acceleration, the time limit and the
last game-over reason unchanged. -/
theorem screenClicked_twice_resumes (w : DotWidget)
    (hrun : w.m_gameState = dotGameState.RUNNING) :
    w.screenClicked.screenClicked.m_gameState = dotGameState.RUNNING ∧
    w.screenClicked.screenClicked.m_score = w.m_score ∧
    w.screenClicked.screenClicked.m_elapsedGameTime = w.m_elapsedGameTime ∧
    w.screenClicked.screenClicked.m_runningAvgErrorRatio = w.m_runningAvgErrorRatio ∧
    w.screenClicked.screenClicked.m_dotSpeed = w.m_dotSpeed ∧
    w.screenClicked.screenClicked.m_dotSpeedUserSetting = w.m_dotSpeedUserSetting ∧
    w.screenClicked.screenClicked.m_dotAcceleration = w.m_dotAcceleration ∧
    w.screenClicked.screenClicked.m_gameLength = w.m_gameLength ∧
    w.screenClicked.screenClicked.m_lastGameOverReason = w.m_lastGameOverReason := by
  have e1 : w.screenClicked = w.pauseGame := by
    simp only [DotWidget.screenClicked, hrun]
  have e2 : w.pauseGame.screenClicked = w.pauseGame.unpauseGame := by
    have hp : w.pauseGame.m_gameState = dotGameState.PAUSED := rfl
    simp only [DotWidget.screenClicked, hp]
  rw [e1, e2]
  exact ⟨rfl, rfl, rfl, rfl, rfl, rfl, rfl, rfl, rfl⟩

/-- Witness of C30: two clicks on a new game. -/
theorem screenClicked_twice_resumes_witness :
    (DotWidget.ctor ⟨100, 100⟩).startGame.screenClicked.screenClicked.m_gameState
      = dotGameState.RUNNING ∧
    (DotWidget.ctor ⟨100, 100⟩).startGame.screenClicked.screenClicked.m_score
      = (DotWidget.ctor ⟨100, 100⟩).startGame.m_score :=
  ⟨(screenClicked_twice_resumes (DotWidget.ctor ⟨100, 100⟩).startGame rfl).1,
   (screenClicked_twice_resumes (DotWidget.ctor ⟨100, 100⟩).startGame rfl).2.1⟩

end DotGame
